import Mathlib

/-
Verification development for the Pong-Arena server (src/server.js).

The JavaScript source is shallowly embedded:
* JS numbers are modelled by real numbers where only finite values occur
  (the physics in the finite regime), and by an explicit IEEE-style wrapper
  type JSF (finite / NaN / plus-or-minus infinity) where the non-finite
  behaviour itself is under scrutiny.
* JS Maps keyed by player name are modelled by association lists.
* Calls to Math.random are modelled by explicit rational or real parameters
  carrying the hypothesis that they lie in the interval from 0 inclusive
  to 1 exclusive.
* setInterval / setTimeout callbacks are modelled as events of a small-step
  machine; a scheduled timeout is a boolean flag in the state, and firing an
  unscheduled timeout is a no-op.
-/

namespace PongArena

/-! GAME_CONFIG constants (src/server.js lines 22-39). -/

def CANVAS_WIDTH : ℚ := 900
def CANVAS_HEIGHT : ℚ := 500
def PADDLE_WIDTH : ℚ := 15
def PADDLE_HEIGHT : ℚ := 80
def BALL_SIZE : ℚ := 15
def PLAYER_SPEED : ℚ := 8
def MIN_BALL_SPEED : ℚ := 4
def MAX_BALL_SPEED : ℚ := 12
def SPEED_INCREMENT : ℚ := 1/20
def DEFAULT_MATCH_DURATION : ℤ := 180
def GOLDEN_GOAL_WARNING : ℤ := 5

/-! ## ScheduleGenerator: generateEnhancedFixtures (src/server.js lines 2915-2960)

The circle method: if the player count is odd a literal "BYE" placeholder is
appended; one player is held fixed and the rest rotate via
players.splice(1, 0, players.pop()); each round pairs position m with
position length-1-m, dropping pairings that involve the placeholder; the
second leg mirrors the first with home and away swapped. -/

structure Fixture where
  home : String
  away : String
  round : ℕ
deriving DecidableEq, Repr

/-- players.splice(1, 0, players.pop()): move the last element of the list
to position 1, keeping the head fixed.  Defined on the tail: move the last
element of a list to its front. -/
def moveLastToFront {α : Type} (l : List α) : List α :=
  match l.reverse with
  | [] => []
  | x :: xs => x :: xs.reverse

/-- The whole-array rotation performed once per round of the circle method. -/
def jsRotate {α : Type} (l : List α) : List α :=
  match l with
  | [] => []
  | h :: t => h :: moveLastToFront t

/-- One round of pairings: for match = 0 .. length/2 - 1, home is
players[match], away is players[length-1-match]; a pairing is kept only when
neither side is the "BYE" placeholder (src/server.js lines 2930-2943). -/
def circleRound (rnd : ℕ) (l : List String) : List Fixture :=
  (List.range (l.length / 2)).filterMap (fun m =>
    let home := l.getD m ""
    let away := l.getD (l.length - 1 - m) ""
    if home ≠ "BYE" ∧ away ≠ "BYE" then
      some { home := home, away := away, round := rnd + 1 }
    else
      none)

/-- The first-leg loop: `count` rounds from the current rotation state,
recording the pairings of the current list, then rotating
(src/server.js lines 2927-2947).  `rnd` is the 0-based round index. -/
def circleRounds (rnd : ℕ) : ℕ → List String → List (List Fixture)
  | 0, _ => []
  | count + 1, cur => circleRound rnd cur :: circleRounds (rnd + 1) count (jsRotate cur)

/-- generateEnhancedFixtures (src/server.js lines 2915-2960): pad an odd
player list with "BYE", run the circle method for length-1 rounds, then
append the mirrored second leg with home and away swapped and the round
index shifted by the number of first-leg rounds. -/
def generateEnhancedFixtures (players : List String) : List (List Fixture) :=
  let padded := if players.length % 2 = 1 then players ++ ["BYE"] else players
  let rounds := padded.length - 1
  let firstLeg := circleRounds 0 rounds padded
  let returnFixtures := firstLeg.enum.map (fun p =>
    p.2.map (fun f =>
      { home := f.away, away := f.home, round := p.1 + rounds + 1 }))
  firstLeg ++ returnFixtures

/-! ## GameInstance: per-match simulator state (src/server.js lines 1425-2173)

JS numbers are modelled by real numbers (the finite regime; the NaN and
infinity behaviour of updateBall is modelled separately by the JSF type
below).  Real-valued GAME_CONFIG constants. -/

noncomputable def CANVAS_WIDTH_R : ℝ := 900
noncomputable def CANVAS_HEIGHT_R : ℝ := 500
noncomputable def PADDLE_WIDTH_R : ℝ := 15
noncomputable def PADDLE_HEIGHT_R : ℝ := 80
noncomputable def BALL_SIZE_R : ℝ := 15
noncomputable def PLAYER_SPEED_R : ℝ := 8
noncomputable def MIN_BALL_SPEED_R : ℝ := 4
noncomputable def MAX_BALL_SPEED_R : ℝ := 12
noncomputable def SPEED_INCREMENT_R : ℝ := 1/20

/-- Buffered directional intent of one player (handlePlayerInput). -/
structure PlayerInput where
  up : Bool
  down : Bool
deriving DecidableEq

/-- The mutable per-match state of a GameInstance (constructor at
src/server.js lines 1426-1481), together with the booleans standing for
the live timer handles (gameTimer, loopTimeout, monitoringInterval) and
for the two one-shot timeouts scheduled by the golden-goal logic:
pendingGoldenEntry is the 5-second setTimeout of triggerGoldenGoalWarning,
pendingGoldenEnd the 2-second setTimeout of handleGoal in golden-goal
mode. -/
structure GameInst where
  matchId : String
  player1 : String
  player2 : String
  isTournamentMatch : Bool
  ballX : ℝ
  ballY : ℝ
  ballSpeedX : ℝ
  ballSpeedY : ℝ
  player1Y : ℝ
  player2Y : ℝ
  serverTick : ℕ
  score1 : ℕ
  score2 : ℕ
  gameActive : Bool
  timeLeft : ℤ
  goldenGoalMode : Bool
  goldenGoalWarning : Bool
  gamePausedForGoldenGoal : Bool
  cleanedUp : Bool
  rallyCount : ℕ
  maxRally : ℕ
  input1 : PlayerInput
  input2 : PlayerInput
  gameTimerOn : Bool
  loopOn : Bool
  monitoringOn : Bool
  pendingGoldenEntry : Bool
  pendingGoldenEnd : Bool

/-- Cumulative per-player record created on join
(src/server.js lines 2330-2352). -/
structure PlayerStats where
  matchesPlayed : ℕ
  wins : ℕ
  draws : ℕ
  losses : ℕ
  goalsFor : ℕ
  goalsAgainst : ℕ
  saves : ℕ
  shots : ℕ
  accuracy : ℝ
  points : ℕ
  totalPlayTime : ℝ
  averageGoalsPerMatch : ℝ
  averageConcededPerMatch : ℝ
  formGuide : List Char
  disconnected : Bool

/-- The per-match record held in gameState.matches
(src/server.js lines 3038-3050 and 2802-2813), restricted to the fields
endGame mutates or reads. -/
structure MatchRecord where
  player1 : String
  player2 : String
  finished : Bool
  finalScore1 : ℕ
  finalScore2 : ℕ
  winner : Option String
  duration : ℝ
  maxRally : ℕ
  isTournamentMatch : Bool

/-- Discrete events emitted to subscribers; broadcast-only state snapshots
and timer updates carry no claim-relevant information and are elided. -/
inductive Emit where
  | goldenGoalWarningEvt
  | paddleHitEvt (player : String)
  | goalScoredEvt (scorer : String) (s1 s2 : ℕ) (golden : Bool)
  | matchFinishedEvt (winner : Option String) (reason : String)
  | reportUpwardEvt
  | playerDisconnectedEvt (player : String)
deriving DecidableEq

/-- The process-wide shared state (gameState, src/server.js lines 1062-1101)
restricted to what the modelled operations touch.  JS Maps keyed by player
name or match id are association lists with distinct keys. -/
structure World where
  players : List (String × PlayerStats)
  matchesMap : List (String × MatchRecord)
  activeGames : List (String × GameInst)
  completedMatches : ℕ
  resultsIds : List String
  statTotalGoals : ℕ
  statLongestRally : ℕ
  statTotalShots : ℕ
  statTotalSaves : ℕ
  averageMatchDuration : ℝ
  graceTimers : List String
  leagueStarted : Bool

/-- Map.get followed by in-place mutation of the stored object: rewrite the
value at the given key. -/
def updEntry {V : Type} (k : String) (f : V → V) :
    List (String × V) → List (String × V) :=
  List.map (fun p => if p.1 = k then (p.1, f p.2) else p)

/-- score[name] of the two-key score object created in the constructor. -/
def scoreOf (g : GameInst) (name : String) : ℕ :=
  if name = g.player1 then g.score1 else g.score2

/-- score[name]++ on the two-key score object. -/
def bumpScore (g : GameInst) (name : String) : GameInst :=
  if name = g.player1 then { g with score1 := g.score1 + 1 }
  else { g with score2 := g.score2 + 1 }

/-! Physics, translated from updateBall and its callees
(src/server.js lines 1573-1769).  Each call to Math.random() becomes an
explicit real parameter named u followed by an index; hypotheses
0 ≤ u ∧ u < 1 accompany theorems that depend on its range. -/

/-- resetBall (src/server.js lines 1573-1586). -/
noncomputable def resetBall (u1 u2 u3 : ℝ) (g : GameInst) : GameInst :=
  let g := { g with
    ballX := CANVAS_WIDTH_R / 2 - BALL_SIZE_R / 2
    ballY := CANVAS_HEIGHT_R / 2 - BALL_SIZE_R / 2 }
  if g.gameActive then
    let speed := MIN_BALL_SPEED_R + u1 * 2
    { g with
      ballSpeedX := if u2 > 1/2 then speed else -speed
      ballSpeedY := (u3 - 1/2) * speed
      rallyCount := 0 }
  else
    { g with ballSpeedX := 0, ballSpeedY := 0 }

/-- checkWallCollisions (src/server.js lines 1657-1665): on contact with a
horizontal bound, invert the vertical speed, add a random perturbation in
the interval from -1/4 to 1/4, and clamp the position back inside. -/
noncomputable def checkWallCollisions (uw : ℝ) (g : GameInst) : GameInst :=
  if g.ballY ≤ 0 ∨ g.ballY + BALL_SIZE_R ≥ CANVAS_HEIGHT_R then
    let sy := -g.ballSpeedY + (uw - 1/2) * (1/2)
    { g with
      ballSpeedY := sy
      ballY := max 0 (min g.ballY (CANVAS_HEIGHT_R - BALL_SIZE_R)) }
  else g

/-- JS Math.sign on a real number. -/
noncomputable def jsSign (x : ℝ) : ℝ :=
  if x > 0 then 1 else if x < 0 then -1 else 0

/-- handlePaddleHit (src/server.js lines 1689-1728): invert the horizontal
speed, set the vertical speed from the hit offset, apply the percentage
speed increase, clamp each component to MAX_BALL_SPEED, reposition the
ball just outside the paddle, update the rally and the global shot
statistics, and emit a paddle-hit event. -/
noncomputable def handlePaddleHit (playerName : String) (paddleY : ℝ)
    (isLeftSide : Bool) (g : GameInst) (w : World) :
    GameInst × World × List Emit :=
  let sx0 := -g.ballSpeedX
  let ballCenterY := g.ballY + BALL_SIZE_R / 2
  let paddleCenterY := paddleY + PADDLE_HEIGHT_R / 2
  let hitPosition := (ballCenterY - paddleCenterY) / (PADDLE_HEIGHT_R / 2)
  let sy0 := hitPosition * 3
  let speedMultiplier := 1 + SPEED_INCREMENT_R
  let sx1 := sx0 * speedMultiplier
  let sy1 := sy0 * speedMultiplier
  let sx2 := jsSign sx1 * min (abs sx1) MAX_BALL_SPEED_R
  let sy2 := jsSign sy1 * min (abs sy1) MAX_BALL_SPEED_R
  let newX := if isLeftSide then PADDLE_WIDTH_R + 1
    else CANVAS_WIDTH_R - PADDLE_WIDTH_R - BALL_SIZE_R - 1
  let g := { g with
    ballSpeedX := sx2, ballSpeedY := sy2, ballX := newX,
    rallyCount := g.rallyCount + 1,
    maxRally := max g.maxRally (g.rallyCount + 1) }
  let w := { w with players := updEntry playerName (fun p =>
    { p with shots := p.shots + 1,
             accuracy := (p.goalsFor : ℝ) / max (p.shots + 1 : ℝ) 1 }) w.players }
  (g, w, [Emit.paddleHitEvt playerName])

/-- The left-paddle block of checkPaddleCollisions
(src/server.js lines 1670-1677). -/
noncomputable def leftPaddleCheck (g : GameInst) (w : World) :
    GameInst × World × List Emit :=
  if g.ballX ≤ PADDLE_WIDTH_R ∧ g.ballSpeedX < 0 ∧
      g.ballY + BALL_SIZE_R ≥ g.player1Y ∧
      g.ballY ≤ g.player1Y + PADDLE_HEIGHT_R then
    handlePaddleHit g.player1 g.player1Y true g w
  else (g, w, [])

/-- The right-paddle block of checkPaddleCollisions
(src/server.js lines 1679-1686). -/
noncomputable def rightPaddleCheck (g : GameInst) (w : World) :
    GameInst × World × List Emit :=
  if g.ballX + BALL_SIZE_R ≥ CANVAS_WIDTH_R - PADDLE_WIDTH_R ∧
      g.ballSpeedX > 0 ∧
      g.ballY + BALL_SIZE_R ≥ g.player2Y ∧
      g.ballY ≤ g.player2Y + PADDLE_HEIGHT_R then
    handlePaddleHit g.player2 g.player2Y false g w
  else (g, w, [])

/-- checkPaddleCollisions (src/server.js lines 1667-1687): the left block
followed by the right block on the updated state. -/
noncomputable def checkPaddleCollisions (g : GameInst) (w : World) :
    GameInst × World × List Emit :=
  let r1 := leftPaddleCheck g w
  let r2 := rightPaddleCheck r1.1 r1.2.1
  (r2.1, r2.2.1, r1.2.2 ++ r2.2.2)

/-- handleGoal (src/server.js lines 1740-1769): increment the score of the
scorer, update the per-player and global goal statistics, reset the ball,
emit the goal event, and in golden-goal mode schedule endGame after a
2-second delay. -/
noncomputable def handleGoal (scorer opponent : String) (u1 u2 u3 : ℝ)
    (g : GameInst) (w : World) : GameInst × World × List Emit :=
  let g := bumpScore g scorer
  let w := { w with
    players := updEntry opponent (fun p =>
        { p with goalsAgainst := p.goalsAgainst + 1 })
      (updEntry scorer (fun p => { p with goalsFor := p.goalsFor + 1 })
        w.players)
    statTotalGoals := w.statTotalGoals + 1
    statLongestRally := max w.statLongestRally g.rallyCount }
  let g := resetBall u1 u2 u3 g
  let ev := Emit.goalScoredEvt scorer g.score1 g.score2 g.goldenGoalMode
  if g.goldenGoalMode then
    ({ g with pendingGoldenEnd := true }, w, [ev])
  else
    (g, w, [ev])

/-- checkGoals (src/server.js lines 1730-1738). -/
noncomputable def checkGoals (u1 u2 u3 : ℝ) (g : GameInst) (w : World) :
    GameInst × World × List Emit :=
  if g.ballX < -BALL_SIZE_R then
    handleGoal g.player2 g.player1 u1 u2 u3 g w
  else if g.ballX > CANVAS_WIDTH_R + BALL_SIZE_R then
    handleGoal g.player1 g.player2 u1 u2 u3 g w
  else (g, w, [])

/-- updateBall (src/server.js lines 1630-1655) in the finite regime: clamp
the speed magnitude to MAX_BALL_SPEED * 1.5, integrate the position, then
run wall, paddle and goal checks.  The isNaN guard of the source is
vacuous over the reals; see updateBallJS below for the non-finite
behaviour. -/
noncomputable def clampBallSpeed (g : GameInst) : GameInst :=
  let maxSpeed := MAX_BALL_SPEED_R * 1.5
  let currentSpeed :=
    Real.sqrt (g.ballSpeedX * g.ballSpeedX + g.ballSpeedY * g.ballSpeedY)
  if currentSpeed > maxSpeed then
    let ratio := maxSpeed / currentSpeed
    { g with ballSpeedX := g.ballSpeedX * ratio,
             ballSpeedY := g.ballSpeedY * ratio }
  else g

noncomputable def updateBall (uw u1 u2 u3 : ℝ) (g : GameInst) (w : World) :
    GameInst × World × List Emit :=
  let g := clampBallSpeed g
  let g := { g with ballX := g.ballX + g.ballSpeedX,
                    ballY := g.ballY + g.ballSpeedY }
  let g := checkWallCollisions uw g
  let r := checkPaddleCollisions g w
  let r2 := checkGoals u1 u2 u3 r.1 r.2.1
  (r2.1, r2.2.1, r.2.2 ++ r2.2.2)

/-- updatePaddles (src/server.js lines 1601-1628). -/
noncomputable def updatePaddles (g : GameInst) : GameInst :=
  let p1a := if g.input1.up ∧ g.player1Y > 0 then
      max 0 (g.player1Y - PLAYER_SPEED_R) else g.player1Y
  let p1b := if g.input1.down ∧ p1a < CANVAS_HEIGHT_R - PADDLE_HEIGHT_R then
      min (CANVAS_HEIGHT_R - PADDLE_HEIGHT_R) (p1a + PLAYER_SPEED_R) else p1a
  let p2a := if g.input2.up ∧ g.player2Y > 0 then
      max 0 (g.player2Y - PLAYER_SPEED_R) else g.player2Y
  let p2b := if g.input2.down ∧ p2a < CANVAS_HEIGHT_R - PADDLE_HEIGHT_R then
      min (CANVAS_HEIGHT_R - PADDLE_HEIGHT_R) (p2a + PLAYER_SPEED_R) else p2a
  { g with player1Y := p1b, player2Y := p2b }

/-- updateStatistics (src/server.js lines 1771-1777): recompute the global
shot and save totals from the player records. -/
def updateStatistics (w : World) : World :=
  { w with
    statTotalShots := (w.players.map (fun p => p.2.shots)).sum
    statTotalSaves := (w.players.map (fun p => p.2.saves)).sum }

/-- updateGame (src/server.js lines 1588-1599); the delta time feeds
neither the paddle nor the ball integration, so the clock is elided. -/
noncomputable def updateGame (uw u1 u2 u3 : ℝ) (g : GameInst) (w : World) :
    GameInst × World × List Emit :=
  let g := { g with serverTick := g.serverTick + 1 }
  let g := updatePaddles g
  let r := updateBall uw u1 u2 u3 g w
  (r.1, updateStatistics r.2.1, r.2.2)

/-! Match completion (src/server.js lines 1992-2150). -/

/-- The record mutation the updatePlayerStats method
(src/server.js lines 2114-2149) performs on one participant.
playTime is the elapsed wall time Date.now() - matchStartTime. -/
noncomputable def statUpdateFn (g : GameInst) (playTime : ℝ)
    (playerName : String) (p : PlayerStats) : PlayerStats :=
  let playerScore := scoreOf g playerName
  let opponentName := if playerName = g.player1 then g.player2 else g.player1
  let opponentScore := scoreOf g opponentName
  let p := { p with
    matchesPlayed := p.matchesPlayed + 1
    totalPlayTime := p.totalPlayTime + playTime }
  let p := if p.shots > 0 then
      { p with accuracy := (p.goalsFor : ℝ) / (p.shots : ℝ) } else p
  let p :=
    if playerScore > opponentScore then
      { p with wins := p.wins + 1, points := p.points + 3 }
    else if playerScore < opponentScore then
      { p with losses := p.losses + 1 }
    else
      { p with draws := p.draws + 1, points := p.points + 1 }
  let p := { p with
    averageGoalsPerMatch :=
      (p.goalsFor : ℝ) / max (p.matchesPlayed : ℝ) 1
    averageConcededPerMatch :=
      (p.goalsAgainst : ℝ) / max (p.matchesPlayed : ℝ) 1 }
  let result : Char :=
    if playerScore > opponentScore then 'W'
    else if playerScore < opponentScore then 'L' else 'D'
  { p with formGuide := (result :: p.formGuide).take 5 }

/-- The per-player half of the updatePlayerStats method applied to the
player table. -/
noncomputable def updateOnePlayerStats (g : GameInst) (playTime : ℝ)
    (playerName : String) (w : World) : World :=
  { w with
    players := updEntry playerName (statUpdateFn g playTime playerName)
      w.players }

/-- updatePlayerStats method of GameInstance (src/server.js lines
2113-2150): fold the per-player update over both participants. -/
noncomputable def updatePlayerStatsMethod (g : GameInst) (playTime : ℝ)
    (w : World) : World :=
  updateOnePlayerStats g playTime g.player2
    (updateOnePlayerStats g playTime g.player1 w)

/-- The winner computation of endGame (src/server.js lines 2030-2035):
strictly higher score wins, an equal score is a draw. -/
def endGameWinner (g : GameInst) : Option String :=
  if g.score1 > g.score2 then some g.player1
  else if g.score2 > g.score1 then some g.player2
  else none

/-- endGame (src/server.js lines 1992-2111).  Guarded by the cleanedUp
latch; clears the three timer handles; updates the rolling average match
duration and the player statistics; computes the winner from the score;
emits the final-result event when the room still has subscribers; removes
the match from the active set; finalises the match record and reports
upward (bracket advance in tournament mode with a winner, results push
and matchday bookkeeping otherwise); increments the completed-match
counter.  duration is the measured wall-clock match length and
roomNonempty the emptiness check of the socket room. -/
noncomputable def endGame (reason : String) (duration : ℝ)
    (roomNonempty : Bool) (g : GameInst) (w : World) :
    GameInst × World × List Emit :=
  if g.cleanedUp then (g, w, [])
  else
    let g := { g with
      cleanedUp := true
      gameActive := false
      gameTimerOn := false
      loopOn := false
      monitoringOn := false }
    let w := { w with averageMatchDuration :=
      (w.averageMatchDuration * (w.completedMatches : ℝ) + duration) /
        ((w.completedMatches : ℝ) + 1) }
    let w := updatePlayerStatsMethod g duration w
    let winner := endGameWinner g
    let finishEvts :=
      if roomNonempty then [Emit.matchFinishedEvt winner reason] else []
    let w := { w with
      activeGames := w.activeGames.filter (fun p => p.1 ≠ g.matchId) }
    let recordFound := (w.matchesMap.lookup g.matchId).isSome
    let w := { w with matchesMap := updEntry g.matchId (fun m =>
      { m with finished := true, finalScore1 := g.score1,
               finalScore2 := g.score2, duration := duration,
               maxRally := g.maxRally, winner := winner }) w.matchesMap }
    let reportEvts :=
      if recordFound then
        if g.isTournamentMatch ∧ winner.isSome then [Emit.reportUpwardEvt]
        else if g.isTournamentMatch then []
        else [Emit.reportUpwardEvt]
      else []
    let w :=
      if recordFound ∧ ¬g.isTournamentMatch then
        { w with resultsIds := w.resultsIds ++ [g.matchId] }
      else w
    let w := { w with completedMatches := w.completedMatches + 1 }
    (g, w, finishEvts ++ reportEvts)

/-! The golden-goal state machine (src/server.js lines 1524-1564 and
1779-1853). -/

/-- triggerGoldenGoalWarning (src/server.js lines 1779-1806): set the
warning latch, pause the game, broadcast the warning once, and schedule
enterGoldenGoalMode after the countdown. -/
def triggerGoldenGoalWarning (g : GameInst) : GameInst × List Emit :=
  ({ g with
      goldenGoalWarning := true
      gameActive := false
      gamePausedForGoldenGoal := true
      pendingGoldenEntry := true },
   [Emit.goldenGoalWarningEvt])

/-- enterGoldenGoalMode (src/server.js lines 1808-1837): guarded against
double execution; pins the timer at zero, resumes play, re-serves the
ball, and restarts the loop if needed. -/
noncomputable def enterGoldenGoalMode (u1 u2 u3 : ℝ) (g : GameInst) :
    GameInst :=
  if g.goldenGoalMode then g
  else
    let g := { g with
      goldenGoalMode := true
      goldenGoalWarning := false
      gamePausedForGoldenGoal := false
      timeLeft := 0
      gameActive := true }
    let g := resetBall u1 u2 u3 g
    if ¬g.loopOn then { g with loopOn := true } else g

/-- handleTimeUp (src/server.js lines 1839-1853): on expiry of regulation
time, a tied tournament match falls back into golden-goal mode, any other
match ends with reason time. -/
noncomputable def handleTimeUp (u1 u2 u3 : ℝ) (duration : ℝ)
    (roomNonempty : Bool) (g : GameInst) (w : World) :
    GameInst × World × List Emit :=
  if g.isTournamentMatch ∧ g.score1 = g.score2 then
    if ¬g.goldenGoalMode ∧ ¬g.goldenGoalWarning then
      (enterGoldenGoalMode u1 u2 u3 g, w, [])
    else (g, w, [])
  else
    endGame "time" duration roomNonempty g w

/-- The body of the one-second interval installed by startTimer
(src/server.js lines 1524-1564): frozen while paused for the golden-goal
countdown; decrements the clock; fires the golden-goal warning exactly
when the clock reads GOLDEN_GOAL_WARNING in a tied tournament match that
has neither warned nor entered golden goal; calls handleTimeUp when the
clock reaches zero outside golden-goal states. -/
noncomputable def timerTickBody (u1 u2 u3 : ℝ) (duration : ℝ)
    (roomNonempty : Bool) (g : GameInst) (w : World) :
    GameInst × World × List Emit :=
  if g.gamePausedForGoldenGoal then (g, w, [])
  else
    let g := { g with timeLeft := g.timeLeft - 1 }
    let r :=
      if g.isTournamentMatch ∧ g.timeLeft = GOLDEN_GOAL_WARNING ∧
          g.score1 = g.score2 ∧ ¬g.goldenGoalWarning ∧ ¬g.goldenGoalMode then
        triggerGoldenGoalWarning g
      else (g, [])
    let g := r.1
    if g.timeLeft ≤ 0 ∧ ¬g.goldenGoalMode ∧ ¬g.goldenGoalWarning then
      let r2 := handleTimeUp u1 u2 u3 duration roomNonempty g w
      (r2.1, r2.2.1, r.2 ++ r2.2.2)
    else
      (g, w, r.2)

/-- One pass of gameLoop (src/server.js lines 1856-1920): stop when the
game is inactive or cleaned up; while paused for the golden-goal
countdown broadcast only; otherwise run updateGame.  The
frame-rate-limiting clock comparisons select between running and skipping
a simulation step and are summarised by the doStep flag. -/
noncomputable def gameLoopBody (doStep : Bool) (uw u1 u2 u3 : ℝ)
    (g : GameInst) (w : World) : GameInst × World × List Emit :=
  if ¬g.gameActive ∨ g.cleanedUp then ({ g with loopOn := false }, w, [])
  else if g.gamePausedForGoldenGoal then (g, w, [])
  else if doStep then updateGame uw u1 u2 u3 g w
  else (g, w, [])

/-! The event alphabet of one match: each constructor is one scheduled
callback of the source, with its Math.random() draws as real parameters.
Firing a callback whose schedule flag is off is a no-op. -/

inductive GEv where
  | timerTick (u1 u2 u3 duration : ℝ) (roomNonempty : Bool)
  | loopTick (doStep : Bool) (uw u1 u2 u3 : ℝ)
  | goalEvt (scorerIsP1 : Bool) (u1 u2 u3 : ℝ)
  | warningElapsed (u1 u2 u3 : ℝ)
  | goldenEndElapsed (duration : ℝ) (roomNonempty : Bool)
  | endCall (reason : String) (duration : ℝ) (roomNonempty : Bool)

/-- One small step of the per-match machine. -/
noncomputable def step (e : GEv) (g : GameInst) (w : World) :
    GameInst × World × List Emit :=
  match e with
  | GEv.timerTick u1 u2 u3 d room =>
      if g.gameTimerOn then timerTickBody u1 u2 u3 d room g w else (g, w, [])
  | GEv.loopTick doStep uw u1 u2 u3 =>
      if g.loopOn then gameLoopBody doStep uw u1 u2 u3 g w else (g, w, [])
  | GEv.goalEvt scorerIsP1 u1 u2 u3 =>
      if g.loopOn ∧ g.gameActive ∧ ¬g.gamePausedForGoldenGoal then
        if scorerIsP1 then handleGoal g.player1 g.player2 u1 u2 u3 g w
        else handleGoal g.player2 g.player1 u1 u2 u3 g w
      else (g, w, [])
  | GEv.warningElapsed u1 u2 u3 =>
      if g.pendingGoldenEntry then
        (enterGoldenGoalMode u1 u2 u3 { g with pendingGoldenEntry := false },
         w, [])
      else (g, w, [])
  | GEv.goldenEndElapsed d room =>
      if g.pendingGoldenEnd then
        endGame "golden-goal" d room { g with pendingGoldenEnd := false } w
      else (g, w, [])
  | GEv.endCall reason d room => endGame reason d room g w

/-- Run a trace of events, accumulating the emitted events. -/
noncomputable def run (g : GameInst) (w : World) :
    List GEv → GameInst × World × List Emit
  | [] => (g, w, [])
  | e :: tr =>
      let r := step e g w
      let r2 := run r.1 r.2.1 tr
      (r2.1, r2.2.1, r.2.2 ++ r2.2.2)

/-- Number of golden-goal warning broadcasts in an emission list. -/
def warnCount (evs : List Emit) : ℕ :=
  evs.countP (fun e => e = Emit.goldenGoalWarningEvt)

/-! ## Disconnection handling (src/server.js lines 2562-2641, 3093-3107) -/

/-- handlePlayerDisconnection (src/server.js lines 3093-3107): find the
first active game containing the player, end it with reason
disconnection, and announce the timeout. -/
noncomputable def handlePlayerDisconnection (playerName : String)
    (duration : ℝ) (roomNonempty : Bool) (w : World) : World × List Emit :=
  match w.activeGames.find? (fun p =>
      p.2.player1 = playerName ∨ p.2.player2 = playerName) with
  | some p =>
      let r := endGame "disconnection" duration roomNonempty p.2 w
      (r.2.1, r.2.2 ++ [Emit.playerDisconnectedEvt playerName])
  | none => (w, [Emit.playerDisconnectedEvt playerName])

/-- The disconnect branch of the socket handler
(src/server.js lines 2568-2586): before league start the player record is
deleted; after league start the player is marked disconnected and a
60-second grace timeout is scheduled. -/
def onDisconnect (playerName : String) (w : World) : World :=
  if (w.players.lookup playerName).isSome then
    if ¬w.leagueStarted then
      { w with players := w.players.filter (fun p => p.1 ≠ playerName) }
    else
      { w with
        players := updEntry playerName
          (fun p => { p with disconnected := true }) w.players
        graceTimers := w.graceTimers ++ [playerName] }
  else w

/-- Firing of the grace timeout for a player (the setTimeout at
src/server.js lines 2583-2585); a cancelled or absent timer is a no-op. -/
noncomputable def graceFire (playerName : String) (duration : ℝ)
    (roomNonempty : Bool) (w : World) : World × List Emit :=
  if playerName ∈ w.graceTimers then
    let w := { w with
      graceTimers := w.graceTimers.filter (fun q => q ≠ playerName) }
    handlePlayerDisconnection playerName duration roomNonempty w
  else (w, [])

/-- The reconnect-player handler (src/server.js lines 2601-2641): a
disconnected player clears the grace timer and is marked connected
again. -/
def reconnectPlayer (playerName : String) (w : World) : World :=
  match w.players.lookup playerName with
  | none => w
  | some p =>
      if p.disconnected then
        { w with
          graceTimers := w.graceTimers.filter (fun q => q ≠ playerName)
          players := updEntry playerName
            (fun q => { q with disconnected := false }) w.players }
      else w

/-! ## Association-list helper lemmas -/

theorem lookup_updEntry_same {V : Type} (k : String) (f : V → V)
    (l : List (String × V)) :
    (updEntry k f l).lookup k = (l.lookup k).map f := by
  induction l with
  | nil => rfl
  | cons x xs ih =>
      obtain ⟨a, b⟩ := x
      simp only [updEntry, List.map_cons] at ih ⊢
      by_cases hx : a = k
      · rw [if_pos hx]
        subst hx
        simp [List.lookup]
      · rw [if_neg hx]
        have hk : (k == a) = false :=
          beq_eq_false_iff_ne.mpr (fun h => hx h.symm)
        simp only [List.lookup, hk]
        exact ih

theorem lookup_updEntry_ne {V : Type} (k k2 : String) (h : k ≠ k2)
    (f : V → V) (l : List (String × V)) :
    (updEntry k2 f l).lookup k = l.lookup k := by
  induction l with
  | nil => rfl
  | cons x xs ih =>
      obtain ⟨a, b⟩ := x
      simp only [updEntry, List.map_cons] at ih ⊢
      by_cases hx : a = k2
      · rw [if_pos hx]
        have hk : (k == a) = false :=
          beq_eq_false_iff_ne.mpr (fun he => h (he.trans hx))
        simp only [List.lookup, hk]
        exact ih
      · rw [if_neg hx]
        by_cases hk : k = a
        · subst hk
          simp [List.lookup]
        · have hk2 : (k == a) = false := beq_eq_false_iff_ne.mpr hk
          simp only [List.lookup, hk2]
          exact ih

/-! ## C10: per-player statistics update on match end -/

theorem statUpdateFn_matchesPlayed (g : GameInst) (pt : ℝ) (name : String)
    (p : PlayerStats) :
    (statUpdateFn g pt name p).matchesPlayed = p.matchesPlayed + 1 := by
  simp only [statUpdateFn]
  split_ifs <;> rfl

theorem statUpdateFn_outcome (g : GameInst) (pt : ℝ) (name : String)
    (p : PlayerStats) :
    let q := statUpdateFn g pt name p
    let ps := scoreOf g name
    let os := scoreOf g (if name = g.player1 then g.player2 else g.player1)
    (ps > os → q.wins = p.wins + 1 ∧ q.points = p.points + 3 ∧
      q.draws = p.draws ∧ q.losses = p.losses) ∧
    (ps < os → q.losses = p.losses + 1 ∧ q.points = p.points ∧
      q.wins = p.wins ∧ q.draws = p.draws) ∧
    (ps = os → q.draws = p.draws + 1 ∧ q.points = p.points + 1 ∧
      q.wins = p.wins ∧ q.losses = p.losses) := by
  simp only [statUpdateFn]
  split_ifs with h1 h2 h3 h4 h5 h6 <;>
    refine ⟨fun hgt => ?_, fun hlt => ?_, fun heq => ?_⟩ <;>
    simp_all <;> omega

/-- C10: when a match ends (league or tournament alike, since endGame
invokes the updatePlayerStats method unconditionally), each participant
present in the player table is updated by exactly one of three mutually
exclusive outcomes: the participant with the strictly higher score gains
one win and 3 points, the participant with the strictly lower score gains
one loss and 0 points, and on an equal score both gain one draw and
1 point; the matches-played counter rises by exactly 1 for both. -/
theorem c10_updatePlayerStats_outcomes (g : GameInst) (playTime : ℝ)
    (w : World) (s1 s2 : PlayerStats)
    (hne : g.player1 ≠ g.player2)
    (h1 : w.players.lookup g.player1 = some s1)
    (h2 : w.players.lookup g.player2 = some s2) :
    ∃ s1f s2f : PlayerStats,
      (updatePlayerStatsMethod g playTime w).players.lookup g.player1 =
        some s1f ∧
      (updatePlayerStatsMethod g playTime w).players.lookup g.player2 =
        some s2f ∧
      s1f.matchesPlayed = s1.matchesPlayed + 1 ∧
      s2f.matchesPlayed = s2.matchesPlayed + 1 ∧
      (g.score1 > g.score2 →
        s1f.wins = s1.wins + 1 ∧ s1f.points = s1.points + 3 ∧
        s1f.draws = s1.draws ∧ s1f.losses = s1.losses ∧
        s2f.losses = s2.losses + 1 ∧ s2f.points = s2.points ∧
        s2f.wins = s2.wins ∧ s2f.draws = s2.draws) ∧
      (g.score2 > g.score1 →
        s2f.wins = s2.wins + 1 ∧ s2f.points = s2.points + 3 ∧
        s2f.draws = s2.draws ∧ s2f.losses = s2.losses ∧
        s1f.losses = s1.losses + 1 ∧ s1f.points = s1.points ∧
        s1f.wins = s1.wins ∧ s1f.draws = s1.draws) ∧
      (g.score1 = g.score2 →
        s1f.draws = s1.draws + 1 ∧ s1f.points = s1.points + 1 ∧
        s1f.wins = s1.wins ∧ s1f.losses = s1.losses ∧
        s2f.draws = s2.draws + 1 ∧ s2f.points = s2.points + 1 ∧
        s2f.wins = s2.wins ∧ s2f.losses = s2.losses) := by
  have hne2 : g.player2 ≠ g.player1 := hne.symm
  have hsc1 : scoreOf g g.player1 = g.score1 := by simp [scoreOf]
  have hsc2 : scoreOf g g.player2 = g.score2 := by simp [scoreOf, hne2]
  have l1 : (updatePlayerStatsMethod g playTime w).players.lookup g.player1 =
      some (statUpdateFn g playTime g.player1 s1) := by
    simp only [updatePlayerStatsMethod, updateOnePlayerStats]
    rw [lookup_updEntry_ne g.player1 g.player2 hne, lookup_updEntry_same, h1]
    rfl
  have l2 : (updatePlayerStatsMethod g playTime w).players.lookup g.player2 =
      some (statUpdateFn g playTime g.player2 s2) := by
    simp only [updatePlayerStatsMethod, updateOnePlayerStats]
    rw [lookup_updEntry_same, lookup_updEntry_ne g.player2 g.player1 hne2,
      h2]
    rfl
  have o1 := statUpdateFn_outcome g playTime g.player1 s1
  have o2 := statUpdateFn_outcome g playTime g.player2 s2
  simp only [eq_self_iff_true, if_true, if_neg hne2, hsc1, hsc2] at o1 o2
  refine ⟨statUpdateFn g playTime g.player1 s1,
    statUpdateFn g playTime g.player2 s2, l1, l2,
    statUpdateFn_matchesPlayed g playTime g.player1 s1,
    statUpdateFn_matchesPlayed g playTime g.player2 s2,
    fun hgt => ?_, fun hlt => ?_, fun heq => ?_⟩
  · exact ⟨(o1.1 hgt).1, (o1.1 hgt).2.1, (o1.1 hgt).2.2.1, (o1.1 hgt).2.2.2,
      (o2.2.1 hgt).1, (o2.2.1 hgt).2.1, (o2.2.1 hgt).2.2.1,
      (o2.2.1 hgt).2.2.2⟩
  · exact ⟨(o2.1 hlt).1, (o2.1 hlt).2.1, (o2.1 hlt).2.2.1, (o2.1 hlt).2.2.2,
      (o1.2.1 hlt).1, (o1.2.1 hlt).2.1, (o1.2.1 hlt).2.2.1,
      (o1.2.1 hlt).2.2.2⟩
  · have e1 := o1.2.2 heq
    have e2 := o2.2.2 heq.symm
    exact ⟨e1.1, e1.2.1, e1.2.2.1, e1.2.2.2, e2.1, e2.2.1, e2.2.2.1,
      e2.2.2.2⟩

/-- The player record as created on join (src/server.js lines 2330-2352). -/
noncomputable def initialStats : PlayerStats :=
  { matchesPlayed := 0, wins := 0, draws := 0, losses := 0, goalsFor := 0,
    goalsAgainst := 0, saves := 0, shots := 0, accuracy := 0, points := 0,
    totalPlayTime := 0, averageGoalsPerMatch := 0,
    averageConcededPerMatch := 0, formGuide := [], disconnected := false }

/-- A concrete live 2-1 match between Ann and Bob, used by witnesses. -/
noncomputable def sampleGame : GameInst :=
  { matchId := "m1", player1 := "Ann", player2 := "Bob",
    isTournamentMatch := false, ballX := 0, ballY := 0, ballSpeedX := 0,
    ballSpeedY := 0, player1Y := 0, player2Y := 0, serverTick := 0,
    score1 := 2, score2 := 1, gameActive := true, timeLeft := 0,
    goldenGoalMode := false, goldenGoalWarning := false,
    gamePausedForGoldenGoal := false, cleanedUp := false, rallyCount := 0,
    maxRally := 3, input1 := ⟨false, false⟩, input2 := ⟨false, false⟩,
    gameTimerOn := true, loopOn := true, monitoringOn := true,
    pendingGoldenEntry := false, pendingGoldenEnd := false }

/-- A concrete world holding the two players of sampleGame. -/
noncomputable def sampleWorld : World :=
  { players := [("Ann", initialStats), ("Bob", initialStats)],
    matchesMap := [], activeGames := [], completedMatches := 0,
    resultsIds := [], statTotalGoals := 0, statLongestRally := 0,
    statTotalShots := 0, statTotalSaves := 0, averageMatchDuration := 0,
    graceTimers := [], leagueStarted := true }

/-- C10 witness: a concrete 2-1 match between distinct players, checked
by applying the theorem at that input. -/
theorem c10_witness :
    ∃ s1f s2f : PlayerStats,
      (updatePlayerStatsMethod sampleGame 30 sampleWorld).players.lookup "Ann" =
        some s1f ∧
      (updatePlayerStatsMethod sampleGame 30 sampleWorld).players.lookup "Bob" =
        some s2f ∧
      s1f.matchesPlayed = 1 ∧ s2f.matchesPlayed = 1 ∧
      s1f.wins = 1 ∧ s1f.points = 3 ∧ s2f.losses = 1 ∧ s2f.points = 0 := by
  obtain ⟨s1f, s2f, h1, h2, hm1, hm2, hgt, _, _⟩ :=
    c10_updatePlayerStats_outcomes sampleGame 30 sampleWorld initialStats
      initialStats (by decide) (by rfl) (by rfl)
  have hg : (2 : ℕ) > 1 := by omega
  obtain ⟨hw, hp, _, _, hl, hlp, _, _⟩ := hgt hg
  exact ⟨s1f, s2f, h1, h2, hm1, hm2, hw, hp, hl, hlp⟩

/-! ## C8: endGame is an idempotent latch -/

/-- Recogniser for the final-result event, any payload. -/
def isMatchFinishedEvt : Emit → Bool
  | Emit.matchFinishedEvt _ _ => true
  | _ => false

/-- C8: calling endGame twice on the same match performs the final-result
emission and every state mutation exactly once.  The first call (from an
unfinished match with all three timers live, a non-empty room and a
present match record) cancels the tick loop, the regulation timer and the
monitoring timer exactly once, emits exactly one final-result event and at
most one upward report, increments the completed-match counter by one and
finalises the match record; the second call returns the state unchanged,
emits nothing and cancels no timer. -/
theorem c8_endGame_idempotent (reason reason2 : String) (d d2 : ℝ)
    (room2 : Bool) (g : GameInst) (w : World) (rec : MatchRecord)
    (hclean : g.cleanedUp = false)
    (ht : g.gameTimerOn = true) (hl : g.loopOn = true)
    (hm : g.monitoringOn = true)
    (hrec : w.matchesMap.lookup g.matchId = some rec) :
    (endGame reason2 d2 room2 (endGame reason d true g w).1
        (endGame reason d true g w).2.1) =
      ((endGame reason d true g w).1, (endGame reason d true g w).2.1,
        []) ∧
    (endGame reason d true g w).1.gameTimerOn = false ∧
    (endGame reason d true g w).1.loopOn = false ∧
    (endGame reason d true g w).1.monitoringOn = false ∧
    (endGame reason d true g w).1.cleanedUp = true ∧
    (endGame reason d true g w).2.2.countP isMatchFinishedEvt = 1 ∧
    (endGame reason d true g w).2.2.countP
      (fun e => e = Emit.reportUpwardEvt) ≤ 1 ∧
    Emit.matchFinishedEvt (endGameWinner g) reason ∈
      (endGame reason d true g w).2.2 ∧
    (endGame reason d true g w).2.1.completedMatches =
      w.completedMatches + 1 ∧
    (endGame reason d true g w).2.1.matchesMap.lookup g.matchId =
      some { rec with
             finished := true
             finalScore1 := g.score1
             finalScore2 := g.score2
             duration := d
             maxRally := g.maxRally
             winner := endGameWinner g } := by
  have hrecSome : (w.matchesMap.lookup g.matchId).isSome = true := by
    rw [hrec]; rfl
  refine ⟨?_, ?_, ?_, ?_, ?_, ?_, ?_, ?_, ?_, ?_⟩
  · simp only [endGame, hclean, Bool.false_eq_true, if_false,
      updatePlayerStatsMethod, updateOnePlayerStats]
    simp
  · simp only [endGame, hclean, Bool.false_eq_true, if_false,
      updatePlayerStatsMethod, updateOnePlayerStats]
  · simp only [endGame, hclean, Bool.false_eq_true, if_false,
      updatePlayerStatsMethod, updateOnePlayerStats]
  · simp only [endGame, hclean, Bool.false_eq_true, if_false,
      updatePlayerStatsMethod, updateOnePlayerStats]
  · simp only [endGame, hclean, Bool.false_eq_true, if_false,
      updatePlayerStatsMethod, updateOnePlayerStats]
  · simp only [endGame, hclean, Bool.false_eq_true, if_false,
      updatePlayerStatsMethod, updateOnePlayerStats, hrecSome]
    split_ifs <;> simp [isMatchFinishedEvt]
  · simp only [endGame, hclean, Bool.false_eq_true, if_false,
      updatePlayerStatsMethod, updateOnePlayerStats, hrecSome]
    split_ifs <;> simp
  · simp only [endGame, hclean, Bool.false_eq_true, if_false,
      updatePlayerStatsMethod, updateOnePlayerStats]
    split_ifs <;> simp [endGameWinner]
  · simp only [endGame, hclean, Bool.false_eq_true, if_false,
      updatePlayerStatsMethod, updateOnePlayerStats]
    split_ifs <;> simp
  · simp only [endGame, hclean, Bool.false_eq_true, if_false,
      updatePlayerStatsMethod, updateOnePlayerStats]
    split_ifs <;>
      simp only [lookup_updEntry_same, hrec, Option.map_some] <;> rfl

/-- A concrete unfinished match record for the sample match. -/
noncomputable def sampleRecord : MatchRecord :=
  { player1 := "Ann", player2 := "Bob", finished := false,
    finalScore1 := 0, finalScore2 := 0, winner := none, duration := 0,
    maxRally := 0, isTournamentMatch := false }

/-- The sample world together with the match record of the sample match. -/
noncomputable def sampleWorldWithRecord : World :=
  { sampleWorld with matchesMap := [("m1", sampleRecord)] }

/-- C8 witness: ending the sample match twice, checked by applying the
theorem at that concrete input. -/
theorem c8_witness :
    (endGame "shutdown" 7 false
        (endGame "time" 30 true sampleGame sampleWorldWithRecord).1
        (endGame "time" 30 true sampleGame sampleWorldWithRecord).2.1) =
      ((endGame "time" 30 true sampleGame sampleWorldWithRecord).1,
        (endGame "time" 30 true sampleGame sampleWorldWithRecord).2.1,
        []) ∧
    (endGame "time" 30 true sampleGame sampleWorldWithRecord).1.gameTimerOn
      = false ∧
    (endGame "time" 30 true sampleGame
        sampleWorldWithRecord).2.2.countP isMatchFinishedEvt = 1 ∧
    (endGame "time" 30 true sampleGame
        sampleWorldWithRecord).2.1.completedMatches = 1 := by
  obtain ⟨h1, h2, _, _, _, h6, _, _, h9, _⟩ :=
    c8_endGame_idempotent "time" "shutdown" 30 7 false sampleGame
      sampleWorldWithRecord sampleRecord rfl rfl rfl rfl
      (by simp [sampleWorldWithRecord, List.lookup, sampleGame])
  exact ⟨h1, h2, h6, h9⟩

/-! ## C3: disconnection grace window (corrected)

handlePlayerDisconnection ends the match with reason disconnection, but
endGame then records the winner from the score alone (endGameWinner): the
player who remained connected is credited only when leading; a leading
disconnected player is recorded as winner and a tied score as a draw. -/

/-- C3 (amended): when the 60-second grace timer of a disconnected player
fires while the player is in a live match, the match is force-ended with
reason disconnection, and the recorded winner is the score leader at that
moment (a draw on a tied score) — not necessarily the player who remained
connected. -/
theorem c3_graceFire_ends_match_by_score (p : String) (d : ℝ)
    (mid : String) (g : GameInst) (w : World) (rec : MatchRecord)
    (hgrace : p ∈ w.graceTimers)
    (hfind : w.activeGames.find?
      (fun q => q.2.player1 = p ∨ q.2.player2 = p) = some (mid, g))
    (hclean : g.cleanedUp = false)
    (hrec : w.matchesMap.lookup g.matchId = some rec) :
    (graceFire p d true w).1.matchesMap.lookup g.matchId =
      some { rec with
             finished := true
             finalScore1 := g.score1
             finalScore2 := g.score2
             duration := d
             maxRally := g.maxRally
             winner := endGameWinner g } ∧
    Emit.matchFinishedEvt (endGameWinner g) "disconnection" ∈
      (graceFire p d true w).2 := by
  have hfind2 :
      (({ w with graceTimers :=
          w.graceTimers.filter (fun q => q ≠ p) } : World)).activeGames.find?
        (fun q => q.2.player1 = p ∨ q.2.player2 = p) = some (mid, g) := hfind
  constructor
  · simp only [graceFire, if_pos hgrace, handlePlayerDisconnection, hfind2,
      endGame, hclean, Bool.false_eq_true, if_false,
      updatePlayerStatsMethod, updateOnePlayerStats]
    split_ifs <;>
      simp only [lookup_updEntry_same, hrec, Option.map_some] <;>
      first
      | rfl
      | simp [endGameWinner]
  · simp only [graceFire, if_pos hgrace, handlePlayerDisconnection, hfind2,
      endGame, hclean, Bool.false_eq_true, if_false,
      updatePlayerStatsMethod, updateOnePlayerStats]
    split_ifs <;> simp [endGameWinner]

/-- The sample world set up for a disconnection: the league is live, both
players are registered, the 2-1 match between Ann and Bob is active and
has a record. -/
noncomputable def disconnectWorld : World :=
  { sampleWorldWithRecord with activeGames := [("m1", sampleGame)] }

/-- C3 counterexample: Ann leads 2-1 and disconnects; when the grace timer
fires, the match is ended with reason disconnection but the recorded
winner is the disconnected Ann, not the still-connected Bob — refuting the
claim that the remaining player is recorded as the winner. -/
theorem c3_counterexample :
    (graceFire "Ann" 30 true
        (onDisconnect "Ann" disconnectWorld)).1.matchesMap.lookup "m1" =
      some { sampleRecord with
             finished := true
             finalScore1 := 2
             finalScore2 := 1
             duration := 30
             maxRally := 3
             winner := some "Ann" } ∧
    some "Ann" ≠ some "Bob" ∧
    Emit.matchFinishedEvt (some "Ann") "disconnection" ∈
      (graceFire "Ann" 30 true (onDisconnect "Ann" disconnectWorld)).2 := by
  have hw : endGameWinner sampleGame = some "Ann" := by
    simp [endGameWinner, sampleGame]
  have hmid : sampleGame.matchId = "m1" := rfl
  obtain ⟨h1, h2⟩ := c3_graceFire_ends_match_by_score "Ann" 30 "m1"
    sampleGame (onDisconnect "Ann" disconnectWorld) sampleRecord
    (by simp [onDisconnect, disconnectWorld, sampleWorldWithRecord,
        sampleWorld, List.lookup])
    (by simp [onDisconnect, disconnectWorld, sampleWorldWithRecord,
        sampleWorld, List.lookup, List.find?, sampleGame])
    rfl
    (by simp [onDisconnect, disconnectWorld, sampleWorldWithRecord,
        sampleWorld, List.lookup, sampleGame])
  rw [hmid] at h1
  rw [hw] at h1 h2
  refine ⟨h1, by simp, h2⟩

/-- C3 witness for the amended theorem: the same concrete scenario,
reaching the conclusion by applying the theorem at that input. -/
theorem c3_witness :
    (graceFire "Ann" 30 true
        (onDisconnect "Ann" disconnectWorld)).1.matchesMap.lookup "m1" =
      some { sampleRecord with
             finished := true
             finalScore1 := 2
             finalScore2 := 1
             duration := 30
             maxRally := 3
             winner := endGameWinner sampleGame } := by
  obtain ⟨h1, _⟩ := c3_graceFire_ends_match_by_score "Ann" 30 "m1"
    sampleGame (onDisconnect "Ann" disconnectWorld) sampleRecord
    (by simp [onDisconnect, disconnectWorld, sampleWorldWithRecord,
        sampleWorld, List.lookup])
    (by simp [onDisconnect, disconnectWorld, sampleWorldWithRecord,
        sampleWorld, List.lookup, List.find?, sampleGame])
    rfl
    (by simp [onDisconnect, disconnectWorld, sampleWorldWithRecord,
        sampleWorld, List.lookup, sampleGame])
  exact h1

/-! ## C4: ball reset after a goal (corrected)

resetBall branches on gameActive, not on overtime: during a live match
(gameActive true, which holds whenever the physics can detect a goal) the
ball is re-served with a non-zero velocity after every goal, in and out of
overtime; the zero-velocity branch is taken only for an inactive match,
and that branch does not reset the rally count. -/

theorem resetBall_active_spec (u1 u2 u3 : ℝ) (g : GameInst)
    (hactive : g.gameActive = true) (hu1 : 0 ≤ u1) :
    (resetBall u1 u2 u3 g).ballX = CANVAS_WIDTH_R / 2 - BALL_SIZE_R / 2 ∧
    (resetBall u1 u2 u3 g).ballY = CANVAS_HEIGHT_R / 2 - BALL_SIZE_R / 2 ∧
    (resetBall u1 u2 u3 g).ballSpeedX ≠ 0 ∧
    (resetBall u1 u2 u3 g).rallyCount = 0 ∧
    (resetBall u1 u2 u3 g).score1 = g.score1 ∧
    (resetBall u1 u2 u3 g).score2 = g.score2 ∧
    (resetBall u1 u2 u3 g).goldenGoalMode = g.goldenGoalMode := by
  have hsp : MIN_BALL_SPEED_R + u1 * 2 > 0 := by
    simp only [MIN_BALL_SPEED_R]; nlinarith
  simp only [resetBall, hactive, if_true]
  by_cases hu2 : u2 > 1/2
  · simp only [if_pos hu2]
    refine ⟨?_, ?_, ?_, ?_, ?_, ?_, ?_⟩ <;>
      first
      | trivial
      | exact ne_of_gt hsp
  · simp only [if_neg hu2]
    refine ⟨?_, ?_, ?_, ?_, ?_, ?_, ?_⟩ <;>
      first
      | trivial
      | exact neg_ne_zero.mpr (ne_of_gt hsp)

theorem bumpScore_fields (g : GameInst) (name : String) :
    (bumpScore g name).score1 =
      (if name = g.player1 then g.score1 + 1 else g.score1) ∧
    (bumpScore g name).score2 =
      (if name = g.player1 then g.score2 else g.score2 + 1) ∧
    (bumpScore g name).gameActive = g.gameActive ∧
    (bumpScore g name).goldenGoalMode = g.goldenGoalMode := by
  simp only [bumpScore]
  split_ifs <;> exact ⟨rfl, rfl, rfl, rfl⟩

theorem handleGoal_projections (scorer opp : String) (u1 u2 u3 : ℝ)
    (g : GameInst) (w : World) :
    (handleGoal scorer opp u1 u2 u3 g w).1.ballX =
      (resetBall u1 u2 u3 (bumpScore g scorer)).ballX ∧
    (handleGoal scorer opp u1 u2 u3 g w).1.ballY =
      (resetBall u1 u2 u3 (bumpScore g scorer)).ballY ∧
    (handleGoal scorer opp u1 u2 u3 g w).1.ballSpeedX =
      (resetBall u1 u2 u3 (bumpScore g scorer)).ballSpeedX ∧
    (handleGoal scorer opp u1 u2 u3 g w).1.rallyCount =
      (resetBall u1 u2 u3 (bumpScore g scorer)).rallyCount ∧
    (handleGoal scorer opp u1 u2 u3 g w).1.score1 =
      (resetBall u1 u2 u3 (bumpScore g scorer)).score1 ∧
    (handleGoal scorer opp u1 u2 u3 g w).1.score2 =
      (resetBall u1 u2 u3 (bumpScore g scorer)).score2 ∧
    (handleGoal scorer opp u1 u2 u3 g w).2.2 =
      [Emit.goalScoredEvt scorer
        (resetBall u1 u2 u3 (bumpScore g scorer)).score1
        (resetBall u1 u2 u3 (bumpScore g scorer)).score2
        (resetBall u1 u2 u3 (bumpScore g scorer)).goldenGoalMode] := by
  simp only [handleGoal]
  split_ifs <;> exact ⟨rfl, rfl, rfl, rfl, rfl, rfl, rfl⟩

/-- C4 (amended): every goal scored in a live match is immediately
followed by the ball being reset to the exact centre of the playfield
with a re-served non-zero horizontal velocity and the rally count reset
to 0 — both in and out of overtime — and by a goal event carrying the
updated score; the scorer and only the scorer gains a point. -/
theorem c4_goal_resets_ball (sc : Bool) (u1 u2 u3 : ℝ) (g : GameInst)
    (w : World)
    (hu1 : 0 ≤ u1) (hne : g.player1 ≠ g.player2)
    (hactive : g.gameActive = true) (hloop : g.loopOn = true)
    (hpause : g.gamePausedForGoldenGoal = false) :
    (step (GEv.goalEvt sc u1 u2 u3) g w).1.ballX =
      CANVAS_WIDTH_R / 2 - BALL_SIZE_R / 2 ∧
    (step (GEv.goalEvt sc u1 u2 u3) g w).1.ballY =
      CANVAS_HEIGHT_R / 2 - BALL_SIZE_R / 2 ∧
    (step (GEv.goalEvt sc u1 u2 u3) g w).1.ballSpeedX ≠ 0 ∧
    (step (GEv.goalEvt sc u1 u2 u3) g w).1.rallyCount = 0 ∧
    (step (GEv.goalEvt sc u1 u2 u3) g w).1.score1 =
      (if sc then g.score1 + 1 else g.score1) ∧
    (step (GEv.goalEvt sc u1 u2 u3) g w).1.score2 =
      (if sc then g.score2 else g.score2 + 1) ∧
    (step (GEv.goalEvt sc u1 u2 u3) g w).2.2 =
      [Emit.goalScoredEvt (if sc then g.player1 else g.player2)
        (if sc then g.score1 + 1 else g.score1)
        (if sc then g.score2 else g.score2 + 1) g.goldenGoalMode] := by
  have hne2 : g.player2 ≠ g.player1 := hne.symm
  cases sc with
  | true =>
      have hstep : step (GEv.goalEvt true u1 u2 u3) g w =
          handleGoal g.player1 g.player2 u1 u2 u3 g w := by
        simp [step, hactive, hloop, hpause]
      obtain ⟨hb1, hb2, hb3, hb4⟩ := bumpScore_fields g g.player1
      rw [if_pos rfl] at hb1 hb2
      have hact2 : (bumpScore g g.player1).gameActive = true := by
        rw [hb3]; exact hactive
      obtain ⟨hrx, hry, hrs, hrr, hrs1, hrs2, hrm⟩ :=
        resetBall_active_spec u1 u2 u3 (bumpScore g g.player1) hact2 hu1
      obtain ⟨hx, hy, hs, hr, h1, h2, hev⟩ :=
        handleGoal_projections g.player1 g.player2 u1 u2 u3 g w
      rw [hstep]
      refine ⟨?_, ?_, ?_, ?_, ?_, ?_, ?_⟩
      · rw [hx, hrx]
      · rw [hy, hry]
      · rw [hs]; exact hrs
      · rw [hr, hrr]
      · rw [h1, hrs1, hb1]; simp
      · rw [h2, hrs2, hb2]; simp
      · rw [hev, hrs1, hrs2, hrm, hb1, hb2, hb4]; simp
  | false =>
      have hstep : step (GEv.goalEvt false u1 u2 u3) g w =
          handleGoal g.player2 g.player1 u1 u2 u3 g w := by
        simp [step, hactive, hloop, hpause]
      obtain ⟨hb1, hb2, hb3, hb4⟩ := bumpScore_fields g g.player2
      rw [if_neg hne2] at hb1 hb2
      have hact2 : (bumpScore g g.player2).gameActive = true := by
        rw [hb3]; exact hactive
      obtain ⟨hrx, hry, hrs, hrr, hrs1, hrs2, hrm⟩ :=
        resetBall_active_spec u1 u2 u3 (bumpScore g g.player2) hact2 hu1
      obtain ⟨hx, hy, hs, hr, h1, h2, hev⟩ :=
        handleGoal_projections g.player2 g.player1 u1 u2 u3 g w
      rw [hstep]
      refine ⟨?_, ?_, ?_, ?_, ?_, ?_, ?_⟩
      · rw [hx, hrx]
      · rw [hy, hry]
      · rw [hs]; exact hrs
      · rw [hr, hrr]
      · rw [h1, hrs1, hb1]; simp
      · rw [h2, hrs2, hb2]; simp
      · rw [hev, hrs1, hrs2, hrm, hb1, hb2, hb4]; simp

/-- C4 counterexample: in the concrete live non-overtime sample match a
goal by Ann leaves the ball with horizontal velocity 4, not the zero
velocity the claim requires outside overtime: resetBall branches on
gameActive, which is true during live play, so the ball is always
re-served. -/
theorem c4_counterexample :
    (step (GEv.goalEvt true 0 (3/4) (1/2)) sampleGame sampleWorld).1.goldenGoalMode
      = false ∧
    (step (GEv.goalEvt true 0 (3/4) (1/2)) sampleGame sampleWorld).1.ballSpeedX
      = 4 ∧
    ¬((step (GEv.goalEvt true 0 (3/4) (1/2))
        sampleGame sampleWorld).1.ballSpeedX = 0) := by
  have hstep : step (GEv.goalEvt true 0 (3/4) (1/2)) sampleGame sampleWorld =
      handleGoal "Ann" "Bob" 0 (3/4) (1/2) sampleGame sampleWorld := by
    simp [step, sampleGame, handleGoal]
  have hbump : bumpScore sampleGame "Ann" =
      { sampleGame with score1 := 3 } := by
    simp [bumpScore, sampleGame]
  have hu2 : ((3/4 : ℝ)) > 1/2 := by norm_num
  refine ⟨?_, ?_, ?_⟩ <;>
    rw [hstep] <;>
    simp only [handleGoal, hbump, resetBall, MIN_BALL_SPEED_R] <;>
    norm_num [sampleGame]

/-- C4 witness: the amended theorem applied to the concrete sample match
with concrete random draws. -/
theorem c4_witness :
    (step (GEv.goalEvt true 0 (3/4) (1/2)) sampleGame sampleWorld).1.ballX =
      CANVAS_WIDTH_R / 2 - BALL_SIZE_R / 2 ∧
    (step (GEv.goalEvt true 0 (3/4) (1/2))
      sampleGame sampleWorld).1.ballSpeedX ≠ 0 ∧
    (step (GEv.goalEvt true 0 (3/4) (1/2))
      sampleGame sampleWorld).1.rallyCount = 0 ∧
    (step (GEv.goalEvt true 0 (3/4) (1/2))
      sampleGame sampleWorld).1.score1 = 3 := by
  obtain ⟨hx, _, hs, hr, h1, _, _⟩ :=
    c4_goal_resets_ball true 0 (3/4) (1/2) sampleGame sampleWorld
      le_rfl (by decide) rfl rfl rfl
  exact ⟨hx, hs, hr, h1⟩

/-! ## C2: the golden-goal (overtime) state machine

Helper lemmas: the physics of one simulation step never touches the
golden-goal flags, the clock, the timer handles or the cleanedUp latch,
and never emits a golden-goal warning. -/

/-- The fields of the game state that one physics pass leaves untouched. -/
def flagsEq (g1 g2 : GameInst) : Prop :=
  g1.goldenGoalMode = g2.goldenGoalMode ∧
  g1.goldenGoalWarning = g2.goldenGoalWarning ∧
  g1.gamePausedForGoldenGoal = g2.gamePausedForGoldenGoal ∧
  g1.gameTimerOn = g2.gameTimerOn ∧
  g1.cleanedUp = g2.cleanedUp ∧
  g1.gameActive = g2.gameActive ∧
  g1.isTournamentMatch = g2.isTournamentMatch ∧
  g1.timeLeft = g2.timeLeft ∧
  g1.loopOn = g2.loopOn

theorem flagsEq_refl (g : GameInst) : flagsEq g g :=
  ⟨rfl, rfl, rfl, rfl, rfl, rfl, rfl, rfl, rfl⟩

theorem flagsEq_trans {g1 g2 g3 : GameInst} (h1 : flagsEq g1 g2)
    (h2 : flagsEq g2 g3) : flagsEq g1 g3 := by
  obtain ⟨a1, b1, c1, d1, e1, f1, i1, j1, k1⟩ := h1
  obtain ⟨a2, b2, c2, d2, e2, f2, i2, j2, k2⟩ := h2
  exact ⟨a1.trans a2, b1.trans b2, c1.trans c2, d1.trans d2, e1.trans e2,
    f1.trans f2, i1.trans i2, j1.trans j2, k1.trans k2⟩

theorem resetBall_flagsEq (u1 u2 u3 : ℝ) (g : GameInst) :
    flagsEq (resetBall u1 u2 u3 g) g := by
  simp only [resetBall]
  split_ifs <;> exact ⟨rfl, rfl, rfl, rfl, rfl, rfl, rfl, rfl, rfl⟩

theorem bumpScore_flagsEq (g : GameInst) (name : String) :
    flagsEq (bumpScore g name) g := by
  simp only [bumpScore]
  split_ifs <;> exact ⟨rfl, rfl, rfl, rfl, rfl, rfl, rfl, rfl, rfl⟩

theorem checkWallCollisions_flagsEq (uw : ℝ) (g : GameInst) :
    flagsEq (checkWallCollisions uw g) g := by
  simp only [checkWallCollisions]
  split_ifs <;> exact ⟨rfl, rfl, rfl, rfl, rfl, rfl, rfl, rfl, rfl⟩

theorem handlePaddleHit_flagsEq (p : String) (py : ℝ) (s : Bool)
    (g : GameInst) (w : World) :
    flagsEq (handlePaddleHit p py s g w).1 g :=
  ⟨rfl, rfl, rfl, rfl, rfl, rfl, rfl, rfl, rfl⟩

theorem handlePaddleHit_warnCount (p : String) (py : ℝ) (s : Bool)
    (g : GameInst) (w : World) :
    (handlePaddleHit p py s g w).2.2.countP
      (fun e => e = Emit.goldenGoalWarningEvt) = 0 := by
  simp [handlePaddleHit]

theorem leftPaddleCheck_flagsEq (g : GameInst) (w : World) :
    flagsEq (leftPaddleCheck g w).1 g := by
  simp only [leftPaddleCheck]
  split_ifs
  · exact handlePaddleHit_flagsEq _ _ _ _ _
  · exact flagsEq_refl g

theorem leftPaddleCheck_warnCount (g : GameInst) (w : World) :
    (leftPaddleCheck g w).2.2.countP
      (fun e => e = Emit.goldenGoalWarningEvt) = 0 := by
  simp only [leftPaddleCheck]
  split_ifs
  · exact handlePaddleHit_warnCount _ _ _ _ _
  · rfl

theorem rightPaddleCheck_flagsEq (g : GameInst) (w : World) :
    flagsEq (rightPaddleCheck g w).1 g := by
  simp only [rightPaddleCheck]
  split_ifs
  · exact handlePaddleHit_flagsEq _ _ _ _ _
  · exact flagsEq_refl g

theorem rightPaddleCheck_warnCount (g : GameInst) (w : World) :
    (rightPaddleCheck g w).2.2.countP
      (fun e => e = Emit.goldenGoalWarningEvt) = 0 := by
  simp only [rightPaddleCheck]
  split_ifs
  · exact handlePaddleHit_warnCount _ _ _ _ _
  · rfl

theorem checkPaddleCollisions_flagsEq (g : GameInst) (w : World) :
    flagsEq (checkPaddleCollisions g w).1 g :=
  flagsEq_trans (rightPaddleCheck_flagsEq _ _) (leftPaddleCheck_flagsEq _ _)

theorem checkPaddleCollisions_warnCount (g : GameInst) (w : World) :
    (checkPaddleCollisions g w).2.2.countP
      (fun e => e = Emit.goldenGoalWarningEvt) = 0 := by
  simp only [checkPaddleCollisions, List.countP_append,
    leftPaddleCheck_warnCount, rightPaddleCheck_warnCount]

theorem handleGoal_flagsEq (scorer opp : String) (u1 u2 u3 : ℝ)
    (g : GameInst) (w : World) :
    flagsEq (handleGoal scorer opp u1 u2 u3 g w).1 g := by
  have hb := bumpScore_flagsEq g scorer
  have hr := resetBall_flagsEq u1 u2 u3 (bumpScore g scorer)
  simp only [handleGoal]
  split_ifs <;> exact flagsEq_trans hr hb

theorem handleGoal_warnCount (scorer opp : String) (u1 u2 u3 : ℝ)
    (g : GameInst) (w : World) :
    (handleGoal scorer opp u1 u2 u3 g w).2.2.countP
      (fun e => e = Emit.goldenGoalWarningEvt) = 0 := by
  simp only [handleGoal]
  split_ifs <;> simp

theorem checkGoals_flagsEq (u1 u2 u3 : ℝ) (g : GameInst) (w : World) :
    flagsEq (checkGoals u1 u2 u3 g w).1 g := by
  simp only [checkGoals]
  split_ifs
  · exact handleGoal_flagsEq _ _ _ _ _ _ _
  · exact handleGoal_flagsEq _ _ _ _ _ _ _
  · exact flagsEq_refl g

theorem checkGoals_warnCount (u1 u2 u3 : ℝ) (g : GameInst) (w : World) :
    (checkGoals u1 u2 u3 g w).2.2.countP
      (fun e => e = Emit.goldenGoalWarningEvt) = 0 := by
  simp only [checkGoals]
  split_ifs
  · exact handleGoal_warnCount _ _ _ _ _ _ _
  · exact handleGoal_warnCount _ _ _ _ _ _ _
  · rfl

theorem clampBallSpeed_flagsEq (g : GameInst) :
    flagsEq (clampBallSpeed g) g := by
  simp only [clampBallSpeed]
  split_ifs <;> exact ⟨rfl, rfl, rfl, rfl, rfl, rfl, rfl, rfl, rfl⟩

theorem updateBall_flagsEq (uw u1 u2 u3 : ℝ) (g : GameInst) (w : World) :
    flagsEq (updateBall uw u1 u2 u3 g w).1 g := by
  simp only [updateBall]
  refine flagsEq_trans (flagsEq_trans (flagsEq_trans (flagsEq_trans
    (checkGoals_flagsEq _ _ _ _ _)
    (checkPaddleCollisions_flagsEq _ _))
    (checkWallCollisions_flagsEq _ _)) ?_)
    (clampBallSpeed_flagsEq g)
  exact ⟨rfl, rfl, rfl, rfl, rfl, rfl, rfl, rfl, rfl⟩

theorem updateBall_warnCount (uw u1 u2 u3 : ℝ) (g : GameInst) (w : World) :
    (updateBall uw u1 u2 u3 g w).2.2.countP
      (fun e => e = Emit.goldenGoalWarningEvt) = 0 := by
  simp only [updateBall, List.countP_append, checkPaddleCollisions_warnCount,
    checkGoals_warnCount]

theorem updatePaddles_flagsEq (g : GameInst) :
    flagsEq (updatePaddles g) g := by
  simp only [updatePaddles]
  exact ⟨rfl, rfl, rfl, rfl, rfl, rfl, rfl, rfl, rfl⟩

theorem updateGame_flagsEq (uw u1 u2 u3 : ℝ) (g : GameInst) (w : World) :
    flagsEq (updateGame uw u1 u2 u3 g w).1 g := by
  simp only [updateGame]
  refine flagsEq_trans (updateBall_flagsEq _ _ _ _ _ _)
    (flagsEq_trans (updatePaddles_flagsEq _) ?_)
  exact ⟨rfl, rfl, rfl, rfl, rfl, rfl, rfl, rfl, rfl⟩

theorem updateGame_warnCount (uw u1 u2 u3 : ℝ) (g : GameInst) (w : World) :
    (updateGame uw u1 u2 u3 g w).2.2.countP
      (fun e => e = Emit.goldenGoalWarningEvt) = 0 := by
  simp only [updateGame]
  exact updateBall_warnCount _ _ _ _ _ _

/-- Whether the match has already warned or entered golden goal; once this
holds it holds forever, which is what makes the warning unique. -/
def warnedOrGolden (g : GameInst) : Bool :=
  g.goldenGoalWarning || g.goldenGoalMode

theorem endGame_flags (reason : String) (d : ℝ) (room : Bool)
    (g : GameInst) (w : World) :
    (endGame reason d room g w).1.goldenGoalMode = g.goldenGoalMode ∧
    (endGame reason d room g w).1.goldenGoalWarning = g.goldenGoalWarning ∧
    (endGame reason d room g w).2.2.countP
      (fun e => e = Emit.goldenGoalWarningEvt) = 0 := by
  simp only [endGame]
  split_ifs <;> simp [List.countP_append]

theorem enterGoldenGoalMode_mode (u1 u2 u3 : ℝ) (g : GameInst) :
    (enterGoldenGoalMode u1 u2 u3 g).goldenGoalMode = true := by
  simp only [enterGoldenGoalMode]
  split_ifs with h1 h2
  · exact h1
  · exact ((resetBall_flagsEq u1 u2 u3 _).1).trans rfl
  · exact ((resetBall_flagsEq u1 u2 u3 _).1).trans rfl

theorem handleTimeUp_warn (u1 u2 u3 : ℝ) (d : ℝ) (room : Bool)
    (g : GameInst) (w : World) :
    (if warnedOrGolden g then 1 else 0) +
      (handleTimeUp u1 u2 u3 d room g w).2.2.countP
        (fun e => e = Emit.goldenGoalWarningEvt) ≤
    (if warnedOrGolden (handleTimeUp u1 u2 u3 d room g w).1 then 1
      else 0) := by
  by_cases h1 : g.isTournamentMatch = true ∧ g.score1 = g.score2
  · by_cases h2 : ¬g.goldenGoalMode = true ∧ ¬g.goldenGoalWarning = true
    · have hmode := enterGoldenGoalMode_mode u1 u2 u3 g
      simp only [handleTimeUp, if_pos h1, if_pos h2]
      simp only [warnedOrGolden, hmode, Bool.or_true, if_true,
        List.countP_nil, Nat.add_zero]
      split_ifs <;> omega
    · simp only [handleTimeUp, if_pos h1, if_neg h2]
      simp
  · simp only [handleTimeUp, if_neg h1]
    obtain ⟨hm, hw, hc⟩ := endGame_flags "time" d room g w
    simp only [hc, Nat.add_zero, warnedOrGolden, hm, hw, le_refl]

theorem timerTickBody_warn (u1 u2 u3 : ℝ) (d : ℝ) (room : Bool)
    (g : GameInst) (w : World) :
    (if warnedOrGolden g then 1 else 0) +
      (timerTickBody u1 u2 u3 d room g w).2.2.countP
        (fun e => e = Emit.goldenGoalWarningEvt) ≤
    (if warnedOrGolden (timerTickBody u1 u2 u3 d room g w).1 then 1
      else 0) := by
  by_cases hp : g.gamePausedForGoldenGoal = true
  · simp only [timerTickBody, if_pos hp, List.countP_nil, Nat.add_zero,
      le_refl]
  · by_cases htr : g.isTournamentMatch = true ∧
        g.timeLeft - 1 = GOLDEN_GOAL_WARNING ∧ g.score1 = g.score2 ∧
        ¬g.goldenGoalWarning = true ∧ ¬g.goldenGoalMode = true
    · obtain ⟨hit, htl, hsc, hw, hm⟩ := htr
      have hw2 : g.goldenGoalWarning = false := by
        cases h : g.goldenGoalWarning
        · rfl
        · exact absurd h hw
      simp [timerTickBody, hp, triggerGoldenGoalWarning, warnedOrGolden,
        hw2, hm, htl, hit, hsc, GOLDEN_GOAL_WARNING]
    · by_cases ht : g.timeLeft - 1 ≤ 0 ∧ ¬g.goldenGoalMode = true ∧
          ¬g.goldenGoalWarning = true
      · have key := handleTimeUp_warn u1 u2 u3 d room
          { g with timeLeft := g.timeLeft - 1 } w
        have hWG : warnedOrGolden { g with timeLeft := g.timeLeft - 1 } =
          warnedOrGolden g := rfl
        rw [hWG] at key
        simp only [timerTickBody, if_neg hp]
        rw [if_neg htr, if_pos ht]
        simpa using key
      · simp only [timerTickBody, if_neg hp]
        rw [if_neg htr, if_neg ht]
        have hWG : warnedOrGolden { g with timeLeft := g.timeLeft - 1 } =
          warnedOrGolden g := rfl
        simp [hWG]

theorem step_warn_bound (e : GEv) (g : GameInst) (w : World) :
    (if warnedOrGolden g then 1 else 0) + warnCount (step e g w).2.2 ≤
      (if warnedOrGolden (step e g w).1 then 1 else 0) := by
  cases e with
  | timerTick u1 u2 u3 d room =>
      by_cases h : g.gameTimerOn = true
      · simp only [step, if_pos h]
        exact timerTickBody_warn u1 u2 u3 d room g w
      · simp only [step, if_neg h, warnCount, List.countP_nil,
          Nat.add_zero, le_refl]
  | loopTick doStep uw u1 u2 u3 =>
      by_cases hl : g.loopOn = true
      · simp only [step, if_pos hl, gameLoopBody]
        by_cases h1 : ¬g.gameActive = true ∨ g.cleanedUp = true
        · rw [if_pos h1]
          have hWG : warnedOrGolden { g with loopOn := false } =
            warnedOrGolden g := rfl
          simp only [hWG, warnCount, List.countP_nil, Nat.add_zero,
            le_refl]
        · rw [if_neg h1]
          by_cases h2 : g.gamePausedForGoldenGoal = true
          · rw [if_pos h2]
            simp only [warnCount, List.countP_nil, Nat.add_zero, le_refl]
          · rw [if_neg h2]
            by_cases h3 : doStep = true
            · rw [if_pos h3]
              have hfe := updateGame_flagsEq uw u1 u2 u3 g w
              have hWG : warnedOrGolden (updateGame uw u1 u2 u3 g w).1 =
                  warnedOrGolden g := by
                simp [warnedOrGolden, hfe.1, hfe.2.1]
              simp only [warnCount, updateGame_warnCount, Nat.add_zero,
                hWG, le_refl]
            · rw [if_neg h3]
              simp only [warnCount, List.countP_nil, Nat.add_zero,
                le_refl]
      · simp only [step, if_neg hl, warnCount, List.countP_nil,
          Nat.add_zero, le_refl]
  | goalEvt sc u1 u2 u3 =>
      by_cases hguard : g.loopOn = true ∧ g.gameActive = true ∧
          ¬g.gamePausedForGoldenGoal = true
      · simp only [step, if_pos hguard]
        cases sc with
        | true =>
            have hfe := handleGoal_flagsEq g.player1 g.player2 u1 u2 u3 g w
            have hWG : warnedOrGolden
                (handleGoal g.player1 g.player2 u1 u2 u3 g w).1 =
                warnedOrGolden g := by
              simp [warnedOrGolden, hfe.1, hfe.2.1]
            simp only [eq_self_iff_true, if_true, warnCount,
              handleGoal_warnCount, Nat.add_zero, hWG, le_refl]
        | false =>
            have hfe := handleGoal_flagsEq g.player2 g.player1 u1 u2 u3 g w
            have hWG : warnedOrGolden
                (handleGoal g.player2 g.player1 u1 u2 u3 g w).1 =
                warnedOrGolden g := by
              simp [warnedOrGolden, hfe.1, hfe.2.1]
            simp only [Bool.false_eq_true, if_false, warnCount,
              handleGoal_warnCount, Nat.add_zero, hWG, le_refl]
      · simp only [step, if_neg hguard, warnCount, List.countP_nil,
          Nat.add_zero, le_refl]
  | warningElapsed u1 u2 u3 =>
      by_cases h : g.pendingGoldenEntry = true
      · simp only [step, if_pos h]
        have hmode := enterGoldenGoalMode_mode u1 u2 u3
          { g with pendingGoldenEntry := false }
        simp only [warnCount, List.countP_nil, Nat.add_zero,
          warnedOrGolden, hmode, Bool.or_true, if_true]
        split_ifs <;> omega
      · simp only [step, if_neg h, warnCount, List.countP_nil,
          Nat.add_zero, le_refl]
  | goldenEndElapsed d room =>
      by_cases h : g.pendingGoldenEnd = true
      · simp only [step, if_pos h]
        obtain ⟨hm, hw, hc⟩ := endGame_flags "golden-goal" d room
          { g with pendingGoldenEnd := false } w
        have hWG : warnedOrGolden (endGame "golden-goal" d room
            { g with pendingGoldenEnd := false } w).1 =
            warnedOrGolden g := by
          simp only [warnedOrGolden, hm, hw]
        simp only [warnCount, hc, Nat.add_zero, hWG, le_refl]
      · simp only [step, if_neg h, warnCount, List.countP_nil,
          Nat.add_zero, le_refl]
  | endCall reason d room =>
      simp only [step]
      obtain ⟨hm, hw, hc⟩ := endGame_flags reason d room g w
      have hWG : warnedOrGolden (endGame reason d room g w).1 =
          warnedOrGolden g := by
        simp only [warnedOrGolden, hm, hw]
      simp only [warnCount, hc, Nat.add_zero, hWG, le_refl]

/-- Over any trace, the total number of golden-goal warning broadcasts
plus the initial warned-or-golden indicator is bounded by one. -/
theorem run_warn_bound (tr : List GEv) (g : GameInst) (w : World) :
    (if warnedOrGolden g then 1 else 0) + warnCount (run g w tr).2.2 ≤
      1 := by
  induction tr generalizing g w with
  | nil => simp [run, warnCount]; split_ifs <;> omega
  | cons e tr ih =>
      have hstep := step_warn_bound e g w
      have hrest := ih (step e g w).1 (step e g w).2.1
      have hsplit : warnCount (run g w (e :: tr)).2.2 =
          warnCount (step e g w).2.2 +
          warnCount (run (step e g w).1 (step e g w).2.1 tr).2.2 := by
        simp [run, warnCount, List.countP_append]
      rw [hsplit]
      split_ifs at hstep hrest ⊢ <;> omega

theorem endGame_cleans (reason : String) (d : ℝ) (g : GameInst)
    (w : World) (hclean : g.cleanedUp = false) :
    (endGame reason d true g w).1.cleanedUp = true ∧
    Emit.matchFinishedEvt (endGameWinner g) reason ∈
      (endGame reason d true g w).2.2 := by
  simp only [endGame, hclean, Bool.false_eq_true, if_false]
  constructor
  · trivial
  · split_ifs <;> simp [endGameWinner]

theorem handleGoal_golden_pending (scorer opp : String) (u1 u2 u3 : ℝ)
    (g : GameInst) (w : World) (hm : g.goldenGoalMode = true) :
    (handleGoal scorer opp u1 u2 u3 g w).1.pendingGoldenEnd = true := by
  have hmode : (resetBall u1 u2 u3 (bumpScore g scorer)).goldenGoalMode
      = true := by
    rw [(resetBall_flagsEq u1 u2 u3 (bumpScore g scorer)).1,
      (bumpScore_flagsEq g scorer).1]
    exact hm
  simp only [handleGoal, hmode, if_true]

/-- In golden-goal mode a timer tick never triggers a warning, never calls
handleTimeUp, and leaves the pending sudden-death end, the cleanedUp latch
and the mode itself untouched. -/
theorem goldenTick_preserve (u1 u2 u3 d : ℝ) (room : Bool) (g : GameInst)
    (w : World) (hm : g.goldenGoalMode = true) :
    (step (GEv.timerTick u1 u2 u3 d room) g w).1.pendingGoldenEnd =
      g.pendingGoldenEnd ∧
    (step (GEv.timerTick u1 u2 u3 d room) g w).1.cleanedUp = g.cleanedUp ∧
    (step (GEv.timerTick u1 u2 u3 d room) g w).1.goldenGoalMode = true := by
  by_cases ht : g.gameTimerOn = true
  · simp only [step, if_pos ht, timerTickBody]
    by_cases hp : g.gamePausedForGoldenGoal = true
    · rw [if_pos hp]
      refine ⟨?_, ?_, ?_⟩ <;> first | trivial | exact hm
    · rw [if_neg hp]
      have hnotr : ¬(g.isTournamentMatch = true ∧
          g.timeLeft - 1 = GOLDEN_GOAL_WARNING ∧ g.score1 = g.score2 ∧
          ¬g.goldenGoalWarning = true ∧ ¬g.goldenGoalMode = true) :=
        fun h => h.2.2.2.2 hm
      have hnott : ¬(g.timeLeft - 1 ≤ 0 ∧ ¬g.goldenGoalMode = true ∧
          ¬g.goldenGoalWarning = true) := fun h => h.2.1 hm
      rw [if_neg hnotr, if_neg hnott]
      refine ⟨?_, ?_, ?_⟩ <;> first | trivial | exact hm
  · simp only [step, if_neg ht]
    refine ⟨?_, ?_, ?_⟩ <;> first | trivial | exact hm

/-- Any number of timer ticks in golden-goal mode preserves the pending
sudden-death end and the cleanedUp latch. -/
theorem goldenTicks_preserve (k : ℕ) (v1 v2 v3 dv : ℝ) (rv : Bool)
    (g : GameInst) (w : World) (hm : g.goldenGoalMode = true) :
    (run g w (List.replicate k (GEv.timerTick v1 v2 v3 dv rv))).1.pendingGoldenEnd
      = g.pendingGoldenEnd ∧
    (run g w (List.replicate k (GEv.timerTick v1 v2 v3 dv rv))).1.cleanedUp
      = g.cleanedUp ∧
    (run g w (List.replicate k (GEv.timerTick v1 v2 v3 dv rv))).1.goldenGoalMode
      = true := by
  induction k generalizing g w with
  | zero => exact ⟨rfl, rfl, hm⟩
  | succ k ih =>
      obtain ⟨h1, h2, h3⟩ :=
        goldenTick_preserve v1 v2 v3 dv rv g w hm
      obtain ⟨i1, i2, i3⟩ :=
        ih (step (GEv.timerTick v1 v2 v3 dv rv) g w).1
          (step (GEv.timerTick v1 v2 v3 dv rv) g w).2.1 h3
      rw [List.replicate_succ]
      exact ⟨by rw [show (run g w (GEv.timerTick v1 v2 v3 dv rv ::
          List.replicate k (GEv.timerTick v1 v2 v3 dv rv))).1 =
          (run (step (GEv.timerTick v1 v2 v3 dv rv) g w).1
            (step (GEv.timerTick v1 v2 v3 dv rv) g w).2.1
            (List.replicate k (GEv.timerTick v1 v2 v3 dv rv))).1 from rfl,
          i1, h1],
        by rw [show (run g w (GEv.timerTick v1 v2 v3 dv rv ::
          List.replicate k (GEv.timerTick v1 v2 v3 dv rv))).1 =
          (run (step (GEv.timerTick v1 v2 v3 dv rv) g w).1
            (step (GEv.timerTick v1 v2 v3 dv rv) g w).2.1
            (List.replicate k (GEv.timerTick v1 v2 v3 dv rv))).1 from rfl,
          i2, h2],
        by rw [show (run g w (GEv.timerTick v1 v2 v3 dv rv ::
          List.replicate k (GEv.timerTick v1 v2 v3 dv rv))).1 =
          (run (step (GEv.timerTick v1 v2 v3 dv rv) g w).1
            (step (GEv.timerTick v1 v2 v3 dv rv) g w).2.1
            (List.replicate k (GEv.timerTick v1 v2 v3 dv rv))).1 from rfl,
          i3]⟩

/-- C2: in an elimination match, (a) at most one overtime warning is ever
broadcast over any event trace starting from a state that has not yet
warned or entered overtime; (b) the timer tick that reaches the 5-second
threshold with a tied score broadcasts exactly that one warning and
freezes the match (paused, serve suspended, countdown scheduled); (c)
while frozen, timer ticks change nothing at all and loop passes leave the
ball and the clock untouched; (d) once overtime mode is entered, a goal
by either player schedules the sudden-death end, which survives any
number of further timer ticks (elapsed time never ends the match in
overtime) and then ends the match with a golden-goal final result. -/
theorem c2_overtime_warning_and_sudden_death :
    (∀ (g : GameInst) (w : World) (tr : List GEv),
      g.goldenGoalWarning = false → g.goldenGoalMode = false →
      warnCount (run g w tr).2.2 ≤ 1) ∧
    (∀ (u1 u2 u3 d : ℝ) (room : Bool) (g : GameInst) (w : World),
      g.gameTimerOn = true → g.gamePausedForGoldenGoal = false →
      g.isTournamentMatch = true → g.score1 = g.score2 →
      g.timeLeft = GOLDEN_GOAL_WARNING + 1 →
      g.goldenGoalWarning = false → g.goldenGoalMode = false →
      (step (GEv.timerTick u1 u2 u3 d room) g w).2.2 =
        [Emit.goldenGoalWarningEvt] ∧
      (step (GEv.timerTick u1 u2 u3 d room) g w).1.gamePausedForGoldenGoal
        = true ∧
      (step (GEv.timerTick u1 u2 u3 d room) g w).1.pendingGoldenEntry
        = true ∧
      (step (GEv.timerTick u1 u2 u3 d room) g w).1.gameActive = false ∧
      (step (GEv.timerTick u1 u2 u3 d room) g w).1.timeLeft =
        GOLDEN_GOAL_WARNING) ∧
    (∀ (u1 u2 u3 d : ℝ) (room : Bool) (g : GameInst) (w : World),
      g.gamePausedForGoldenGoal = true →
      step (GEv.timerTick u1 u2 u3 d room) g w = (g, w, [])) ∧
    (∀ (doStep : Bool) (uw u1 u2 u3 : ℝ) (g : GameInst) (w : World),
      g.gamePausedForGoldenGoal = true →
      (step (GEv.loopTick doStep uw u1 u2 u3) g w).1.ballX = g.ballX ∧
      (step (GEv.loopTick doStep uw u1 u2 u3) g w).1.ballY = g.ballY ∧
      (step (GEv.loopTick doStep uw u1 u2 u3) g w).1.ballSpeedX =
        g.ballSpeedX ∧
      (step (GEv.loopTick doStep uw u1 u2 u3) g w).1.ballSpeedY =
        g.ballSpeedY ∧
      (step (GEv.loopTick doStep uw u1 u2 u3) g w).1.timeLeft =
        g.timeLeft) ∧
    (∀ (sc : Bool) (u1 u2 u3 : ℝ) (g : GameInst) (w : World) (k : ℕ)
        (v1 v2 v3 dv : ℝ) (rv : Bool) (d2 : ℝ),
      g.goldenGoalMode = true → g.cleanedUp = false →
      g.loopOn = true → g.gameActive = true →
      g.gamePausedForGoldenGoal = false →
      (step (GEv.goldenEndElapsed d2 true)
        (run (step (GEv.goalEvt sc u1 u2 u3) g w).1
          (step (GEv.goalEvt sc u1 u2 u3) g w).2.1
          (List.replicate k (GEv.timerTick v1 v2 v3 dv rv))).1
        (run (step (GEv.goalEvt sc u1 u2 u3) g w).1
          (step (GEv.goalEvt sc u1 u2 u3) g w).2.1
          (List.replicate k (GEv.timerTick v1 v2 v3 dv rv))).2.1).1.cleanedUp
        = true ∧
      ∃ wn, Emit.matchFinishedEvt wn "golden-goal" ∈
        (step (GEv.goldenEndElapsed d2 true)
          (run (step (GEv.goalEvt sc u1 u2 u3) g w).1
            (step (GEv.goalEvt sc u1 u2 u3) g w).2.1
            (List.replicate k (GEv.timerTick v1 v2 v3 dv rv))).1
          (run (step (GEv.goalEvt sc u1 u2 u3) g w).1
            (step (GEv.goalEvt sc u1 u2 u3) g w).2.1
            (List.replicate k (GEv.timerTick v1 v2 v3 dv rv))).2.1).2.2) := by
  refine ⟨?_, ?_, ?_, ?_, ?_⟩
  · intro g w tr hw hm
    have := run_warn_bound tr g w
    have hWG : warnedOrGolden g = false := by
      simp [warnedOrGolden, hw, hm]
    rw [hWG] at this
    simpa using this
  · intro u1 u2 u3 d room g w htimer hpause htour htied htl hwarn hmode
    have hcond : g.isTournamentMatch = true ∧
        g.timeLeft - 1 = GOLDEN_GOAL_WARNING ∧ g.score1 = g.score2 ∧
        ¬g.goldenGoalWarning = true ∧ ¬g.goldenGoalMode = true := by
      refine ⟨htour, by rw [htl]; ring, htied, ?_, ?_⟩
      · rw [hwarn]; simp
      · rw [hmode]; simp
    have hnott : ¬((triggerGoldenGoalWarning
        { g with timeLeft := g.timeLeft - 1 }).1.timeLeft ≤ 0 ∧
        ¬(triggerGoldenGoalWarning
          { g with timeLeft := g.timeLeft - 1 }).1.goldenGoalMode = true ∧
        ¬(triggerGoldenGoalWarning
          { g with timeLeft := g.timeLeft - 1 }).1.goldenGoalWarning
            = true) := by
      intro h
      exact h.2.2 rfl
    simp only [step, if_pos htimer, timerTickBody,
      if_neg (show ¬g.gamePausedForGoldenGoal = true by rw [hpause]; simp),
      if_pos hcond, if_neg hnott]
    refine ⟨?_, ?_, ?_, ?_, ?_⟩ <;>
      first
      | trivial
      | (show g.timeLeft - 1 = GOLDEN_GOAL_WARNING
         rw [htl]; ring)
  · intro u1 u2 u3 d room g w hp
    by_cases ht : g.gameTimerOn = true
    · simp only [step, if_pos ht, timerTickBody, if_pos hp]
    · simp only [step, if_neg ht]
  · intro doStep uw u1 u2 u3 g w hp
    by_cases hl : g.loopOn = true
    · simp only [step, if_pos hl, gameLoopBody]
      by_cases ha : ¬g.gameActive = true ∨ g.cleanedUp = true
      · rw [if_pos ha]
        refine ⟨?_, ?_, ?_, ?_, ?_⟩ <;> trivial
      · rw [if_neg ha, if_pos hp]
        refine ⟨?_, ?_, ?_, ?_, ?_⟩ <;> trivial
    · simp only [step, if_neg hl]
      refine ⟨?_, ?_, ?_, ?_, ?_⟩ <;> trivial
  · intro sc u1 u2 u3 g w k v1 v2 v3 dv rv d2 hm hcl hloop hact hpause
    have hguard : g.loopOn = true ∧ g.gameActive = true ∧
        ¬g.gamePausedForGoldenGoal = true := by
      refine ⟨hloop, hact, ?_⟩
      rw [hpause]; simp
    have hstep1 : (step (GEv.goalEvt sc u1 u2 u3) g w).1 =
        (if sc then handleGoal g.player1 g.player2 u1 u2 u3 g w
         else handleGoal g.player2 g.player1 u1 u2 u3 g w).1 := by
      simp only [step, if_pos hguard]
    have hpend : (step (GEv.goalEvt sc u1 u2 u3) g w).1.pendingGoldenEnd
        = true := by
      rw [hstep1]
      cases sc with
      | true =>
          simp only [if_true]
          exact handleGoal_golden_pending _ _ u1 u2 u3 g w hm
      | false =>
          simp only [Bool.false_eq_true, if_false]
          exact handleGoal_golden_pending _ _ u1 u2 u3 g w hm
    have hmode1 : (step (GEv.goalEvt sc u1 u2 u3) g w).1.goldenGoalMode
        = true := by
      rw [hstep1]
      cases sc with
      | true =>
          simp only [if_true]
          exact ((handleGoal_flagsEq _ _ u1 u2 u3 g w).1).trans hm
      | false =>
          simp only [Bool.false_eq_true, if_false]
          exact ((handleGoal_flagsEq _ _ u1 u2 u3 g w).1).trans hm
    have hclean1 : (step (GEv.goalEvt sc u1 u2 u3) g w).1.cleanedUp
        = false := by
      rw [hstep1]
      cases sc with
      | true =>
          simp only [if_true]
          exact ((handleGoal_flagsEq _ _ u1 u2 u3 g w).2.2.2.2.1).trans hcl
      | false =>
          simp only [Bool.false_eq_true, if_false]
          exact ((handleGoal_flagsEq _ _ u1 u2 u3 g w).2.2.2.2.1).trans hcl
    obtain ⟨hp2, hc2, _⟩ := goldenTicks_preserve k v1 v2 v3 dv rv
      (step (GEv.goalEvt sc u1 u2 u3) g w).1
      (step (GEv.goalEvt sc u1 u2 u3) g w).2.1 hmode1
    rw [hpend] at hp2
    rw [hclean1] at hc2
    set S := run (step (GEv.goalEvt sc u1 u2 u3) g w).1
      (step (GEv.goalEvt sc u1 u2 u3) g w).2.1
      (List.replicate k (GEv.timerTick v1 v2 v3 dv rv)) with hSdef
    have hfinal := endGame_cleans "golden-goal" d2
      { S.1 with pendingGoldenEnd := false } S.2.1 hc2
    have houter : step (GEv.goldenEndElapsed d2 true) S.1 S.2.1 =
        endGame "golden-goal" d2 true
          { S.1 with pendingGoldenEnd := false } S.2.1 := by
      simp only [step, if_pos hp2]
    rw [houter]
    exact ⟨hfinal.1, ⟨_, hfinal.2⟩⟩

/-- The sample match as a tied elimination match one second above the
warning threshold. -/
noncomputable def goldenThresholdGame : GameInst :=
  { sampleGame with isTournamentMatch := true, score2 := 2, timeLeft := 6 }

/-- The sample match paused for the golden-goal countdown. -/
noncomputable def pausedSampleGame : GameInst :=
  { sampleGame with gamePausedForGoldenGoal := true }

/-- The sample match in golden-goal mode. -/
noncomputable def goldenModeGame : GameInst :=
  { sampleGame with goldenGoalMode := true }

/-- C2 witness: all five parts of the theorem applied at concrete
states, random draws and a concrete two-tick delay. -/
theorem c2_witness :
    warnCount (run goldenThresholdGame sampleWorld
      [GEv.timerTick 0 0 0 30 true]).2.2 ≤ 1 ∧
    (step (GEv.timerTick 0 0 0 30 true)
      goldenThresholdGame sampleWorld).2.2 = [Emit.goldenGoalWarningEvt] ∧
    step (GEv.timerTick 0 0 0 30 true) pausedSampleGame sampleWorld =
      (pausedSampleGame, sampleWorld, []) ∧
    (step (GEv.loopTick true 0 0 0 0)
      pausedSampleGame sampleWorld).1.ballX = pausedSampleGame.ballX ∧
    (step (GEv.goldenEndElapsed 40 true)
      (run (step (GEv.goalEvt true 0 0 0) goldenModeGame sampleWorld).1
        (step (GEv.goalEvt true 0 0 0) goldenModeGame sampleWorld).2.1
        (List.replicate 2 (GEv.timerTick 0 0 0 30 true))).1
      (run (step (GEv.goalEvt true 0 0 0) goldenModeGame sampleWorld).1
        (step (GEv.goalEvt true 0 0 0) goldenModeGame sampleWorld).2.1
        (List.replicate 2 (GEv.timerTick 0 0 0 30 true))).2.1).1.cleanedUp
      = true := by
  obtain ⟨huniq, hfire, hfrozT, hfrozL, hgold⟩ :=
    c2_overtime_warning_and_sudden_death
  refine ⟨huniq goldenThresholdGame sampleWorld _ rfl rfl,
    (hfire 0 0 0 30 true goldenThresholdGame sampleWorld rfl rfl rfl rfl
      (by norm_num [goldenThresholdGame, sampleGame, GOLDEN_GOAL_WARNING])
      rfl rfl).1,
    hfrozT 0 0 0 30 true pausedSampleGame sampleWorld rfl,
    (hfrozL true 0 0 0 0 pausedSampleGame sampleWorld rfl).1,
    (hgold true 0 0 0 goldenModeGame sampleWorld 2 0 0 0 30 true 40
      rfl rfl rfl rfl rfl).1⟩

/-! ## C1: per-tick ball-speed bound (corrected)

The clamp at the start of updateBall bounds the speed magnitude by
MAX_BALL_SPEED * 1.5 = 18, but it runs before the collision checks: a
wall bounce afterwards adds a random perturbation of magnitude up to 1/4
to the vertical speed, so the post-tick magnitude can reach 18.25 and the
claimed bound of 18 fails; a paddle hit clamps each component to 12, for
a magnitude of at most 12 * sqrt 2 < 18. -/

theorem clampBallSpeed_bound (g : GameInst) :
    (clampBallSpeed g).ballSpeedX ^ 2 + (clampBallSpeed g).ballSpeedY ^ 2
      ≤ (MAX_BALL_SPEED_R * 1.5) ^ 2 := by
  have hnn : 0 ≤ g.ballSpeedX * g.ballSpeedX + g.ballSpeedY * g.ballSpeedY := by
    nlinarith [sq_nonneg g.ballSpeedX, sq_nonneg g.ballSpeedY]
  simp only [clampBallSpeed]
  split_ifs with h
  · have hpos : (0:ℝ) < MAX_BALL_SPEED_R * 1.5 := by
      simp only [MAX_BALL_SPEED_R]; norm_num
    have hs : 0 < Real.sqrt
        (g.ballSpeedX * g.ballSpeedX + g.ballSpeedY * g.ballSpeedY) :=
      lt_trans hpos h
    have hsq : Real.sqrt
        (g.ballSpeedX * g.ballSpeedX + g.ballSpeedY * g.ballSpeedY) ^ 2 =
        g.ballSpeedX * g.ballSpeedX + g.ballSpeedY * g.ballSpeedY :=
      Real.sq_sqrt hnn
    have hne : Real.sqrt
        (g.ballSpeedX * g.ballSpeedX + g.ballSpeedY * g.ballSpeedY) ≠ 0 :=
      ne_of_gt hs
    have hs2 : g.ballSpeedX * g.ballSpeedX + g.ballSpeedY * g.ballSpeedY
        ≠ 0 := ne_of_gt (Real.sqrt_pos.mp hs)
    have key : (g.ballSpeedX *
        (MAX_BALL_SPEED_R * 1.5 / Real.sqrt
          (g.ballSpeedX * g.ballSpeedX + g.ballSpeedY * g.ballSpeedY))) ^ 2 +
        (g.ballSpeedY *
        (MAX_BALL_SPEED_R * 1.5 / Real.sqrt
          (g.ballSpeedX * g.ballSpeedX + g.ballSpeedY * g.ballSpeedY))) ^ 2 =
        (MAX_BALL_SPEED_R * 1.5) ^ 2 := by
      have e1 : (g.ballSpeedX *
          (MAX_BALL_SPEED_R * 1.5 / Real.sqrt
            (g.ballSpeedX * g.ballSpeedX + g.ballSpeedY * g.ballSpeedY))) ^ 2 +
          (g.ballSpeedY *
          (MAX_BALL_SPEED_R * 1.5 / Real.sqrt
            (g.ballSpeedX * g.ballSpeedX + g.ballSpeedY * g.ballSpeedY))) ^ 2 =
          (g.ballSpeedX * g.ballSpeedX + g.ballSpeedY * g.ballSpeedY) *
          ((MAX_BALL_SPEED_R * 1.5) ^ 2 / Real.sqrt
            (g.ballSpeedX * g.ballSpeedX + g.ballSpeedY * g.ballSpeedY) ^ 2)
          := by
        field_simp
        ring
      rw [e1, hsq]
      field_simp
    exact le_of_eq key
  · push_neg at h
    have hb := Real.sqrt_le_sqrt (le_of_eq (rfl :
      g.ballSpeedX * g.ballSpeedX + g.ballSpeedY * g.ballSpeedY =
      g.ballSpeedX * g.ballSpeedX + g.ballSpeedY * g.ballSpeedY))
    have hsq : Real.sqrt
        (g.ballSpeedX * g.ballSpeedX + g.ballSpeedY * g.ballSpeedY) ^ 2 =
        g.ballSpeedX * g.ballSpeedX + g.ballSpeedY * g.ballSpeedY :=
      Real.sq_sqrt hnn
    have hpos : (0:ℝ) ≤ MAX_BALL_SPEED_R * 1.5 := by
      simp only [MAX_BALL_SPEED_R]; norm_num
    nlinarith [pow_le_pow_left (Real.sqrt_nonneg _) h 2]

theorem checkWallCollisions_bound (uw : ℝ) (g : GameInst)
    (hB : g.ballSpeedX ^ 2 + g.ballSpeedY ^ 2 ≤ (MAX_BALL_SPEED_R * 1.5) ^ 2)
    (h1 : 0 ≤ uw) (h2 : uw < 1) :
    (checkWallCollisions uw g).ballSpeedX ^ 2 +
      (checkWallCollisions uw g).ballSpeedY ^ 2 ≤ ((73:ℝ)/4) ^ 2 := by
  have hM : (MAX_BALL_SPEED_R * 1.5) ^ 2 = 324 := by
    simp only [MAX_BALL_SPEED_R]; norm_num
  rw [hM] at hB
  simp only [checkWallCollisions]
  split_ifs with h
  · have hr1 : -(1/4 : ℝ) ≤ (uw - 1/2) * (1/2) := by linarith
    have hr2 : (uw - 1/2) * (1/2) ≤ 1/4 := by linarith
    nlinarith [sq_nonneg (g.ballSpeedY + 72 * ((uw - 1/2) * (1/2))),
      mul_nonneg (by linarith : (0:ℝ) ≤ 1/4 - (uw - 1/2) * (1/2))
        (by linarith : (0:ℝ) ≤ 1/4 + (uw - 1/2) * (1/2)),
      sq_nonneg g.ballSpeedX]
  · nlinarith

theorem jsSign_min_sq (a b M : ℝ) (hM : 0 ≤ M) :
    (jsSign a * min (abs b) M) ^ 2 ≤ M ^ 2 := by
  have hmin1 : min (abs b) M ≤ M := min_le_right _ _
  have hmin0 : 0 ≤ min (abs b) M := le_min (abs_nonneg b) hM
  simp only [jsSign]
  split_ifs <;> nlinarith

theorem handlePaddleHit_bound (p : String) (py : ℝ) (s : Bool)
    (g : GameInst) (w : World) :
    (handlePaddleHit p py s g w).1.ballSpeedX ^ 2 +
      (handlePaddleHit p py s g w).1.ballSpeedY ^ 2 ≤ 288 := by
  have hM : (0:ℝ) ≤ MAX_BALL_SPEED_R := by
    simp only [MAX_BALL_SPEED_R]; norm_num
  have h1 := jsSign_min_sq (-g.ballSpeedX * (1 + SPEED_INCREMENT_R))
    (-g.ballSpeedX * (1 + SPEED_INCREMENT_R)) MAX_BALL_SPEED_R hM
  have h2 := jsSign_min_sq
    ((g.ballY + BALL_SIZE_R / 2 - (py + PADDLE_HEIGHT_R / 2)) /
      (PADDLE_HEIGHT_R / 2) * 3 * (1 + SPEED_INCREMENT_R))
    ((g.ballY + BALL_SIZE_R / 2 - (py + PADDLE_HEIGHT_R / 2)) /
      (PADDLE_HEIGHT_R / 2) * 3 * (1 + SPEED_INCREMENT_R))
    MAX_BALL_SPEED_R hM
  have hM2 : MAX_BALL_SPEED_R ^ 2 = 144 := by
    simp only [MAX_BALL_SPEED_R]; norm_num
  rw [hM2] at h1 h2
  calc (handlePaddleHit p py s g w).1.ballSpeedX ^ 2 +
      (handlePaddleHit p py s g w).1.ballSpeedY ^ 2 ≤ 144 + 144 := by
        exact add_le_add h1 h2
    _ = 288 := by norm_num

theorem leftPaddleCheck_bound (g : GameInst) (w : World) (B : ℝ)
    (hB : g.ballSpeedX ^ 2 + g.ballSpeedY ^ 2 ≤ B) (h288 : 288 ≤ B) :
    (leftPaddleCheck g w).1.ballSpeedX ^ 2 +
      (leftPaddleCheck g w).1.ballSpeedY ^ 2 ≤ B := by
  simp only [leftPaddleCheck]
  split_ifs
  · exact le_trans (handlePaddleHit_bound _ _ _ _ _) h288
  · exact hB

theorem rightPaddleCheck_bound (g : GameInst) (w : World) (B : ℝ)
    (hB : g.ballSpeedX ^ 2 + g.ballSpeedY ^ 2 ≤ B) (h288 : 288 ≤ B) :
    (rightPaddleCheck g w).1.ballSpeedX ^ 2 +
      (rightPaddleCheck g w).1.ballSpeedY ^ 2 ≤ B := by
  simp only [rightPaddleCheck]
  split_ifs
  · exact le_trans (handlePaddleHit_bound _ _ _ _ _) h288
  · exact hB

theorem checkPaddleCollisions_bound (g : GameInst) (w : World) (B : ℝ)
    (hB : g.ballSpeedX ^ 2 + g.ballSpeedY ^ 2 ≤ B) (h288 : 288 ≤ B) :
    (checkPaddleCollisions g w).1.ballSpeedX ^ 2 +
      (checkPaddleCollisions g w).1.ballSpeedY ^ 2 ≤ B := by
  exact rightPaddleCheck_bound _ _ B
    (leftPaddleCheck_bound g w B hB h288) h288

theorem resetBall_bound (u1 u2 u3 : ℝ) (g : GameInst)
    (hu1a : 0 ≤ u1) (hu1b : u1 < 1) (hu3a : 0 ≤ u3) (hu3b : u3 < 1) :
    (resetBall u1 u2 u3 g).ballSpeedX ^ 2 +
      (resetBall u1 u2 u3 g).ballSpeedY ^ 2 ≤ 45 := by
  simp only [resetBall, MIN_BALL_SPEED_R]
  split_ifs <;> dsimp only <;>
    nlinarith [sq_nonneg (u3 - 1/2), sq_nonneg (4 + u1 * 2),
      mul_le_mul (show (u3 - 1/2) ^ 2 ≤ 1/4 by nlinarith)
        (show (4 + u1 * 2) ^ 2 ≤ 36 by nlinarith)
        (sq_nonneg (4 + u1 * 2)) (by norm_num : (0:ℝ) ≤ 1/4)]

theorem handleGoal_bound (scorer opp : String) (u1 u2 u3 : ℝ)
    (g : GameInst) (w : World)
    (hu1a : 0 ≤ u1) (hu1b : u1 < 1) (hu3a : 0 ≤ u3) (hu3b : u3 < 1) :
    (handleGoal scorer opp u1 u2 u3 g w).1.ballSpeedX ^ 2 +
      (handleGoal scorer opp u1 u2 u3 g w).1.ballSpeedY ^ 2 ≤ 45 := by
  have hr := resetBall_bound u1 u2 u3 (bumpScore g scorer) hu1a hu1b
    hu3a hu3b
  simp only [handleGoal]
  split_ifs <;> exact hr

theorem checkGoals_bound (u1 u2 u3 : ℝ) (g : GameInst) (w : World) (B : ℝ)
    (hB : g.ballSpeedX ^ 2 + g.ballSpeedY ^ 2 ≤ B) (h45 : 45 ≤ B)
    (hu1a : 0 ≤ u1) (hu1b : u1 < 1) (hu3a : 0 ≤ u3) (hu3b : u3 < 1) :
    (checkGoals u1 u2 u3 g w).1.ballSpeedX ^ 2 +
      (checkGoals u1 u2 u3 g w).1.ballSpeedY ^ 2 ≤ B := by
  simp only [checkGoals]
  split_ifs
  · exact le_trans (handleGoal_bound _ _ u1 u2 u3 g w hu1a hu1b hu3a
      hu3b) h45
  · exact le_trans (handleGoal_bound _ _ u1 u2 u3 g w hu1a hu1b hu3a
      hu3b) h45
  · exact hB

theorem updateBall_speed_bound (uw u1 u2 u3 : ℝ) (g : GameInst)
    (w : World) (huwa : 0 ≤ uw) (huwb : uw < 1) (hu1a : 0 ≤ u1)
    (hu1b : u1 < 1) (hu3a : 0 ≤ u3) (hu3b : u3 < 1) :
    (updateBall uw u1 u2 u3 g w).1.ballSpeedX ^ 2 +
      (updateBall uw u1 u2 u3 g w).1.ballSpeedY ^ 2 ≤ ((73:ℝ)/4) ^ 2 := by
  simp only [updateBall]
  refine checkGoals_bound u1 u2 u3 _ _ _
    (checkPaddleCollisions_bound _ _ _
      (checkWallCollisions_bound uw _ ?_ huwa huwb)
      (by norm_num))
    (by norm_num) hu1a hu1b hu3a hu3b
  exact clampBallSpeed_bound g

/-- C1 (amended): for every tick, the post-tick ball speed magnitude is
at most MAX_BALL_SPEED * 1.5 + 1/4: the clamp at the start of the tick
bounds the magnitude by MAX_BALL_SPEED * 1.5, a subsequent wall bounce
can add at most the random perturbation bound 1/4, a paddle hit caps each
component at MAX_BALL_SPEED, and a goal re-serve stays below 7.  The
bound holds for every pre-tick state, however many paddle-hit speed
increases have accumulated. -/
theorem c1_post_tick_speed_bound (uw u1 u2 u3 : ℝ) (g : GameInst)
    (w : World) (huwa : 0 ≤ uw) (huwb : uw < 1) (hu1a : 0 ≤ u1)
    (hu1b : u1 < 1) (hu3a : 0 ≤ u3) (hu3b : u3 < 1) :
    Real.sqrt ((updateGame uw u1 u2 u3 g w).1.ballSpeedX ^ 2 +
      (updateGame uw u1 u2 u3 g w).1.ballSpeedY ^ 2) ≤
    MAX_BALL_SPEED_R * 1.5 + 1/4 := by
  have hb : (updateGame uw u1 u2 u3 g w).1.ballSpeedX ^ 2 +
      (updateGame uw u1 u2 u3 g w).1.ballSpeedY ^ 2 ≤ ((73:ℝ)/4) ^ 2 := by
    simp only [updateGame]
    exact updateBall_speed_bound uw u1 u2 u3 _ _ huwa huwb hu1a hu1b
      hu3a hu3b
  calc Real.sqrt ((updateGame uw u1 u2 u3 g w).1.ballSpeedX ^ 2 +
      (updateGame uw u1 u2 u3 g w).1.ballSpeedY ^ 2) ≤
      Real.sqrt (((73:ℝ)/4) ^ 2) := Real.sqrt_le_sqrt hb
    _ = (73:ℝ)/4 := Real.sqrt_sq (by norm_num)
    _ = MAX_BALL_SPEED_R * 1.5 + 1/4 := by
        simp only [MAX_BALL_SPEED_R]; norm_num

/-- A live state with speed magnitude exactly MAX_BALL_SPEED * 1.5,
heading into the bottom wall, paddles parked at the top. -/
noncomputable def c1State : GameInst :=
  { matchId := "m1", player1 := "Ann", player2 := "Bob",
    isTournamentMatch := false, ballX := 450, ballY := 480,
    ballSpeedX := 0, ballSpeedY := 18, player1Y := 0, player2Y := 0,
    serverTick := 0, score1 := 0, score2 := 0, gameActive := true,
    timeLeft := 100, goldenGoalMode := false, goldenGoalWarning := false,
    gamePausedForGoldenGoal := false, cleanedUp := false, rallyCount := 0,
    maxRally := 0, input1 := ⟨false, false⟩, input2 := ⟨false, false⟩,
    gameTimerOn := true, loopOn := true, monitoringOn := true,
    pendingGoldenEntry := false, pendingGoldenEnd := false }

theorem c1_sqrt324 : Real.sqrt ((0:ℝ) * 0 + 18 * 18) = 18 := by
  rw [show ((0:ℝ) * 0 + 18 * 18) = 18 ^ 2 by norm_num]
  exact Real.sqrt_sq (by norm_num)

/-- C1 counterexample: from a pre-tick state whose speed magnitude is
exactly the claimed bound MAX_BALL_SPEED * 1.5 = 18 (so the clamp leaves
it alone), a tick with a wall bounce and an adverse perturbation draw
ends with magnitude 91/5 = 18.2 > 18 — the claimed per-tick bound is not
an invariant of the tick. -/
theorem c1_counterexample :
    Real.sqrt (c1State.ballSpeedX ^ 2 + c1State.ballSpeedY ^ 2) ≤
      MAX_BALL_SPEED_R * 1.5 ∧
    Real.sqrt
      ((updateBall (1/10) 0 0 0 c1State sampleWorld).1.ballSpeedX ^ 2 +
       (updateBall (1/10) 0 0 0 c1State sampleWorld).1.ballSpeedY ^ 2) >
      MAX_BALL_SPEED_R * 1.5 := by
  have hclamp : clampBallSpeed c1State = c1State := by
    simp only [clampBallSpeed, c1State]
    rw [if_neg]
    rw [c1_sqrt324]
    simp only [MAX_BALL_SPEED_R]
    norm_num
  have hsx : (updateBall (1/10) 0 0 0 c1State sampleWorld).1.ballSpeedX
      = 0 := by
    simp only [updateBall, hclamp]
    norm_num [checkGoals, checkPaddleCollisions, leftPaddleCheck,
      rightPaddleCheck, checkWallCollisions, c1State, CANVAS_WIDTH_R,
      CANVAS_HEIGHT_R, BALL_SIZE_R, PADDLE_WIDTH_R, PADDLE_HEIGHT_R]
  have hsy : (updateBall (1/10) 0 0 0 c1State sampleWorld).1.ballSpeedY
      = -(91/5) := by
    simp only [updateBall, hclamp]
    norm_num [checkGoals, checkPaddleCollisions, leftPaddleCheck,
      rightPaddleCheck, checkWallCollisions, c1State, CANVAS_WIDTH_R,
      CANVAS_HEIGHT_R, BALL_SIZE_R, PADDLE_WIDTH_R, PADDLE_HEIGHT_R]
  constructor
  · have : Real.sqrt (c1State.ballSpeedX ^ 2 + c1State.ballSpeedY ^ 2)
        = 18 := by
      show Real.sqrt ((0:ℝ) ^ 2 + 18 ^ 2) = 18
      rw [show ((0:ℝ) ^ 2 + 18 ^ 2) = 18 ^ 2 by norm_num]
      exact Real.sqrt_sq (by norm_num)
    rw [this]
    simp only [MAX_BALL_SPEED_R]
    norm_num
  · rw [hsx, hsy]
    have : Real.sqrt ((0:ℝ) ^ 2 + (-(91/5)) ^ 2) = 91/5 := by
      rw [show ((0:ℝ) ^ 2 + (-(91/5)) ^ 2) = (91/5) ^ 2 by norm_num]
      exact Real.sqrt_sq (by norm_num)
    rw [this]
    simp only [MAX_BALL_SPEED_R]
    norm_num

/-- C1 witness: the amended bound applied at a concrete state and
concrete random draws. -/
theorem c1_witness :
    Real.sqrt ((updateGame (1/10) 0 0 0 c1State sampleWorld).1.ballSpeedX
        ^ 2 +
      (updateGame (1/10) 0 0 0 c1State sampleWorld).1.ballSpeedY ^ 2) ≤
    MAX_BALL_SPEED_R * 1.5 + 1/4 :=
  c1_post_tick_speed_bound (1/10) 0 0 0 c1State sampleWorld
    (by norm_num) (by norm_num) le_rfl (by norm_num) le_rfl (by norm_num)

/-! ## C9: non-finite velocity handling (corrected)

updateBall guards with isNaN only (src/server.js line 1634), which does
not detect an infinite velocity: isNaN(Infinity) is false in JS.  The
clamp then computes ratio = maxSpeed / Infinity = 0 and
Infinity * 0 = NaN, which is added to the position.  To settle the claim
the JS float semantics is modelled explicitly: JSF is a JS number — a
finite real, NaN, or a signed infinity — with the IEEE-754 rules for the
operations the physics uses. -/

inductive JSF where
  | num (x : ℝ)
  | nan
  | inf
  | ninf

/-- JS isNaN on a number. -/
def JSF.isNaNB : JSF → Bool
  | JSF.nan => true
  | _ => false

/-- IEEE negation. -/
def JSF.neg : JSF → JSF
  | JSF.num x => JSF.num (-x)
  | JSF.nan => JSF.nan
  | JSF.inf => JSF.ninf
  | JSF.ninf => JSF.inf

/-- IEEE addition. -/
def JSF.add : JSF → JSF → JSF
  | JSF.nan, _ => JSF.nan
  | _, JSF.nan => JSF.nan
  | JSF.inf, JSF.ninf => JSF.nan
  | JSF.ninf, JSF.inf => JSF.nan
  | JSF.inf, _ => JSF.inf
  | JSF.ninf, _ => JSF.ninf
  | JSF.num _, JSF.inf => JSF.inf
  | JSF.num _, JSF.ninf => JSF.ninf
  | JSF.num x, JSF.num y => JSF.num (x + y)

/-- IEEE subtraction. -/
def JSF.sub (a b : JSF) : JSF := JSF.add a (JSF.neg b)

/-- IEEE multiplication; infinity times zero is NaN. -/
noncomputable def JSF.mul : JSF → JSF → JSF
  | JSF.nan, _ => JSF.nan
  | _, JSF.nan => JSF.nan
  | JSF.num x, JSF.num y => JSF.num (x * y)
  | JSF.inf, JSF.inf => JSF.inf
  | JSF.inf, JSF.ninf => JSF.ninf
  | JSF.ninf, JSF.inf => JSF.ninf
  | JSF.ninf, JSF.ninf => JSF.inf
  | JSF.inf, JSF.num x =>
      if x = 0 then JSF.nan else if 0 < x then JSF.inf else JSF.ninf
  | JSF.num x, JSF.inf =>
      if x = 0 then JSF.nan else if 0 < x then JSF.inf else JSF.ninf
  | JSF.ninf, JSF.num x =>
      if x = 0 then JSF.nan else if 0 < x then JSF.ninf else JSF.inf
  | JSF.num x, JSF.ninf =>
      if x = 0 then JSF.nan else if 0 < x then JSF.ninf else JSF.inf

/-- IEEE division; a finite number over an infinity is zero. -/
noncomputable def JSF.div : JSF → JSF → JSF
  | JSF.nan, _ => JSF.nan
  | _, JSF.nan => JSF.nan
  | JSF.num x, JSF.num y =>
      if y = 0 then
        if x = 0 then JSF.nan else if 0 < x then JSF.inf else JSF.ninf
      else JSF.num (x / y)
  | JSF.num _, JSF.inf => JSF.num 0
  | JSF.num _, JSF.ninf => JSF.num 0
  | JSF.inf, JSF.inf => JSF.nan
  | JSF.inf, JSF.ninf => JSF.nan
  | JSF.ninf, JSF.inf => JSF.nan
  | JSF.ninf, JSF.ninf => JSF.nan
  | JSF.inf, JSF.num y => if 0 ≤ y then JSF.inf else JSF.ninf
  | JSF.ninf, JSF.num y => if 0 ≤ y then JSF.ninf else JSF.inf

/-- IEEE square root; of the positive infinity it is infinite, of a
negative number or NaN it is NaN. -/
noncomputable def JSF.sqrt : JSF → JSF
  | JSF.nan => JSF.nan
  | JSF.inf => JSF.inf
  | JSF.ninf => JSF.nan
  | JSF.num x => if x < 0 then JSF.nan else JSF.num (Real.sqrt x)

/-- IEEE less-than: every comparison with NaN is false. -/
noncomputable def JSF.ltB : JSF → JSF → Bool
  | JSF.nan, _ => false
  | _, JSF.nan => false
  | JSF.num x, JSF.num y => if x < y then true else false
  | JSF.num _, JSF.inf => true
  | JSF.num _, JSF.ninf => false
  | JSF.inf, _ => false
  | JSF.ninf, JSF.ninf => false
  | JSF.ninf, _ => true

/-- IEEE less-or-equal: every comparison with NaN is false. -/
noncomputable def JSF.leB : JSF → JSF → Bool
  | JSF.nan, _ => false
  | _, JSF.nan => false
  | JSF.num x, JSF.num y => if x ≤ y then true else false
  | JSF.num _, JSF.inf => true
  | JSF.num _, JSF.ninf => false
  | JSF.inf, JSF.inf => true
  | JSF.inf, _ => false
  | JSF.ninf, _ => true

noncomputable def JSF.gtB (a b : JSF) : Bool := JSF.ltB b a

noncomputable def JSF.geB (a b : JSF) : Bool := JSF.leB b a

/-- JS Math.min: NaN if either argument is NaN. -/
noncomputable def JSF.minJ (a b : JSF) : JSF :=
  if a.isNaNB || b.isNaNB then JSF.nan
  else if JSF.leB a b then a else b

/-- JS Math.max: NaN if either argument is NaN. -/
noncomputable def JSF.maxJ (a b : JSF) : JSF :=
  if a.isNaNB || b.isNaNB then JSF.nan
  else if JSF.leB a b then b else a

/-- JS Math.abs. -/
def JSF.absJ : JSF → JSF
  | JSF.num x => JSF.num |x|
  | JSF.nan => JSF.nan
  | JSF.inf => JSF.inf
  | JSF.ninf => JSF.inf

/-- JS Math.sign. -/
noncomputable def JSF.signJ : JSF → JSF
  | JSF.nan => JSF.nan
  | JSF.inf => JSF.num 1
  | JSF.ninf => JSF.num (-1)
  | JSF.num x =>
      if 0 < x then JSF.num 1 else if x < 0 then JSF.num (-1) else
        JSF.num 0

/-- The ball-physics fragment of the game state over JS float semantics;
the global statistics mutations of the source are orthogonal to the
number semantics and are elided here. -/
structure GameJS where
  ballX : JSF
  ballY : JSF
  ballSpeedX : JSF
  ballSpeedY : JSF
  player1Y : JSF
  player2Y : JSF
  gameActive : Bool
  goldenGoalMode : Bool
  pendingGoldenEnd : Bool
  score1 : ℕ
  score2 : ℕ
  rallyCount : ℕ

/-- resetBall (src/server.js lines 1573-1586) over JS floats. -/
noncomputable def resetBallJS (u1 u2 u3 : ℝ) (g : GameJS) : GameJS :=
  let g := { g with
    ballX := JSF.num (900/2 - 15/2)
    ballY := JSF.num (500/2 - 15/2) }
  if g.gameActive then
    let speed := JSF.add (JSF.num 4) (JSF.mul (JSF.num u1) (JSF.num 2))
    { g with
      ballSpeedX := if u2 > 1/2 then speed else JSF.neg speed
      ballSpeedY := JSF.mul (JSF.sub (JSF.num u3) (JSF.num (1/2))) speed
      rallyCount := 0 }
  else
    { g with ballSpeedX := JSF.num 0, ballSpeedY := JSF.num 0 }

/-- The speed clamp of updateBall (src/server.js lines 1640-1647) over JS
floats. -/
noncomputable def clampBallSpeedJS (g : GameJS) : GameJS :=
  let maxSpeed := JSF.mul (JSF.num 12) (JSF.num 1.5)
  let currentSpeed := JSF.sqrt (JSF.add
    (JSF.mul g.ballSpeedX g.ballSpeedX)
    (JSF.mul g.ballSpeedY g.ballSpeedY))
  if JSF.gtB currentSpeed maxSpeed then
    let ratio := JSF.div maxSpeed currentSpeed
    { g with ballSpeedX := JSF.mul g.ballSpeedX ratio,
             ballSpeedY := JSF.mul g.ballSpeedY ratio }
  else g

/-- checkWallCollisions (src/server.js lines 1657-1665) over JS floats. -/
noncomputable def checkWallCollisionsJS (uw : ℝ) (g : GameJS) : GameJS :=
  if (JSF.leB g.ballY (JSF.num 0) ||
      JSF.geB (JSF.add g.ballY (JSF.num 15)) (JSF.num 500)) then
    { g with
      ballSpeedY := JSF.add (JSF.neg g.ballSpeedY)
        (JSF.mul (JSF.sub (JSF.num uw) (JSF.num (1/2)))
          (JSF.num (1/2)))
      ballY := JSF.maxJ (JSF.num 0)
        (JSF.minJ g.ballY (JSF.sub (JSF.num 500) (JSF.num 15))) }
  else g

/-- handlePaddleHit (src/server.js lines 1689-1728) over JS floats,
restricted to its ball-state mutation. -/
noncomputable def handlePaddleHitJS (paddleY : JSF) (isLeftSide : Bool)
    (g : GameJS) : GameJS :=
  let sx0 := JSF.neg g.ballSpeedX
  let ballCenterY := JSF.add g.ballY (JSF.num (15/2))
  let paddleCenterY := JSF.add paddleY (JSF.num (80/2))
  let hitPosition := JSF.div (JSF.sub ballCenterY paddleCenterY)
    (JSF.num (80/2))
  let sy0 := JSF.mul hitPosition (JSF.num 3)
  let speedMultiplier := JSF.add (JSF.num 1) (JSF.num (1/20))
  let sx1 := JSF.mul sx0 speedMultiplier
  let sy1 := JSF.mul sy0 speedMultiplier
  let sx2 := JSF.mul (JSF.signJ sx1) (JSF.minJ (JSF.absJ sx1) (JSF.num 12))
  let sy2 := JSF.mul (JSF.signJ sy1) (JSF.minJ (JSF.absJ sy1) (JSF.num 12))
  let newX := if isLeftSide then JSF.num (15 + 1)
    else JSF.num (900 - 15 - 15 - 1)
  { g with
    ballSpeedX := sx2
    ballSpeedY := sy2
    ballX := newX
    rallyCount := g.rallyCount + 1 }

/-- checkPaddleCollisions (src/server.js lines 1667-1687) over JS
floats. -/
noncomputable def checkPaddleCollisionsJS (g : GameJS) : GameJS :=
  let g1 :=
    if (JSF.leB g.ballX (JSF.num 15) &&
        JSF.ltB g.ballSpeedX (JSF.num 0) &&
        JSF.geB (JSF.add g.ballY (JSF.num 15)) g.player1Y &&
        JSF.leB g.ballY (JSF.add g.player1Y (JSF.num 80))) then
      handlePaddleHitJS g.player1Y true g
    else g
  if (JSF.geB (JSF.add g1.ballX (JSF.num 15))
        (JSF.sub (JSF.num 900) (JSF.num 15)) &&
      JSF.gtB g1.ballSpeedX (JSF.num 0) &&
      JSF.geB (JSF.add g1.ballY (JSF.num 15)) g1.player2Y &&
      JSF.leB g1.ballY (JSF.add g1.player2Y (JSF.num 80))) then
    handlePaddleHitJS g1.player2Y false g1
  else g1

/-- handleGoal (src/server.js lines 1740-1769) over JS floats, restricted
to its ball-state mutation. -/
noncomputable def handleGoalJS (scorerIsP1 : Bool) (u1 u2 u3 : ℝ)
    (g : GameJS) : GameJS :=
  let g := if scorerIsP1 then { g with score1 := g.score1 + 1 }
    else { g with score2 := g.score2 + 1 }
  let g := resetBallJS u1 u2 u3 g
  if g.goldenGoalMode then { g with pendingGoldenEnd := true } else g

/-- checkGoals (src/server.js lines 1730-1738) over JS floats. -/
noncomputable def checkGoalsJS (u1 u2 u3 : ℝ) (g : GameJS) : GameJS :=
  if JSF.ltB g.ballX (JSF.neg (JSF.num 15)) then
    handleGoalJS false u1 u2 u3 g
  else if JSF.gtB g.ballX (JSF.add (JSF.num 900) (JSF.num 15)) then
    handleGoalJS true u1 u2 u3 g
  else g

/-- updateBall (src/server.js lines 1630-1655) over JS floats: the isNaN
guard, the clamp, the integration and the collision checks. -/
noncomputable def updateBallJS (uw u1 u2 u3 : ℝ) (g : GameJS) : GameJS :=
  if g.ballSpeedX.isNaNB || g.ballSpeedY.isNaNB then
    resetBallJS u1 u2 u3 g
  else
    let g := clampBallSpeedJS g
    let g := { g with
      ballX := JSF.add g.ballX g.ballSpeedX
      ballY := JSF.add g.ballY g.ballSpeedY }
    let g := checkWallCollisionsJS uw g
    let g := checkPaddleCollisionsJS g
    checkGoalsJS u1 u2 u3 g

/-- A live state whose horizontal velocity is the positive infinity: every
other field is an ordinary finite number. -/
def c9Game : GameJS where
  ballX := JSF.num 450
  ballY := JSF.num 240
  ballSpeedX := JSF.inf
  ballSpeedY := JSF.num 0
  player1Y := JSF.num 0
  player2Y := JSF.num 0
  gameActive := true
  goldenGoalMode := false
  pendingGoldenEnd := false
  score1 := 0
  score2 := 0
  rallyCount := 0

/-- A live state whose horizontal velocity is already NaN. -/
def c9NanGame : GameJS where
  ballX := JSF.num 450
  ballY := JSF.num 240
  ballSpeedX := JSF.nan
  ballSpeedY := JSF.num 0
  player1Y := JSF.num 0
  player2Y := JSF.num 0
  gameActive := true
  goldenGoalMode := false
  pendingGoldenEnd := false
  score1 := 0
  score2 := 0
  rallyCount := 0

/-- C9 (amended): the guard detects exactly NaN.  When a velocity
component is NaN at the start of the tick, the tick reduces to resetBall:
the ball is recentred before any movement and both velocity components
are reset to finite values.  (An infinite component, by contrast, passes
the guard — see the counterexample.) -/
theorem c9_nan_guard_resets (uw u1 u2 u3 : ℝ) (g : GameJS)
    (h : (g.ballSpeedX.isNaNB || g.ballSpeedY.isNaNB) = true) :
    updateBallJS uw u1 u2 u3 g = resetBallJS u1 u2 u3 g ∧
    (resetBallJS u1 u2 u3 g).ballX = JSF.num (900/2 - 15/2) ∧
    (resetBallJS u1 u2 u3 g).ballY = JSF.num (500/2 - 15/2) ∧
    (resetBallJS u1 u2 u3 g).ballSpeedX.isNaNB = false ∧
    (resetBallJS u1 u2 u3 g).ballSpeedY.isNaNB = false := by
  refine ⟨by simp only [updateBallJS, h]; simp, ?_, ?_, ?_, ?_⟩ <;>
    by_cases hga : g.gameActive <;>
    by_cases hu2 : u2 > 1/2 <;>
    simp [resetBallJS, hga, hu2, JSF.add, JSF.mul, JSF.sub, JSF.neg,
      JSF.isNaNB] <;>
    split <;>
    first
      | rfl
      | (rename_i heq; split at heq <;> exact JSF.noConfusion heq)

/-- C9 counterexample: an infinite horizontal velocity is not detected by
the isNaN guard, and the tick propagates NaN into the ball's position:
the clamp computes ratio = 18 / Infinity = 0 and Infinity x 0 = NaN,
which is then added to ballX. -/
theorem c9_counterexample :
    (c9Game.ballSpeedX.isNaNB || c9Game.ballSpeedY.isNaNB) = false ∧
    (updateBallJS 0 0 0 0 c9Game).ballX = JSF.nan := by
  constructor
  · rfl
  · simp only [updateBallJS, c9Game]
    norm_num [clampBallSpeedJS, checkWallCollisionsJS,
      checkPaddleCollisionsJS, checkGoalsJS, handleGoalJS,
      JSF.isNaNB, JSF.mul, JSF.add, JSF.sub, JSF.neg, JSF.sqrt,
      JSF.div, JSF.gtB, JSF.ltB, JSF.leB, JSF.geB]

/-! ## Tournament bracket (C6, C7)

TournamentBracket (src/server.js lines 1108-1370).  Math.random-driven
choices — shuffleArray's permutation and selectPlayersForByes' sort with
its random tiebreaker — are passed in as oracle list parameters. -/

/-- A bracket match (the objects pushed at src/server.js lines 1164-1171
and 1186-1194); the mutable score field is orthogonal to the claims and
elided. -/
structure BMatch where
  mid : String
  player1 : String
  player2 : String
  isBye : Bool
  completed : Bool
  winner : Option String
deriving DecidableEq

/-- The pairing loop of createFirstRound / createNextRound
(src/server.js lines 1184-1196 and 1355-1367): consecutive disjoint
pairs; a trailing unpaired element is silently dropped by the
`i + 1 < length` test. -/
def pairUp {α : Type} : List α → List (α × α)
  | a :: b :: rest => (a, b) :: pairUp rest
  | _ => []

/-- One regular match object: the id carries the 1-based pair index
(`Math.floor(i/2) + 1`). -/
def mkPairMatch (rnd : ℕ) (ipr : ℕ × String × String) : BMatch where
  mid := "r" ++ toString rnd ++ "-m" ++ toString (ipr.1 + 1)
  player1 := ipr.2.1
  player2 := ipr.2.2
  isBye := false
  completed := false
  winner := none

def pairMatches (rnd : ℕ) (l : List String) : List BMatch :=
  (pairUp l).enum.map (mkPairMatch rnd)

/-- A bye match object (src/server.js lines 1164-1171). -/
def byeMatch (rnd : ℕ) (p : String) : BMatch where
  mid := "r" ++ toString rnd ++ "-bye-" ++ p
  player1 := p
  player2 := "BYE"
  isBye := true
  completed := false
  winner := none

/-- selectPlayersForByes (src/server.js lines 1201-1211): the sort of all
tournament players by bye count with a random tiebreaker is the oracle
list byeOrder; the method returns its first `count` entries. -/
def selectPlayersForByes (byeOrder : List String) (count : ℕ) : List String :=
  byeOrder.take count

/-- createFirstRound (src/server.js lines 1153-1199): bye matches for the
selected bye players, then the pairing loop over the remaining players
(each bye player is removed from the pool by indexOf/splice, i.e. first
occurrence erasure). -/
def createFirstRound (shuffled byeOrder : List String) (totalSlots : ℕ) :
    List BMatch :=
  (selectPlayersForByes byeOrder (totalSlots - shuffled.length)).map
      (byeMatch 1) ++
    pairMatches 1
      ((selectPlayersForByes byeOrder (totalSlots - shuffled.length)).foldl
        (fun acc p => acc.erase p) shuffled)

/-- calculateTotalRounds (src/server.js lines 1130-1132):
Math.ceil(Math.log2 n) = Nat.clog 2 n for the player counts that occur
(the float log2 is exact on powers of two and its error never crosses an
integer otherwise). -/
def calculateTotalRounds (n : ℕ) : ℕ := Nat.clog 2 n

/-- The bracket state: the current round's match list plus the two
counters the claims speak about. -/
structure TBState where
  currentRound : ℕ
  totalRounds : ℕ
  curMatches : List BMatch
deriving DecidableEq

/-- The TournamentBracket constructor plus initializeBracket
(src/server.js lines 1108-1151).  Lines 1113-1114 compute the
deduplicated player list and its size, but lines 1119-1120 immediately
overwrite both fields with the raw input and its raw length, so the
deduplicated values below are dead. -/
def tbNew (players shuffled byeOrder : List String) : Option TBState :=
  if players.length < 2 then none
  else
    let dedupPlayers := players.dedup
    let dedupCount := dedupPlayers.length
    let _unusedDedup := (dedupPlayers, dedupCount)
    let originalPlayerCount := players.length
    let totalRounds := calculateTotalRounds originalPlayerCount
    some { currentRound := 1
           totalRounds := totalRounds
           curMatches := createFirstRound shuffled byeOrder (2 ^ totalRounds) }

/-- createNextRound (src/server.js lines 1331-1370): with an odd winner
count the bye recipient is the head of the byeOrder oracle — drawn from
ALL tournament players, not from the winners (line 1337) — and when that
player is not among the winners the bye block is skipped (line 1338),
leaving the winner count odd so the pairing loop drops the last
winner. -/
def createNextRound (byeOrder : List String) (rnd : ℕ)
    (winners : List String) : List BMatch :=
  if winners.length % 2 = 1 then
    match selectPlayersForByes byeOrder 1 with
    | [] => pairMatches rnd winners
    | byePlayer :: _ =>
      if byePlayer ∈ winners then
        byeMatch rnd byePlayer :: pairMatches rnd (winners.erase byePlayer)
      else pairMatches rnd winners
  else pairMatches rnd winners

/-- The mutation advanceMatch performs on the found match (src/server.js
lines 1233-1234). -/
def markWon (m : BMatch) (w : String) : BMatch :=
  { m with completed := true, winner := some w }

/-- advanceMatch (src/server.js lines 1224-1264) followed, when the round
is complete, by prepareNextRound (lines 1272-1329).  The advance step
records a winner on an uncompleted match; the real call sites (lines
2073-2075 and 2751) only pass a non-null winner that is one of the
match's two players and never the literal BYE marker.  The nextRound step
fires when every match is completed, more than one winner was recorded
and rounds remain; it increments currentRound and installs
createNextRound over the winners list
(matches.map(m => m.winner).filter(w => w !== null)). -/
inductive TBStep : TBState → TBState → Prop where
  | advance (s : TBState) (i : ℕ) (hi : i < s.curMatches.length) (w : String)
      (hc : (s.curMatches.get ⟨i, hi⟩).completed = false)
      (hw : w = (s.curMatches.get ⟨i, hi⟩).player1 ∨
            w = (s.curMatches.get ⟨i, hi⟩).player2)
      (hbye : w ≠ "BYE") :
      TBStep s { s with
        curMatches := s.curMatches.set i
                        (markWon (s.curMatches.get ⟨i, hi⟩) w) }
  | nextRound (s : TBState) (byeOrder : List String)
      (hall : ∀ m ∈ s.curMatches, m.completed = true)
      (hlt : s.currentRound < s.totalRounds)
      (hwin : (s.curMatches.filterMap (fun m => m.winner)).length ≠ 1) :
      TBStep s { currentRound := s.currentRound + 1
                 totalRounds := s.totalRounds
                 curMatches := createNextRound byeOrder (s.currentRound + 1)
                   (s.curMatches.filterMap (fun m => m.winner)) }

/-- Bracket states reachable from a real construction: the registered
player names are pairwise distinct (call sites pass Map keys), at least
two, and none is the literal bye marker; the shuffle and bye-order
oracles are permutations of that roster. -/
inductive TBReach : TBState → Prop where
  | init (players shuffled byeOrder : List String) (s : TBState)
      (hnd : players.Nodup) (hbye : "BYE" ∉ players)
      (hsh : shuffled.Perm players) (hbo : byeOrder.Perm players)
      (hnew : tbNew players shuffled byeOrder = some s) : TBReach s
  | step (s s2 : TBState) (h : TBReach s) (hs : TBStep s s2) : TBReach s2

/-- The real (non-marker) player slots of a round. -/
def roundPlayers (ms : List BMatch) : List String :=
  (ms.bind fun m => [m.player1, m.player2]).filter fun p => p ≠ "BYE"

/-- A well-formed match record: either untouched, or completed with a
winner that is one of its own players and not the bye marker. -/
def matchOK (m : BMatch) : Prop :=
  (m.completed = false ∧ m.winner = none) ∨
  (m.completed = true ∧ ∃ w, m.winner = some w ∧
    (w = m.player1 ∨ w = m.player2) ∧ w ≠ "BYE")

/-- The reachability invariant: the round always holds an exact power of
two of matches, its real player slots are pairwise distinct, no
first-slot player is the bye marker, and every match record is
well-formed. -/
def TBInv (s : TBState) : Prop :=
  s.curMatches.length = 2 ^ (s.totalRounds - s.currentRound) ∧
  s.currentRound ≤ s.totalRounds ∧
  (roundPlayers s.curMatches).Nodup ∧
  (∀ m ∈ s.curMatches, m.player1 ≠ "BYE") ∧
  (∀ m ∈ s.curMatches, matchOK m)

theorem pairUp_length {α : Type} : ∀ l : List α,
    (pairUp l).length = l.length / 2
  | [] => by simp [pairUp]
  | [_] => by simp [pairUp]
  | _ :: _ :: rest => by
    simp [pairUp, pairUp_length rest]
    omega

theorem pairUp_bind {α : Type} : ∀ l : List α, l.length % 2 = 0 →
    ((pairUp l).bind fun p => [p.1, p.2]) = l
  | [], _ => rfl
  | [_], h => by simp at h
  | a :: b :: rest, h => by
    have h2 : rest.length % 2 = 0 := by simp at h; omega
    simp [pairUp, pairUp_bind rest h2]

theorem pairUp_mem {α : Type} : ∀ (l : List α) (p : α × α),
    p ∈ pairUp l → p.1 ∈ l ∧ p.2 ∈ l
  | [], p, h => by simp [pairUp] at h
  | [_], p, h => by simp [pairUp] at h
  | a :: b :: rest, p, h => by
    simp only [pairUp, List.mem_cons] at h
    rcases h with h | h
    · subst h; simp
    · have h2 := pairUp_mem rest p h
      simp [h2.1, h2.2]

theorem pairMatches_auxBind (rnd : ℕ) : ∀ (ps : List (String × String))
    (k : ℕ),
    (((ps.enumFrom k).map (mkPairMatch rnd)).bind
        fun m => [m.player1, m.player2]) =
      ps.bind fun p => [p.1, p.2]
  | [], _ => rfl
  | p :: ps, k => by
    simp [List.enumFrom, pairMatches_auxBind rnd ps (k + 1), mkPairMatch]

theorem pairMatches_bind (rnd : ℕ) (l : List String)
    (h : l.length % 2 = 0) :
    ((pairMatches rnd l).bind fun m => [m.player1, m.player2]) = l := by
  have h1 : (pairUp l).enum = (pairUp l).enumFrom 0 := rfl
  rw [pairMatches, h1, pairMatches_auxBind]
  exact pairUp_bind l h

theorem pairMatches_length (rnd : ℕ) (l : List String) :
    (pairMatches rnd l).length = l.length / 2 := by
  simp [pairMatches, pairUp_length]

theorem pairMatches_mem (rnd : ℕ) (l : List String) (m : BMatch)
    (h : m ∈ pairMatches rnd l) :
    m.player1 ∈ l ∧ m.player2 ∈ l ∧ m.isBye = false ∧
      m.completed = false ∧ m.winner = none := by
  simp only [pairMatches, List.mem_map] at h
  obtain ⟨ip, hip, rfl⟩ := h
  have hsnd : ip.2 ∈ pairUp l := by
    have h2 : ip.2 ∈ (pairUp l).enum.map Prod.snd :=
      List.mem_map_of_mem Prod.snd hip
    rwa [List.enum_map_snd] at h2
  have h3 := pairUp_mem l ip.2 hsnd
  exact ⟨h3.1, h3.2, rfl, rfl, rfl⟩

theorem pairMatches_countBye (rnd : ℕ) (l : List String) :
    (pairMatches rnd l).countP (fun m => m.isBye) = 0 := by
  rw [List.countP_eq_zero]
  intro m hm
  have h := pairMatches_mem rnd l m hm
  simp [h.2.2.1]

theorem byeMap_countBye (rnd : ℕ) (ps : List String) :
    (ps.map (byeMatch rnd)).countP (fun m => m.isBye) = ps.length := by
  have hl : (ps.map (byeMatch rnd)).length = ps.length := by simp
  rw [← hl, List.countP_eq_length]
  intro m hm
  obtain ⟨p, _, rfl⟩ := List.mem_map.mp hm
  rfl

theorem byeMap_bind (rnd : ℕ) : ∀ ps : List String,
    ((ps.map (byeMatch rnd)).bind fun m => [m.player1, m.player2]) =
      ps.bind fun p => [p, "BYE"]
  | [] => rfl
  | p :: ps => by simp [byeMap_bind rnd ps, byeMatch]

theorem filter_byePairs : ∀ ps : List String, (∀ p ∈ ps, p ≠ "BYE") →
    ((ps.bind fun p => [p, "BYE"]).filter fun p => p ≠ "BYE") = ps
  | [], _ => rfl
  | p :: ps, h => by
    have hp : p ≠ "BYE" := h p (by simp)
    have ih := filter_byePairs ps fun q hq => h q (by simp [hq])
    simpa [hp] using ih

/-- Removing each element of a duplicate-free sublist by first-occurrence
erasure splits the list, up to permutation. -/
theorem perm_foldl_erase : ∀ (tr l : List String), tr.Nodup →
    (∀ p ∈ tr, p ∈ l) →
    l.Perm (tr ++ tr.foldl (fun acc p => acc.erase p) l)
  | [], l, _, _ => by simp
  | p :: rest, l, hnd, hmem => by
    have hp : p ∈ l := hmem p (by simp)
    have h1 : l.Perm (p :: l.erase p) := List.perm_cons_erase hp
    have hnd2 : rest.Nodup := (List.nodup_cons.mp hnd).2
    have hpn : p ∉ rest := (List.nodup_cons.mp hnd).1
    have hmem2 : ∀ q ∈ rest, q ∈ l.erase p := by
      intro q hq
      have hqp : q ≠ p := fun h => hpn (h ▸ hq)
      exact (List.mem_erase_of_ne hqp).mpr (hmem q (by simp [hq]))
    have h2 := perm_foldl_erase rest (l.erase p) hnd2 hmem2
    have h3 : l.Perm (p :: (rest ++ rest.foldl
        (fun acc q => acc.erase q) (l.erase p))) :=
      h1.trans (h2.cons p)
    simpa using h3

theorem clog2_facts (n : ℕ) (h2 : 2 ≤ n) :
    n ≤ 2 ^ Nat.clog 2 n ∧ 2 ^ (Nat.clog 2 n - 1) < n ∧
      1 ≤ Nat.clog 2 n := by
  have h1 : n ≤ 2 ^ Nat.clog 2 n := Nat.le_pow_clog (by norm_num) n
  have hpos : 0 < Nat.clog 2 n := Nat.clog_pos (by norm_num) h2
  have h3 : 2 ^ (Nat.clog 2 n - 1) < n :=
    Nat.pow_pred_clog_lt_self (by norm_num) (by omega)
  exact ⟨h1, h3, hpos⟩

/-- Witness for c9_nan_guard_resets at a concrete NaN state. -/
theorem c9_witness :
    (c9NanGame.ballSpeedX.isNaNB || c9NanGame.ballSpeedY.isNaNB) = true ∧
    (updateBallJS 0 0 0 0 c9NanGame = resetBallJS 0 0 0 c9NanGame ∧
     (resetBallJS 0 0 0 c9NanGame).ballX = JSF.num (900/2 - 15/2) ∧
     (resetBallJS 0 0 0 c9NanGame).ballY = JSF.num (500/2 - 15/2) ∧
     (resetBallJS 0 0 0 c9NanGame).ballSpeedX.isNaNB = false ∧
     (resetBallJS 0 0 0 c9NanGame).ballSpeedY.isNaNB = false) :=
  ⟨rfl, c9_nan_guard_resets 0 0 0 0 c9NanGame rfl⟩

theorem bind_append_bm (f : BMatch → List String) (A B : List BMatch) :
    ((A ++ B).bind f) = A.bind f ++ B.bind f := by
  induction A with
  | nil => simp
  | cons m rest ih => simp [ih]

theorem mem_bind_bm (w : String) (f : BMatch → List String)
    (ms : List BMatch) : w ∈ ms.bind f ↔ ∃ m ∈ ms, w ∈ f m := by
  simp

/-- The byes/remainder decomposition of the first round's player pool:
the selected bye players split off the shuffled roster by permutation,
with the byes and remainder counts forced by the clog arithmetic. -/
theorem createFirstRound_core (players shuffled byeOrder : List String)
    (hnd : players.Nodup) (h2 : 2 ≤ players.length)
    (hsh : shuffled.Perm players) (hbo : byeOrder.Perm players) :
    shuffled.Perm
      (selectPlayersForByes byeOrder
          (2 ^ Nat.clog 2 players.length - shuffled.length) ++
        (selectPlayersForByes byeOrder
            (2 ^ Nat.clog 2 players.length - shuffled.length)).foldl
          (fun acc p => acc.erase p) shuffled) ∧
    (selectPlayersForByes byeOrder
        (2 ^ Nat.clog 2 players.length - shuffled.length)).length =
      2 ^ Nat.clog 2 players.length - players.length ∧
    ((selectPlayersForByes byeOrder
        (2 ^ Nat.clog 2 players.length - shuffled.length)).foldl
          (fun acc p => acc.erase p) shuffled).length =
      players.length - (2 ^ Nat.clog 2 players.length - players.length) := by
  obtain ⟨hle, hltp, ht1⟩ := clog2_facts players.length h2
  have hpow : 2 ^ Nat.clog 2 players.length =
      2 * 2 ^ (Nat.clog 2 players.length - 1) := by
    conv_lhs => rw [show Nat.clog 2 players.length =
      (Nat.clog 2 players.length - 1) + 1 from by omega]
    ring
  have hshlen : shuffled.length = players.length := hsh.length_eq
  have hbolen : byeOrder.length = players.length := hbo.length_eq
  have hbNodup : (selectPlayersForByes byeOrder
      (2 ^ Nat.clog 2 players.length - shuffled.length)).Nodup :=
    List.Nodup.sublist (List.take_sublist _ _) (hbo.nodup_iff.mpr hnd)
  have hbMem : ∀ p ∈ selectPlayersForByes byeOrder
      (2 ^ Nat.clog 2 players.length - shuffled.length), p ∈ shuffled := by
    intro p hp
    have h3 : p ∈ byeOrder := List.mem_of_mem_take hp
    exact hsh.mem_iff.mpr (hbo.mem_iff.mp h3)
  have hperm := perm_foldl_erase _ shuffled hbNodup hbMem
  have hbLen : (selectPlayersForByes byeOrder
      (2 ^ Nat.clog 2 players.length - shuffled.length)).length =
      2 ^ Nat.clog 2 players.length - players.length := by
    simp only [selectPlayersForByes, List.length_take, hbolen, hshlen]
    omega
  refine ⟨hperm, hbLen, ?_⟩
  have h4 := hperm.length_eq
  rw [List.length_append, hbLen] at h4
  omega

theorem createFirstRound_counts (players shuffled byeOrder : List String)
    (hnd : players.Nodup) (h2 : 2 ≤ players.length)
    (hsh : shuffled.Perm players) (hbo : byeOrder.Perm players) :
    (createFirstRound shuffled byeOrder
        (2 ^ Nat.clog 2 players.length)).countP (fun m => m.isBye) =
      2 ^ Nat.clog 2 players.length - players.length ∧
    (createFirstRound shuffled byeOrder
        (2 ^ Nat.clog 2 players.length)).length =
      2 ^ (Nat.clog 2 players.length - 1) := by
  obtain ⟨hle, hltp, ht1⟩ := clog2_facts players.length h2
  have hpow : 2 ^ Nat.clog 2 players.length =
      2 * 2 ^ (Nat.clog 2 players.length - 1) := by
    conv_lhs => rw [show Nat.clog 2 players.length =
      (Nat.clog 2 players.length - 1) + 1 from by omega]
    ring
  obtain ⟨hperm, hbLen, hremLen⟩ :=
    createFirstRound_core players shuffled byeOrder hnd h2 hsh hbo
  constructor
  · rw [createFirstRound, List.countP_append, byeMap_countBye,
      pairMatches_countBye, hbLen]
    omega
  · rw [createFirstRound, List.length_append, List.length_map,
      pairMatches_length, hbLen, hremLen]
    omega

theorem createFirstRound_players (players shuffled byeOrder : List String)
    (hnd : players.Nodup) (h2 : 2 ≤ players.length)
    (hsh : shuffled.Perm players) (hbo : byeOrder.Perm players)
    (hbye : "BYE" ∉ players) :
    (roundPlayers (createFirstRound shuffled byeOrder
        (2 ^ Nat.clog 2 players.length))).Perm players ∧
    ∀ m ∈ createFirstRound shuffled byeOrder
        (2 ^ Nat.clog 2 players.length),
      m.player1 ≠ "BYE" ∧ m.completed = false ∧ m.winner = none := by
  obtain ⟨hle, hltp, ht1⟩ := clog2_facts players.length h2
  have hpow : 2 ^ Nat.clog 2 players.length =
      2 * 2 ^ (Nat.clog 2 players.length - 1) := by
    conv_lhs => rw [show Nat.clog 2 players.length =
      (Nat.clog 2 players.length - 1) + 1 from by omega]
    ring
  obtain ⟨hperm, hbLen, hremLen⟩ :=
    createFirstRound_core players shuffled byeOrder hnd h2 hsh hbo
  have hmemP : ∀ p, (p ∈ selectPlayersForByes byeOrder
        (2 ^ Nat.clog 2 players.length - shuffled.length) ∨
      p ∈ (selectPlayersForByes byeOrder
          (2 ^ Nat.clog 2 players.length - shuffled.length)).foldl
        (fun acc q => acc.erase q) shuffled) → p ∈ players := by
    intro p hp
    have h3 : p ∈ shuffled := hperm.mem_iff.mpr (by
      rw [List.mem_append]; exact hp)
    exact hsh.mem_iff.mp h3
  have hbyeB : ∀ p ∈ selectPlayersForByes byeOrder
      (2 ^ Nat.clog 2 players.length - shuffled.length), p ≠ "BYE" := by
    intro p hp h
    exact hbye (h ▸ hmemP p (Or.inl hp))
  have hbyeR : ∀ p ∈ (selectPlayersForByes byeOrder
      (2 ^ Nat.clog 2 players.length - shuffled.length)).foldl
        (fun acc q => acc.erase q) shuffled, p ≠ "BYE" := by
    intro p hp h
    exact hbye (h ▸ hmemP p (Or.inr hp))
  have hEven : ((selectPlayersForByes byeOrder
      (2 ^ Nat.clog 2 players.length - shuffled.length)).foldl
        (fun acc q => acc.erase q) shuffled).length % 2 = 0 := by
    rw [hremLen]; omega
  constructor
  · rw [roundPlayers, createFirstRound, bind_append_bm,
      List.filter_append, byeMap_bind, filter_byePairs _ hbyeB,
      pairMatches_bind _ _ hEven, List.filter_eq_self.mpr ?hr]
    case hr =>
      intro p hp
      simpa using hbyeR p hp
    exact hperm.symm.trans hsh
  · intro m hm
    rw [createFirstRound, List.mem_append] at hm
    rcases hm with hm | hm
    · obtain ⟨p, hp, rfl⟩ := List.mem_map.mp hm
      exact ⟨hbyeB p hp, rfl, rfl⟩
    · have h5 := pairMatches_mem _ _ _ hm
      exact ⟨hbyeR _ h5.1, h5.2.2.2.1, h5.2.2.2.2⟩

/-- Pinning down clog by the power sandwich, to evaluate it on concrete
sizes without kernel reduction of its well-founded recursion. -/
theorem clog2_eval (n t : ℕ) (h2 : 2 ≤ n) (hle : n ≤ 2 ^ t)
    (hlt : 2 ^ (t - 1) < n) (ht : 1 ≤ t) : Nat.clog 2 n = t := by
  obtain ⟨hle2, hlt2, ht2⟩ := clog2_facts n h2
  by_contra hne
  rcases Nat.lt_or_ge (Nat.clog 2 n) t with h | h
  · have h3 : (2:ℕ) ^ Nat.clog 2 n ≤ 2 ^ (t - 1) :=
      Nat.pow_le_pow_right (by norm_num) (by omega)
    omega
  · have h3 : (2:ℕ) ^ t ≤ 2 ^ (Nat.clog 2 n - 1) :=
      Nat.pow_le_pow_right (by norm_num) (by omega)
    omega

/-- C7 (amended): for a duplicate-free roster of N ≥ 2 players — which is
what the real call sites pass, Map keys — construction yields
totalRounds = ceil(log2 N) and a first round with exactly
2^ceil(log2 N) − N byes and 2^(totalRounds−1) matches overall.  (On an
input with duplicates the construction does NOT operate on the
deduplicated set: lines 1119-1120 overwrite the deduplicated roster of
line 1113 with the raw list, see the counterexample.) -/
theorem c7_bracket_construction (players shuffled byeOrder : List String)
    (hnd : players.Nodup) (h2 : 2 ≤ players.length)
    (hsh : shuffled.Perm players) (hbo : byeOrder.Perm players) :
    ∃ s : TBState, tbNew players shuffled byeOrder = some s ∧
      s.totalRounds = Nat.clog 2 players.length ∧
      s.curMatches.countP (fun m => m.isBye) =
        2 ^ Nat.clog 2 players.length - players.length ∧
      s.curMatches.length = 2 ^ (Nat.clog 2 players.length - 1) := by
  have hn2 : ¬ players.length < 2 := by omega
  obtain ⟨hc, hl⟩ :=
    createFirstRound_counts players shuffled byeOrder hnd h2 hsh hbo
  refine ⟨{ currentRound := 1
            totalRounds := Nat.clog 2 players.length
            curMatches := createFirstRound shuffled byeOrder
              (2 ^ Nat.clog 2 players.length) }, ?_, rfl, hc, hl⟩
  simp [tbNew, hn2, calculateTotalRounds]

/-- C7 counterexample: on the raw input ["Ann", "Ann", "Bob"], whose
deduplicated set has size N = 2, the constructor uses the raw length 3:
totalRounds is 2 rather than ceil(log2 2) = 1 and the first round gets 1
bye rather than 2^1 − 2 = 0, because lines 1119-1120 clobber the
deduplicated roster computed at line 1113. -/
theorem c7_counterexample :
    ∃ s : TBState, tbNew ["Ann", "Ann", "Bob"] ["Ann", "Ann", "Bob"]
        ["Ann", "Ann", "Bob"] = some s ∧
      (["Ann", "Ann", "Bob"] : List String).dedup.length = 2 ∧
      s.totalRounds ≠
        Nat.clog 2 (["Ann", "Ann", "Bob"] : List String).dedup.length ∧
      s.curMatches.countP (fun m => m.isBye) ≠
        2 ^ Nat.clog 2 (["Ann", "Ann", "Bob"] : List String).dedup.length -
          (["Ann", "Ann", "Bob"] : List String).dedup.length := by
  have e3 : Nat.clog 2 3 = 2 :=
    clog2_eval 3 2 (by norm_num) (by norm_num) (by norm_num) (by norm_num)
  have e2 : Nat.clog 2 2 = 1 :=
    clog2_eval 2 1 (by norm_num) (by norm_num) (by norm_num) (by norm_num)
  have ed : (["Ann", "Ann", "Bob"] : List String).dedup.length = 2 := by
    decide
  refine ⟨_, rfl, ed, ?_, ?_⟩
  · show calculateTotalRounds 3 ≠ _
    rw [ed, e2, calculateTotalRounds, e3]
    omega
  · show (createFirstRound _ _ (2 ^ calculateTotalRounds 3)).countP _ ≠ _
    rw [ed, e2, calculateTotalRounds, e3]
    decide

/-- Witness for c7_bracket_construction on a concrete 5-player roster:
totalRounds = 3, byes = 3, 4 first-round matches. -/
theorem c7_witness :
    ∃ s : TBState,
      tbNew ["Al", "Bo", "Cy", "Di", "Ed"] ["Al", "Bo", "Cy", "Di", "Ed"]
          ["Al", "Bo", "Cy", "Di", "Ed"] = some s ∧
      s.totalRounds =
        Nat.clog 2 (["Al", "Bo", "Cy", "Di", "Ed"] : List String).length ∧
      s.curMatches.countP (fun m => m.isBye) =
        2 ^ Nat.clog 2 (["Al", "Bo", "Cy", "Di", "Ed"] :
            List String).length -
          (["Al", "Bo", "Cy", "Di", "Ed"] : List String).length ∧
      s.curMatches.length =
        2 ^ (Nat.clog 2 (["Al", "Bo", "Cy", "Di", "Ed"] :
            List String).length - 1) :=
  c7_bracket_construction ["Al", "Bo", "Cy", "Di", "Ed"]
    ["Al", "Bo", "Cy", "Di", "Ed"] ["Al", "Bo", "Cy", "Di", "Ed"]
    (by decide) (by decide) (List.Perm.refl _) (List.Perm.refl _)

theorem winners_mem (ms : List BMatch) (hC : ∀ m ∈ ms, matchOK m) :
    ∀ w ∈ ms.filterMap fun m => m.winner,
      w ∈ roundPlayers ms ∧ w ≠ "BYE" := by
  intro w hw
  rw [List.mem_filterMap] at hw
  obtain ⟨m, hm, hwm⟩ := hw
  rcases hC m hm with ⟨_, hnone⟩ | ⟨_, w2, hsome, hor, hne⟩
  · rw [hnone] at hwm; cases hwm
  · rw [hsome] at hwm
    obtain rfl := Option.some.inj hwm
    refine ⟨?_, hne⟩
    rw [roundPlayers, List.mem_filter]
    refine ⟨?_, by simpa using hne⟩
    rw [mem_bind_bm]
    exact ⟨m, hm, by rcases hor with h | h <;> simp [h]⟩

theorem winners_nodup : ∀ ms : List BMatch, (roundPlayers ms).Nodup →
    (∀ m ∈ ms, matchOK m) → (ms.filterMap fun m => m.winner).Nodup
  | [], _, _ => by simp
  | m :: rest, hN, hC => by
    have hsplit : roundPlayers (m :: rest) =
        ([m.player1, m.player2].filter fun p => p ≠ "BYE") ++
          roundPlayers rest := by
      rw [roundPlayers, roundPlayers]
      rw [show ((m :: rest).bind fun m2 => [m2.player1, m2.player2]) =
        [m.player1, m.player2] ++
          rest.bind fun m2 => [m2.player1, m2.player2] from by simp]
      rw [List.filter_append]
    rw [hsplit, List.nodup_append] at hN
    have hCrest : ∀ m2 ∈ rest, matchOK m2 :=
      fun m2 hm2 => hC m2 (by simp [hm2])
    have ihn := winners_nodup rest hN.2.1 hCrest
    rcases hC m (by simp) with ⟨_, hnone⟩ | ⟨_, w2, hsome, hor, hne⟩
    · simp only [List.filterMap_cons, hnone]
      exact ihn
    · simp only [List.filterMap_cons, hsome]
      rw [List.nodup_cons]
      refine ⟨?_, ihn⟩
      intro hwin
      have h5 := winners_mem rest hCrest w2 hwin
      have h6 : w2 ∈ [m.player1, m.player2].filter fun p => p ≠ "BYE" := by
        rw [List.mem_filter]
        exact ⟨by rcases hor with h | h <;> simp [h], by simpa using hne⟩
      exact (List.disjoint_left.mp hN.2.2) h6 h5.1

theorem winners_length : ∀ ms : List BMatch, (∀ m ∈ ms, matchOK m) →
    (∀ m ∈ ms, m.completed = true) →
    (ms.filterMap fun m => m.winner).length = ms.length
  | [], _, _ => rfl
  | m :: rest, hC, hall => by
    rcases hC m (by simp) with ⟨hf, _⟩ | ⟨_, w, hsome, _, _⟩
    · rw [hall m (by simp)] at hf; cases hf
    · simp only [List.filterMap_cons, hsome, List.length_cons]
      rw [winners_length rest (fun m2 hm2 => hC m2 (by simp [hm2]))
        (fun m2 hm2 => hall m2 (by simp [hm2]))]

theorem bind_set_players : ∀ (ms : List BMatch) (i : ℕ) (m' : BMatch)
    (hi : i < ms.length),
    m'.player1 = (ms.get ⟨i, hi⟩).player1 →
    m'.player2 = (ms.get ⟨i, hi⟩).player2 →
    ((ms.set i m').bind fun m => [m.player1, m.player2]) =
      ms.bind fun m => [m.player1, m.player2]
  | [], i, m', hi, _, _ => by simp at hi
  | m :: rest, 0, m', hi, h1, h2 => by
    have h1b : m'.player1 = m.player1 := h1
    have h2b : m'.player2 = m.player2 := h2
    simp [List.set, h1b, h2b]
  | m :: rest, i + 1, m', hi, h1, h2 => by
    have hi2 : i < rest.length := by simpa using hi
    have h1b : m'.player1 = (rest.get ⟨i, hi2⟩).player1 := h1
    have h2b : m'.player2 = (rest.get ⟨i, hi2⟩).player2 := h2
    simp only [List.set]
    simp [bind_set_players rest i m' hi2 h1b h2b]

theorem roundPlayers_set (ms : List BMatch) (i : ℕ) (m' : BMatch)
    (hi : i < ms.length)
    (h1 : m'.player1 = (ms.get ⟨i, hi⟩).player1)
    (h2 : m'.player2 = (ms.get ⟨i, hi⟩).player2) :
    roundPlayers (ms.set i m') = roundPlayers ms := by
  rw [roundPlayers, roundPlayers, bind_set_players ms i m' hi h1 h2]

/-- Every reachable bracket state satisfies the invariant; in particular
a completed round always records an exact power of two of winners, so the
odd-winner bye branch of createNextRound is dead on reachable states. -/
theorem reach_inv (s : TBState) (hr : TBReach s) : TBInv s := by
  induction hr with
  | init players shuffled byeOrder s hnd hbye hsh hbo hnew =>
    by_cases hlen : players.length < 2
    · rw [tbNew, if_pos hlen] at hnew
      cases hnew
    · have h2p : 2 ≤ players.length := by omega
      rw [tbNew, if_neg hlen] at hnew
      have hs := Option.some.inj hnew
      subst hs
      obtain ⟨hcnt, hlen2⟩ :=
        createFirstRound_counts players shuffled byeOrder hnd h2p hsh hbo
      obtain ⟨hpl, hfresh⟩ :=
        createFirstRound_players players shuffled byeOrder hnd h2p hsh hbo
          hbye
      refine ⟨?_, ?_, ?_, ?_, ?_⟩
      · simpa [calculateTotalRounds] using hlen2
      · simpa [calculateTotalRounds] using (clog2_facts players.length
          h2p).2.2
      · exact hpl.nodup_iff.mpr hnd
      · intro m hm
        exact (hfresh m hm).1
      · intro m hm
        exact Or.inl ⟨(hfresh m hm).2.1, (hfresh m hm).2.2⟩
  | step s s2 hrs hs ih =>
    obtain ⟨hA, hB, hN, hP1, hC⟩ := ih
    cases hs with
    | advance i hi w hc hw hbye2 =>
      refine ⟨?_, hB, ?_, ?_, ?_⟩
      · simpa [List.length_set] using hA
      · show (roundPlayers (s.curMatches.set i
          (markWon (s.curMatches.get ⟨i, hi⟩) w))).Nodup
        rw [roundPlayers_set s.curMatches i
          (markWon (s.curMatches.get ⟨i, hi⟩) w) hi rfl rfl]
        exact hN
      · intro m hm
        rcases List.mem_or_eq_of_mem_set hm with h | h
        · exact hP1 m h
        · subst h
          exact hP1 (s.curMatches.get ⟨i, hi⟩)
            (List.get_mem s.curMatches i hi)
      · intro m hm
        rcases List.mem_or_eq_of_mem_set hm with h | h
        · exact hC m h
        · subst h
          exact Or.inr ⟨rfl, w, rfl, hw, hbye2⟩
    | nextRound byeOrder hall hlt hwin =>
      simp only [TBInv]
      have hwlen : (s.curMatches.filterMap fun m => m.winner).length =
          2 ^ (s.totalRounds - s.currentRound) :=
        (winners_length s.curMatches hC hall).trans hA
      have hk1 : 1 ≤ s.totalRounds - s.currentRound := by omega
      have hp2 : (2:ℕ) ^ (s.totalRounds - s.currentRound) =
          2 * 2 ^ (s.totalRounds - s.currentRound - 1) := by
        conv_lhs => rw [show s.totalRounds - s.currentRound =
          (s.totalRounds - s.currentRound - 1) + 1 from by omega]
        ring
      have heven : (s.curMatches.filterMap
          fun m => m.winner).length % 2 = 0 := by omega
      have hnext : createNextRound byeOrder (s.currentRound + 1)
          (s.curMatches.filterMap fun m => m.winner) =
          pairMatches (s.currentRound + 1)
            (s.curMatches.filterMap fun m => m.winner) := by
        rw [createNextRound, if_neg (by omega)]
      have hwB : ∀ w2 ∈ s.curMatches.filterMap fun m => m.winner,
          w2 ≠ "BYE" :=
        fun w2 hw2 => (winners_mem s.curMatches hC w2 hw2).2
      refine ⟨?_, by omega, ?_, ?_, ?_⟩
      · rw [hnext, pairMatches_length, hwlen,
          show s.totalRounds - (s.currentRound + 1) =
            s.totalRounds - s.currentRound - 1 from by omega]
        omega
      · rw [hnext, roundPlayers, pairMatches_bind _ _ heven,
          List.filter_eq_self.mpr ?f1]
        case f1 =>
          intro p hp
          simpa using hwB p hp
        exact winners_nodup s.curMatches hN hC
      · intro m hm
        rw [hnext] at hm
        exact hwB _ (pairMatches_mem _ _ _ hm).1
      · intro m hm
        rw [hnext] at hm
        have h5 := pairMatches_mem _ _ _ hm
        exact Or.inl ⟨h5.2.2.2.1, h5.2.2.2.2⟩

/-- C6: in a reachable bracket, a round that completes with more than one
recorded winner hands every winner to exactly one player slot of
createNextRound's output: the winner count is an exact power of two, so
it is even, the bye branch does not run, and the pairing loop consumes
the winner list without dropping anyone. -/
theorem c6_winner_preservation (s : TBState) (hr : TBReach s)
    (hall : ∀ m ∈ s.curMatches, m.completed = true)
    (hgt : 1 < (s.curMatches.filterMap fun m => m.winner).length)
    (byeOrder : List String) (rnd : ℕ) :
    ∀ w ∈ s.curMatches.filterMap fun m => m.winner,
      ((createNextRound byeOrder rnd
          (s.curMatches.filterMap fun m => m.winner)).bind
        fun m => [m.player1, m.player2]).count w = 1 := by
  obtain ⟨hA, hB, hN, hP1, hC⟩ := reach_inv s hr
  have hwlen : (s.curMatches.filterMap fun m => m.winner).length =
      2 ^ (s.totalRounds - s.currentRound) :=
    (winners_length s.curMatches hC hall).trans hA
  have hk1 : 1 ≤ s.totalRounds - s.currentRound := by
    by_contra hh
    have h0 : s.totalRounds - s.currentRound = 0 := by omega
    rw [h0] at hwlen
    simp at hwlen
    omega
  have hp2 : (2:ℕ) ^ (s.totalRounds - s.currentRound) =
      2 * 2 ^ (s.totalRounds - s.currentRound - 1) := by
    conv_lhs => rw [show s.totalRounds - s.currentRound =
      (s.totalRounds - s.currentRound - 1) + 1 from by omega]
    ring
  have heven : (s.curMatches.filterMap fun m => m.winner).length % 2 = 0 :=
    by omega
  intro w hw
  rw [createNextRound, if_neg (by omega), pairMatches_bind _ _ heven]
  exact List.count_eq_one_of_mem (winners_nodup s.curMatches hN hC) hw

def c6pl : List String := ["Al", "Bo", "Cy", "Di"]

def c6s0 : TBState where
  currentRound := 1
  totalRounds := 2
  curMatches := [⟨"r1-m1", "Al", "Bo", false, false, none⟩,
    ⟨"r1-m2", "Cy", "Di", false, false, none⟩]

def c6s1 : TBState where
  currentRound := 1
  totalRounds := 2
  curMatches := [⟨"r1-m1", "Al", "Bo", false, true, some "Al"⟩,
    ⟨"r1-m2", "Cy", "Di", false, false, none⟩]

def c6s2 : TBState where
  currentRound := 1
  totalRounds := 2
  curMatches := [⟨"r1-m1", "Al", "Bo", false, true, some "Al"⟩,
    ⟨"r1-m2", "Cy", "Di", false, true, some "Cy"⟩]

theorem c6reach0 : TBReach c6s0 := by
  have e4 : Nat.clog 2 4 = 2 :=
    clog2_eval 4 2 (by norm_num) (by norm_num) (by norm_num) (by norm_num)
  have e4b : Nat.clog 2 (["Al", "Bo", "Cy", "Di"] : List String).length =
      2 := e4
  refine TBReach.init c6pl c6pl c6pl c6s0 (by decide) (by decide)
    (List.Perm.refl _) (List.Perm.refl _) ?_
  rw [tbNew, if_neg (by decide)]
  simp only [calculateTotalRounds, c6pl, e4b]
  decide

theorem c6reach2 : TBReach c6s2 := by
  have hstep1 : TBStep c6s0 c6s1 :=
    TBStep.advance c6s0 0 (by decide) "Al" rfl (Or.inl rfl) (by decide)
  have hstep2 : TBStep c6s1 c6s2 :=
    TBStep.advance c6s1 1 (by decide) "Cy" rfl (Or.inl rfl) (by decide)
  exact TBReach.step c6s1 c6s2 (TBReach.step c6s0 c6s1 c6reach0 hstep1)
    hstep2

/-- Witness for c6_winner_preservation on a completed 4-player first
round with winners Al and Cy. -/
theorem c6_witness :
    ((createNextRound [] 2
        (c6s2.curMatches.filterMap fun m => m.winner)).bind
      fun m => [m.player1, m.player2]).count "Al" = 1 :=
  c6_winner_preservation c6s2 c6reach2 (by decide) (by decide) [] 2 "Al"
    (by decide)

/-! ## C5: the double round robin schedule -/

theorem moveLastToFront_eq_rotate {α : Type} (s : List α) :
    moveLastToFront s = s.rotate (s.length - 1) := by
  cases hrev : s.reverse with
  | nil =>
    have hs : s = [] := by simpa using hrev
    subst hs; rfl
  | cons a as =>
    have hs : s = as.reverse ++ [a] := by
      have h2 := congrArg List.reverse hrev
      simpa using h2
    subst hs
    have hm : moveLastToFront (as.reverse ++ [a]) = a :: as.reverse := by
      rw [moveLastToFront]
      simp
    rw [hm, List.rotate_eq_drop_append_take (by simp)]
    simp

theorem jsRotate_cons_eq {α : Type} (h : α) (s : List α) :
    jsRotate (h :: s) = h :: s.rotate (s.length - 1) := by
  show h :: moveLastToFront s = _
  rw [moveLastToFront_eq_rotate]

theorem jsRotate_iterate {α : Type} (h : α) (t : List α) : ∀ r : ℕ,
    jsRotate^[r] (h :: t) = h :: t.rotate ((t.length - 1) * r)
  | 0 => by simp
  | r + 1 => by
    rw [Function.iterate_succ_apply', jsRotate_iterate h t r,
      jsRotate_cons_eq, List.length_rotate, List.rotate_rotate,
      show (t.length - 1) * r + (t.length - 1) =
        (t.length - 1) * (r + 1) from by ring]

theorem circleRounds_eq_map : ∀ (count rnd : ℕ) (cur : List String),
    circleRounds rnd count cur =
      (List.range count).map
        (fun i => circleRound (rnd + i) (jsRotate^[i] cur))
  | 0, rnd, cur => rfl
  | c + 1, rnd, cur => by
    rw [circleRounds, circleRounds_eq_map c (rnd + 1) (jsRotate cur),
      List.range_succ_eq_map]
    rw [List.map_cons, List.map_map]
    refine congrArg₂ _ (by simp) ?_
    refine List.map_congr_left ?_
    intro i _
    simp only [Function.comp_apply, Function.iterate_succ_apply]
    rw [show rnd + 1 + i = rnd + (i + 1) from by ring]

theorem filterMap_eq_map_of {α β : Type} (f : α → Option β) (g : α → β) :
    ∀ l : List α, (∀ a ∈ l, f a = some (g a)) → l.filterMap f = l.map g
  | [], _ => rfl
  | a :: l, h => by
    simp only [List.filterMap_cons, h a (by simp), List.map_cons]
    rw [filterMap_eq_map_of f g l fun b hb => h b (by simp [hb])]

theorem countP_eq_one_of_unique {α : Type} : ∀ (l : List α), l.Nodup →
    ∀ (a : α), a ∈ l → ∀ q : α → Bool, q a = true →
    (∀ b ∈ l, q b = true → b = a) → l.countP q = 1
  | [], _, a, ha, _, _, _ => by simp at ha
  | c :: l, hnd, a, ha, q, hqa, huniq => by
    rcases List.mem_cons.mp ha with rfl | ha2
    · have hz : l.countP q = 0 := List.countP_eq_zero.mpr fun b hb hqb =>
        (List.nodup_cons.mp hnd).1 (huniq b (by simp [hb]) hqb ▸ hb)
      rw [List.countP_cons, hz, hqa]
      simp
    · have hqc : q c = false := by
        by_contra hcc
        have hc2 : q c = true := by simpa using hcc
        have hca := huniq c (by simp) hc2
        exact (List.nodup_cons.mp hnd).1 (hca ▸ ha2)
      rw [List.countP_cons, hqc]
      simp only [if_neg Bool.false_ne_true, Nat.add_zero]
      exact countP_eq_one_of_unique l (List.nodup_cons.mp hnd).2 a ha2 q hqa
        fun b hb hqb => huniq b (by simp [hb]) hqb

theorem sum_map_ite {α : Type} (p : α → Bool) : ∀ l : List α,
    (l.map fun a => if p a then 1 else 0).sum = l.countP p
  | [] => rfl
  | a :: l => by
    rw [List.map_cons, List.sum_cons, sum_map_ite p l, List.countP_cons]
    by_cases h : p a <;> simp [h] <;> omega

theorem countP_or_split {α : Type} (p q : α → Prop) [DecidablePred p]
    [DecidablePred q] : ∀ l : List α, (∀ a ∈ l, ¬(p a ∧ q a)) →
    (l.countP fun a => decide (p a ∨ q a)) =
      (l.countP fun a => decide (p a)) + l.countP fun a => decide (q a)
  | [], _ => rfl
  | a :: l, h => by
    rw [List.countP_cons, List.countP_cons, List.countP_cons,
      countP_or_split p q l fun b hb => h b (by simp [hb])]
    have hna := h a (by simp)
    by_cases hp : p a
    · by_cases hq : q a
      · exact absurd ⟨hp, hq⟩ hna
      · simp [hp, hq]
        omega
    · by_cases hq : q a <;> simp [hp, hq] <;> omega

theorem returnLeg_countP (x y : String) (ρ : ℕ → ℕ) :
    ∀ (L : List (List Fixture)) (k : ℕ),
    (((L.enumFrom k).map fun p => p.2.map fun f =>
        ({ home := f.away, away := f.home, round := ρ p.1 } :
          Fixture)).flatten.countP
      fun f => decide (f.home = x ∧ f.away = y)) =
    L.flatten.countP fun f => decide (f.home = y ∧ f.away = x)
  | [], _ => rfl
  | R :: L, k => by
    simp only [List.enumFrom, List.map_cons, List.flatten_cons,
      List.countP_append]
    rw [returnLeg_countP x y ρ L (k + 1), List.countP_map]
    have hin : (R.countP ((fun f => decide (f.home = x ∧ f.away = y)) ∘
        fun f => ({ home := f.away, away := f.home, round := ρ k } :
          Fixture))) =
        R.countP fun f => decide (f.home = y ∧ f.away = x) := by
      refine List.countP_congr ?_
      intro f _
      simp only [Function.comp_apply, decide_eq_true_eq]
      exact and_comm
    rw [hin]

theorem returnLeg_length (ρ : ℕ → ℕ) : ∀ (L : List (List Fixture)) (k : ℕ),
    ((L.enumFrom k).map fun p => p.2.map fun f =>
        ({ home := f.away, away := f.home, round := ρ p.1 } :
          Fixture)).flatten.length =
    L.flatten.length
  | [], _ => rfl
  | R :: L, k => by
    simp only [List.enumFrom, List.map_cons, List.flatten_cons,
      List.length_append, List.length_map]
    rw [returnLeg_length ρ L (k + 1)]

theorem circleRound_eq_map (rnd : ℕ) (l : List String)
    (hb : ∀ p ∈ l, p ≠ "BYE") :
    circleRound rnd l = (List.range (l.length / 2)).map fun k =>
      { home := l.getD k "", away := l.getD (l.length - 1 - k) "",
        round := rnd + 1 } := by
  rw [circleRound]
  refine filterMap_eq_map_of _ _ _ ?_
  intro k hk
  have hk2 : k < l.length / 2 := List.mem_range.mp hk
  have hkl : k < l.length := by omega
  have hk3 : l.length - 1 - k < l.length := by omega
  have h1 : l.getD k "" ∈ l := by
    rw [List.getD_eq_getElem l "" hkl]
    exact List.getElem_mem hkl
  have h2 : l.getD (l.length - 1 - k) "" ∈ l := by
    rw [List.getD_eq_getElem l "" hk3]
    exact List.getElem_mem hk3
  simp only []
  rw [if_pos ⟨hb _ h1, hb _ h2⟩]

theorem sum_map_ite2 {α : Type} (p : α → Prop) [DecidablePred p] :
    ∀ l : List α,
    (l.map fun a => if p a then 1 else 0).sum =
      l.countP fun a => decide (p a)
  | [] => rfl
  | a :: l => by
    rw [List.map_cons, List.sum_cons, sum_map_ite2 p l, List.countP_cons]
    by_cases h : p a <;> simp [h] <;> omega

theorem mem_of_mem_rot (p0 : String) (t : List String) (ρ : ℕ)
    (p : String) (hp : p ∈ p0 :: t.rotate ρ) : p ∈ p0 :: t := by
  rcases List.mem_cons.mp hp with h | h
  · simp [h]
  · simp [List.mem_rotate.mp h]

theorem roundFix_eq (p0 : String) (t : List String) (r : ℕ)
    (hbye : "BYE" ∉ (p0 :: t)) :
    circleRound (0 + r) (jsRotate^[r] (p0 :: t)) =
      (List.range ((t.length + 1) / 2)).map fun k =>
        { home := (p0 :: t.rotate ((t.length - 1) * r)).getD k ""
          away := (p0 :: t.rotate ((t.length - 1) * r)).getD
            (t.length - k) ""
          round := 0 + r + 1 } := by
  have hbL : ∀ p ∈ p0 :: t.rotate ((t.length - 1) * r), p ≠ "BYE" := by
    intro p hp heq
    exact hbye (heq ▸ mem_of_mem_rot p0 t _ p hp)
  rw [jsRotate_iterate p0 t r,
    circleRound_eq_map (0 + r) (p0 :: t.rotate ((t.length - 1) * r)) hbL]
  have hlen : (p0 :: t.rotate ((t.length - 1) * r)).length =
      t.length + 1 := by simp
  rw [hlen]
  simp

theorem getD_succ_rot (p0 : String) (t : List String) (r u : ℕ)
    (hu : u < t.length) :
    (p0 :: t.rotate ((t.length - 1) * r)).getD (u + 1) "" =
      t.getD ((u + (t.length - 1) * r) % t.length) "" := by
  have h0 : (p0 :: t.rotate ((t.length - 1) * r)).getD (u + 1) "" =
      (t.rotate ((t.length - 1) * r)).getD u "" := rfl
  rw [h0, List.getD_eq_getElem _ _ (by simpa using hu),
    List.getElem_rotate, List.getD_eq_getElem _ _
      (Nat.mod_lt _ (by omega))]

theorem getD_mem_t (t : List String) (j : ℕ) (hj : j < t.length) :
    t.getD j "" ∈ t := by
  rw [List.getD_eq_getElem _ _ hj]
  exact List.getElem_mem hj

theorem getD_inj_t (t : List String) (hndt : t.Nodup) (i j : ℕ)
    (hi : i < t.length) (hj : j < t.length)
    (h : t.getD i "" = t.getD j "") : i = j := by
  rw [List.getD_eq_getElem _ _ hi, List.getD_eq_getElem _ _ hj] at h
  exact hndt.getElem_inj_iff.mp h

/-- Across the first leg, the head player p0 and the tail player at index
b meet exactly once: only the k = 0 pairing can involve p0, and its
partner index (length-1)*(r+1) mod length hits b for exactly one round
r. -/
theorem firstLeg_count_head (p0 : String) (t : List String)
    (hnd : (p0 :: t).Nodup) (hodd : t.length % 2 = 1)
    (hbye : "BYE" ∉ (p0 :: t)) (b : ℕ) (hb : b < t.length) :
    ((circleRounds 0 t.length (p0 :: t)).flatten.countP
      fun f => decide ((f.home = p0 ∧ f.away = t.getD b "") ∨
        (f.home = t.getD b "" ∧ f.away = p0))) = 1 := by
  have hm1 : 1 ≤ t.length := by omega
  haveI : NeZero t.length := ⟨by omega⟩
  have hndt : t.Nodup := (List.nodup_cons.mp hnd).2
  have hp0t : p0 ∉ t := (List.nodup_cons.mp hnd).1
  have hround : ∀ r : ℕ,
      ((circleRound (0 + r) (jsRotate^[r] (p0 :: t))).countP
        fun f => decide ((f.home = p0 ∧ f.away = t.getD b "") ∨
          (f.home = t.getD b "" ∧ f.away = p0))) =
      if ((t.length - 1) * (r + 1)) % t.length = b then 1 else 0 := by
    intro r
    rw [roundFix_eq p0 t r hbye, List.countP_map]
    have hget0 : (p0 :: t.rotate ((t.length - 1) * r)).getD 0 "" = p0 := rfl
    have hgetm : (p0 :: t.rotate ((t.length - 1) * r)).getD
        (t.length - 0) "" =
        t.getD (((t.length - 1) * (r + 1)) % t.length) "" := by
      have hs : t.length - 0 = (t.length - 1) + 1 := by omega
      rw [hs, getD_succ_rot p0 t r (t.length - 1) (by omega),
        show (t.length - 1) + (t.length - 1) * r =
          (t.length - 1) * (r + 1) from by ring]
    have hnotail : ∀ u, u + 1 < (t.length + 1) / 2 →
        ¬(((p0 :: t.rotate ((t.length - 1) * r)).getD (u + 1) "" = p0 ∧
            (p0 :: t.rotate ((t.length - 1) * r)).getD
              (t.length - (u + 1)) "" = t.getD b "") ∨
          ((p0 :: t.rotate ((t.length - 1) * r)).getD (u + 1) "" =
              t.getD b "" ∧
            (p0 :: t.rotate ((t.length - 1) * r)).getD
              (t.length - (u + 1)) "" = p0)) := by
      intro u hu hP
      have hum : u < t.length := by omega
      have hu2 : t.length - (u + 1) = (t.length - u - 2) + 1 := by omega
      have hhome := getD_succ_rot p0 t r u hum
      have haway : (p0 :: t.rotate ((t.length - 1) * r)).getD
          (t.length - (u + 1)) "" =
          t.getD ((t.length - u - 2 + (t.length - 1) * r) % t.length)
            "" := by
        rw [hu2, getD_succ_rot p0 t r _ (by omega)]
      rcases hP with ⟨h1, _⟩ | ⟨_, h2⟩
      · rw [hhome] at h1
        exact hp0t (h1 ▸ getD_mem_t t _ (Nat.mod_lt _ (by omega)))
      · rw [haway] at h2
        exact hp0t (h2 ▸ getD_mem_t t _ (Nat.mod_lt _ (by omega)))
    by_cases hc : ((t.length - 1) * (r + 1)) % t.length = b
    · rw [if_pos hc]
      refine countP_eq_one_of_unique _ (List.nodup_range _) 0
        (List.mem_range.mpr (by omega)) _ ?_ ?_
      · apply decide_eq_true
        left
        refine ⟨hget0, ?_⟩
        show (p0 :: t.rotate ((t.length - 1) * r)).getD
          (t.length - 0) "" = t.getD b ""
        rw [hgetm, hc]
      · intro k hk hq
        rcases Nat.eq_zero_or_pos k with rfl | hkpos
        · rfl
        obtain ⟨u, rfl⟩ : ∃ u, k = u + 1 := ⟨k - 1, by omega⟩
        exact absurd (of_decide_eq_true hq)
          (hnotail u (List.mem_range.mp hk))
    · rw [if_neg hc]
      refine List.countP_eq_zero.mpr ?_
      intro k hk hq
      rcases Nat.eq_zero_or_pos k with rfl | hkpos
      · have hP : ((p0 :: t.rotate ((t.length - 1) * r)).getD 0 "" = p0 ∧
            (p0 :: t.rotate ((t.length - 1) * r)).getD
              (t.length - 0) "" = t.getD b "") ∨
            ((p0 :: t.rotate ((t.length - 1) * r)).getD 0 "" =
                t.getD b "" ∧
              (p0 :: t.rotate ((t.length - 1) * r)).getD
                (t.length - 0) "" = p0) := of_decide_eq_true hq
        rcases hP with ⟨_, h2⟩ | ⟨h1, _⟩
        · rw [hgetm] at h2
          exact hc (getD_inj_t t hndt _ b (Nat.mod_lt _ (by omega)) hb h2)
        · rw [hget0] at h1
          exact hp0t (h1 ▸ getD_mem_t t b hb)
      · obtain ⟨u, rfl⟩ : ∃ u, k = u + 1 := ⟨k - 1, by omega⟩
        exact absurd (of_decide_eq_true hq)
          (hnotail u (List.mem_range.mp hk))
  have hstep : ((circleRounds 0 t.length (p0 :: t)).flatten.countP
      fun f => decide ((f.home = p0 ∧ f.away = t.getD b "") ∨
        (f.home = t.getD b "" ∧ f.away = p0))) =
      ((List.range t.length).map fun r =>
        if ((t.length - 1) * (r + 1)) % t.length = b then 1 else 0).sum := by
    rw [circleRounds_eq_map, List.countP_flatten, List.map_map]
    exact congrArg List.sum (List.map_congr_left fun r _ => hround r)
  rw [hstep, sum_map_ite2]
  have hkey : ∀ r : ℕ, (((t.length - 1) * (r + 1)) % t.length = b) ↔
      (r : ZMod t.length) = -(b : ZMod t.length) - 1 := by
    intro r
    constructor
    · intro h
      have hcast : ((t.length - 1) * (r + 1)) % t.length =
          b % t.length := by
        rw [h, Nat.mod_eq_of_lt hb]
      have hz := (ZMod.natCast_eq_natCast_iff' _ _ _).mpr hcast
      push_cast [Nat.cast_sub hm1] at hz
      rw [ZMod.natCast_self] at hz
      linear_combination -hz
    · intro h
      have hz : (((t.length - 1) * (r + 1) : ℕ) : ZMod t.length) =
          (b : ZMod t.length) := by
        push_cast [Nat.cast_sub hm1]
        rw [ZMod.natCast_self]
        linear_combination -h
      have h2 := (ZMod.natCast_eq_natCast_iff' _ _ _).mp hz
      rwa [Nat.mod_eq_of_lt hb] at h2
  refine countP_eq_one_of_unique _ (List.nodup_range _)
    ((-(b : ZMod t.length) - 1).val)
    (List.mem_range.mpr (ZMod.val_lt _)) _ ?_ ?_
  · apply decide_eq_true
    apply (hkey _).mpr
    rw [ZMod.natCast_val, ZMod.cast_id]
  · intro r hr hq
    have h := (hkey r).mp (of_decide_eq_true hq)
    rw [← h, ZMod.val_cast_of_lt (List.mem_range.mp hr)]

/-- Across the first leg, two distinct tail players at indices a and b
meet exactly once: the pairing for match slot u+1 of round r puts tail
indices u-r and -2-u-r (mod length) together, and the congruence
a+b+2r+2 = 0 has exactly one solution r, in which exactly one of the two
orientations lands in the slot range. -/
theorem firstLeg_count_tail (p0 : String) (t : List String)
    (hnd : (p0 :: t).Nodup) (hodd : t.length % 2 = 1)
    (hbye : "BYE" ∉ (p0 :: t)) (a b : ℕ) (ha : a < t.length)
    (hb : b < t.length) (hab : a ≠ b) :
    ((circleRounds 0 t.length (p0 :: t)).flatten.countP
      fun f => decide ((f.home = t.getD a "" ∧ f.away = t.getD b "") ∨
        (f.home = t.getD b "" ∧ f.away = t.getD a ""))) = 1 := by
  have hm3 : 3 ≤ t.length := by omega
  haveI : NeZero t.length := ⟨by omega⟩
  have hndt : t.Nodup := (List.nodup_cons.mp hnd).2
  have hp0t : p0 ∉ t := (List.nodup_cons.mp hnd).1
  have hmod : ∀ (X j : ℕ), j < t.length →
      ((X % t.length = j) ↔ ((X : ZMod t.length) = (j : ZMod t.length)))
      := by
    intro X j hj
    rw [show (X % t.length = j) ↔ (X % t.length = j % t.length) from by
      rw [Nat.mod_eq_of_lt hj]]
    exact (ZMod.natCast_eq_natCast_iff' X j t.length).symm
  have hcast_sub : ∀ u : ℕ, u + 2 ≤ t.length →
      ((t.length - u - 2 : ℕ) : ZMod t.length) = -(u : ZMod t.length) - 2
      := by
    intro u hu
    have h1 : (t.length - u - 2 : ℕ) = t.length - (u + 2) := by omega
    rw [h1, Nat.cast_sub hu, ZMod.natCast_self]
    push_cast
    ring
  have hmm1 : ((t.length - 1 : ℕ) : ZMod t.length) = -1 := by
    rw [Nat.cast_sub (by omega), ZMod.natCast_self]
    push_cast
    ring
  have h2inv : (2 : ZMod t.length) * (2 : ZMod t.length)⁻¹ = 1 := by
    rw [ZMod.mul_inv_eq_gcd]
    have hv : (2 : ZMod t.length).val = 2 := by
      have h22 : (2 : ZMod t.length) = ((2 : ℕ) : ZMod t.length) := by
        push_cast
        ring
      rw [h22, ZMod.val_cast_of_lt (by omega)]
    rw [hv]
    have hco : Nat.gcd 2 t.length = 1 :=
      Nat.coprime_two_left.mpr ⟨t.length / 2, by omega⟩
    rw [hco]
    push_cast
    ring
  -- the per-round count
  have hround : ∀ r : ℕ,
      ((circleRound (0 + r) (jsRotate^[r] (p0 :: t))).countP
        fun f => decide ((f.home = t.getD a "" ∧ f.away = t.getD b "") ∨
          (f.home = t.getD b "" ∧ f.away = t.getD a ""))) =
      if (a + b + 2 * r + 2) % t.length = 0 then 1 else 0 := by
    intro r
    rw [roundFix_eq p0 t r hbye, List.countP_map]
    have hget0 : (p0 :: t.rotate ((t.length - 1) * r)).getD 0 "" = p0 := rfl
    -- k = 0 never pairs two tail players
    have hk0 : ¬(((p0 :: t.rotate ((t.length - 1) * r)).getD 0 "" =
          t.getD a "" ∧
        (p0 :: t.rotate ((t.length - 1) * r)).getD (t.length - 0) "" =
          t.getD b "") ∨
        ((p0 :: t.rotate ((t.length - 1) * r)).getD 0 "" = t.getD b "" ∧
        (p0 :: t.rotate ((t.length - 1) * r)).getD (t.length - 0) "" =
          t.getD a "")) := by
      intro hP
      rcases hP with ⟨h1, _⟩ | ⟨h1, _⟩
      · rw [hget0] at h1
        exact hp0t (h1 ▸ getD_mem_t t a ha)
      · rw [hget0] at h1
        exact hp0t (h1 ▸ getD_mem_t t b hb)
    -- the index equations at a tail slot
    have hslot : ∀ v, v + 1 < (t.length + 1) / 2 →
        ((p0 :: t.rotate ((t.length - 1) * r)).getD (v + 1) "" =
          t.getD ((v + (t.length - 1) * r) % t.length) "" ∧
        (p0 :: t.rotate ((t.length - 1) * r)).getD (t.length - (v + 1))
          "" =
          t.getD ((t.length - v - 2 + (t.length - 1) * r) % t.length)
            "") := by
      intro v hv
      have hvm : v < t.length := by omega
      have hv2 : t.length - (v + 1) = (t.length - v - 2) + 1 := by omega
      refine ⟨getD_succ_rot p0 t r v hvm, ?_⟩
      rw [hv2, getD_succ_rot p0 t r _ (by omega)]
    -- home-index cast values
    have hcastA : ∀ v, v < t.length →
        (((v + (t.length - 1) * r : ℕ) : ZMod t.length) =
          (v : ZMod t.length) - r) := by
      intro v _
      push_cast [hmm1]
      ring
    have hcastB : ∀ v, v + 2 ≤ t.length →
        (((t.length - v - 2 + (t.length - 1) * r : ℕ) : ZMod t.length) =
          -(v : ZMod t.length) - 2 - r) := by
      intro v hv
      rw [Nat.cast_add, hcast_sub v hv]
      push_cast [hmm1]
      ring
    by_cases hc : (a + b + 2 * r + 2) % t.length = 0
    · rw [if_pos hc]
      have hcz : ((a : ZMod t.length) + b + 2 * r + 2) = 0 := by
        have h0 := (hmod _ 0 (by omega)).mp hc
        push_cast at h0
        linear_combination h0
      -- the two candidate slots
      have huaA : ((a + r) % t.length + (t.length - 1) * r) % t.length
          = a := by
        rw [hmod _ a ha]
        push_cast [ZMod.natCast_mod, hmm1]
        ring
      have hubB : ((b + r) % t.length + (t.length - 1) * r) % t.length
          = b := by
        rw [hmod _ b hb]
        push_cast [ZMod.natCast_mod, hmm1]
        ring
      have hua_lt : (a + r) % t.length < t.length := Nat.mod_lt _ (by omega)
      have hub_lt : (b + r) % t.length < t.length := Nat.mod_lt _ (by omega)
      have hne_uab : (a + r) % t.length ≠ (b + r) % t.length := by
        intro h
        have h2 : ((a + r : ℕ) : ZMod t.length) =
            ((b + r : ℕ) : ZMod t.length) := by
          rw [← ZMod.natCast_mod (a + r), ← ZMod.natCast_mod (b + r), h]
        push_cast at h2
        have h3 : (a : ZMod t.length) = b := by linear_combination h2
        have h4 : a % t.length = b % t.length :=
          (ZMod.natCast_eq_natCast_iff' _ _ _).mp h3
        rw [Nat.mod_eq_of_lt ha, Nat.mod_eq_of_lt hb] at h4
        exact hab h4
      have husum : (a + r) % t.length + (b + r) % t.length =
          t.length - 2 := by
        have hm2c : ((t.length - 2 : ℕ) : ZMod t.length) = -2 := by
          rw [show (t.length - 2 : ℕ) = t.length - 0 - 2 from by omega,
            hcast_sub 0 (by omega)]
          push_cast
          ring
        have hcastsum : (((a + r) % t.length + (b + r) % t.length : ℕ) :
            ZMod t.length) = ((t.length - 2 : ℕ) : ZMod t.length) := by
          push_cast [ZMod.natCast_mod, hm2c]
          linear_combination hcz
        have h5 := (ZMod.natCast_eq_natCast_iff' _ _ t.length).mp hcastsum
        rw [Nat.mod_eq_of_lt (by omega : t.length - 2 < t.length)] at h5
        -- h5 : (ua + ub) % m = m - 2; bound: ua+ub ≤ 2m-2
        rcases Nat.lt_or_ge ((a + r) % t.length + (b + r) % t.length)
          t.length with h6 | h6
        · rw [Nat.mod_eq_of_lt h6] at h5
          exact h5
        · exfalso
          have h9 : (a + r) % t.length + (b + r) % t.length - t.length <
              t.length := by omega
          have h10 : ((a + r) % t.length + (b + r) % t.length) %
              t.length =
              (a + r) % t.length + (b + r) % t.length - t.length := by
            rw [Nat.mod_eq_sub_mod h6, Nat.mod_eq_of_lt h9]
          rw [h10] at h5
          have h8 : (a + r) % t.length = t.length - 1 ∧
              (b + r) % t.length = t.length - 1 := by omega
          exact hne_uab (h8.1.trans h8.2.symm)
      -- exactly one candidate is in slot range
      have hrange : ((a + r) % t.length < (t.length - 1) / 2 ∧
          ¬((b + r) % t.length < (t.length - 1) / 2)) ∨
          (¬((a + r) % t.length < (t.length - 1) / 2) ∧
          (b + r) % t.length < (t.length - 1) / 2) := by omega
      -- a generic "slot v matches" characterisation
      have hmatch : ∀ v, v + 1 < (t.length + 1) / 2 →
          ((((p0 :: t.rotate ((t.length - 1) * r)).getD (v + 1) "" =
              t.getD a "" ∧
            (p0 :: t.rotate ((t.length - 1) * r)).getD
              (t.length - (v + 1)) "" = t.getD b "") ∨
          ((p0 :: t.rotate ((t.length - 1) * r)).getD (v + 1) "" =
              t.getD b "" ∧
            (p0 :: t.rotate ((t.length - 1) * r)).getD
              (t.length - (v + 1)) "" = t.getD a "")) ↔
          (v = (a + r) % t.length ∨ v = (b + r) % t.length)) := by
        intro v hv
        have hvm : v < t.length := by omega
        have hv2 : v + 2 ≤ t.length := by omega
        obtain ⟨hsH, hsA⟩ := hslot v hv
        constructor
        · rintro (⟨h1, _⟩ | ⟨h1, _⟩)
          · left
            rw [hsH] at h1
            have h2 := getD_inj_t t hndt _ _ (Nat.mod_lt _ (by omega))
              ha h1
            rw [hmod _ a ha, hcastA v hvm] at h2
            have h3 : (v : ZMod t.length) = ((a + r) % t.length :
                ZMod t.length) := by
              rw [ZMod.natCast_mod]
              push_cast
              linear_combination h2
            have h4 := (ZMod.natCast_eq_natCast_iff' _ _ _).mp h3
            rw [Nat.mod_eq_of_lt hvm, Nat.mod_mod] at h4
            exact h4
          · right
            rw [hsH] at h1
            have h2 := getD_inj_t t hndt _ _ (Nat.mod_lt _ (by omega))
              hb h1
            rw [hmod _ b hb, hcastA v hvm] at h2
            have h3 : (v : ZMod t.length) = ((b + r) % t.length :
                ZMod t.length) := by
              rw [ZMod.natCast_mod]
              push_cast
              linear_combination h2
            have h4 := (ZMod.natCast_eq_natCast_iff' _ _ _).mp h3
            rw [Nat.mod_eq_of_lt hvm, Nat.mod_mod] at h4
            exact h4
        · rintro (rfl | rfl)
          · left
            refine ⟨by rw [hsH, huaA], ?_⟩
            have hidx : (t.length - (a + r) % t.length - 2 +
                (t.length - 1) * r) % t.length = b := by
              rw [hmod _ b hb, hcastB _ (by omega), ZMod.natCast_mod]
              push_cast
              linear_combination -hcz
            rw [hsA, hidx]
          · right
            refine ⟨by rw [hsH, hubB], ?_⟩
            have hidx : (t.length - (b + r) % t.length - 2 +
                (t.length - 1) * r) % t.length = a := by
              rw [hmod _ a ha, hcastB _ (by omega), ZMod.natCast_mod]
              push_cast
              linear_combination -hcz
            rw [hsA, hidx]
      -- pick the in-range candidate
      rcases hrange with ⟨hinA, houtB⟩ | ⟨houtA, hinB⟩
      · refine countP_eq_one_of_unique _ (List.nodup_range _)
          ((a + r) % t.length + 1)
          (List.mem_range.mpr (by omega)) _ ?_ ?_
        · apply decide_eq_true
          exact (hmatch _ (by omega)).mpr (Or.inl rfl)
        · intro k hk hq
          rcases Nat.eq_zero_or_pos k with rfl | hkpos
          · exact absurd (of_decide_eq_true hq) hk0
          obtain ⟨v, rfl⟩ : ∃ v, k = v + 1 := ⟨k - 1, by omega⟩
          have hkr := List.mem_range.mp hk
          rcases (hmatch v hkr).mp (of_decide_eq_true hq) with rfl | rfl
          · rfl
          · exact absurd (by omega : (b + r) % t.length <
              (t.length - 1) / 2) houtB
      · refine countP_eq_one_of_unique _ (List.nodup_range _)
          ((b + r) % t.length + 1)
          (List.mem_range.mpr (by omega)) _ ?_ ?_
        · apply decide_eq_true
          exact (hmatch _ (by omega)).mpr (Or.inr rfl)
        · intro k hk hq
          rcases Nat.eq_zero_or_pos k with rfl | hkpos
          · exact absurd (of_decide_eq_true hq) hk0
          obtain ⟨v, rfl⟩ : ∃ v, k = v + 1 := ⟨k - 1, by omega⟩
          have hkr := List.mem_range.mp hk
          rcases (hmatch v hkr).mp (of_decide_eq_true hq) with rfl | rfl
          · exact absurd (by omega : (a + r) % t.length <
              (t.length - 1) / 2) houtA
          · rfl
    · rw [if_neg hc]
      refine List.countP_eq_zero.mpr ?_
      intro k hk hq
      rcases Nat.eq_zero_or_pos k with rfl | hkpos
      · exact absurd (of_decide_eq_true hq) hk0
      obtain ⟨v, rfl⟩ : ∃ v, k = v + 1 := ⟨k - 1, by omega⟩
      have hkr := List.mem_range.mp hk
      have hvm : v < t.length := by omega
      have hv2 : v + 2 ≤ t.length := by omega
      obtain ⟨hsH, hsA⟩ := hslot v hkr
      apply hc
      rw [hmod _ 0 (by omega)]
      push_cast
      have hP : (((p0 :: t.rotate ((t.length - 1) * r)).getD (v + 1) "" =
            t.getD a "" ∧
          (p0 :: t.rotate ((t.length - 1) * r)).getD
            (t.length - (v + 1)) "" = t.getD b "") ∨
          ((p0 :: t.rotate ((t.length - 1) * r)).getD (v + 1) "" =
            t.getD b "" ∧
          (p0 :: t.rotate ((t.length - 1) * r)).getD
            (t.length - (v + 1)) "" = t.getD a "")) :=
        of_decide_eq_true hq
      rcases hP with ⟨h1, h2⟩ | ⟨h1, h2⟩
      · rw [hsH] at h1
        rw [hsA] at h2
        have e1 := getD_inj_t t hndt _ _ (Nat.mod_lt _ (by omega)) ha h1
        have e2 := getD_inj_t t hndt _ _ (Nat.mod_lt _ (by omega)) hb h2
        rw [hmod _ a ha, hcastA v hvm] at e1
        rw [hmod _ b hb, hcastB v hv2] at e2
        linear_combination -e1 - e2
      · rw [hsH] at h1
        rw [hsA] at h2
        have e1 := getD_inj_t t hndt _ _ (Nat.mod_lt _ (by omega)) hb h1
        have e2 := getD_inj_t t hndt _ _ (Nat.mod_lt _ (by omega)) ha h2
        rw [hmod _ b hb, hcastA v hvm] at e1
        rw [hmod _ a ha, hcastB v hv2] at e2
        linear_combination -e1 - e2
  -- sum over rounds
  have hstep : ((circleRounds 0 t.length (p0 :: t)).flatten.countP
      fun f => decide ((f.home = t.getD a "" ∧ f.away = t.getD b "") ∨
        (f.home = t.getD b "" ∧ f.away = t.getD a ""))) =
      ((List.range t.length).map fun r =>
        if (a + b + 2 * r + 2) % t.length = 0 then 1 else 0).sum := by
    rw [circleRounds_eq_map, List.countP_flatten, List.map_map]
    exact congrArg List.sum (List.map_congr_left fun r _ => hround r)
  rw [hstep, sum_map_ite2]
  have hkey : ∀ r : ℕ, ((a + b + 2 * r + 2) % t.length = 0) ↔
      (r : ZMod t.length) =
        (-(a : ZMod t.length) - b - 2) * (2 : ZMod t.length)⁻¹ := by
    intro r
    rw [hmod _ 0 (by omega)]
    push_cast
    constructor
    · intro h
      have h2 : (2 : ZMod t.length) * r = -(a : ZMod t.length) - b - 2 :=
        by linear_combination h
      calc (r : ZMod t.length) =
          ((2 : ZMod t.length) * r) * (2 : ZMod t.length)⁻¹ := by
            rw [mul_assoc, mul_comm (r : ZMod t.length), ← mul_assoc,
              h2inv, one_mul]
        _ = (-(a : ZMod t.length) - b - 2) * (2 : ZMod t.length)⁻¹ := by
            rw [h2]
    · intro h
      linear_combination 2 * h + (-(a : ZMod t.length) - b - 2) * h2inv
  refine countP_eq_one_of_unique _ (List.nodup_range _)
    (((-(a : ZMod t.length) - b - 2) * (2 : ZMod t.length)⁻¹).val)
    (List.mem_range.mpr (ZMod.val_lt _)) _ ?_ ?_
  · apply decide_eq_true
    apply (hkey _).mpr
    rw [ZMod.natCast_val, ZMod.cast_id]
  · intro r hr hq
    have h := (hkey r).mp (of_decide_eq_true hq)
    rw [← h, ZMod.val_cast_of_lt (List.mem_range.mp hr)]

/-- Any two distinct players of a BYE-free odd-tailed roster meet exactly
once across the first leg. -/
theorem firstLeg_pair_count (p0 : String) (t : List String)
    (hnd : (p0 :: t).Nodup) (hodd : t.length % 2 = 1)
    (hbye : "BYE" ∉ (p0 :: t)) (x y : String)
    (hx : x ∈ (p0 :: t)) (hy : y ∈ (p0 :: t)) (hxy : x ≠ y) :
    ((circleRounds 0 t.length (p0 :: t)).flatten.countP
      fun f => decide ((f.home = x ∧ f.away = y) ∨
        (f.home = y ∧ f.away = x))) = 1 := by
  rcases List.mem_cons.mp hx with hxp | hxt
  · rcases List.mem_cons.mp hy with hyp | hyt
    · exact absurd (hxp.trans hyp.symm) hxy
    · obtain ⟨n, hn⟩ := List.mem_iff_get.mp hyt
      have hyD : t.getD n.1 "" = y := by
        rw [List.getD_eq_get _ _ n.2]
        exact hn
      rw [hxp, ← hyD]
      exact firstLeg_count_head p0 t hnd hodd hbye n.1 n.2
  · rcases List.mem_cons.mp hy with hyp | hyt
    · rw [hyp]
      obtain ⟨n, hn⟩ := List.mem_iff_get.mp hxt
      have hxD : t.getD n.1 "" = x := by
        rw [List.getD_eq_get _ _ n.2]
        exact hn
      rw [← hxD]
      have hcomm : ((circleRounds 0 t.length (p0 :: t)).flatten.countP
          fun f => decide ((f.home = t.getD n.1 "" ∧ f.away = p0) ∨
            (f.home = p0 ∧ f.away = t.getD n.1 ""))) =
          ((circleRounds 0 t.length (p0 :: t)).flatten.countP
          fun f => decide ((f.home = p0 ∧ f.away = t.getD n.1 "") ∨
            (f.home = t.getD n.1 "" ∧ f.away = p0))) := by
        refine List.countP_congr ?_
        intro f _
        simp only [decide_eq_true_eq]
        exact or_comm
      rw [hcomm]
      exact firstLeg_count_head p0 t hnd hodd hbye n.1 n.2
    · obtain ⟨na, hna⟩ := List.mem_iff_get.mp hxt
      obtain ⟨nb, hnb⟩ := List.mem_iff_get.mp hyt
      have hxD : t.getD na.1 "" = x := by
        rw [List.getD_eq_get _ _ na.2]
        exact hna
      have hyD : t.getD nb.1 "" = y := by
        rw [List.getD_eq_get _ _ nb.2]
        exact hnb
      have hab : na.1 ≠ nb.1 := by
        intro h
        apply hxy
        rw [← hxD, ← hyD, h]
      rw [← hxD, ← hyD]
      exact firstLeg_count_tail p0 t hnd hodd hbye na.1 nb.1 na.2 nb.2 hab

/-- C5 (amended): for an even roster of at least 2 distinct players none
of whom is literally named BYE, the schedule generator produces exactly
N x (N-1) fixtures, and every ordered pair (x, y) of distinct players
appears exactly once as (home, away) — so every unordered pair meets
exactly twice with home and away swapped between the two legs.  (A player
registered under the literal name BYE — which the join validation
permits — is silently dropped from every pairing, see the
counterexample.) -/
theorem c5_double_round_robin (players : List String)
    (hnd : players.Nodup) (heven : players.length % 2 = 0)
    (h2 : 2 ≤ players.length) (hbye : "BYE" ∉ players) :
    (generateEnhancedFixtures players).flatten.length =
      players.length * (players.length - 1) ∧
    ∀ x ∈ players, ∀ y ∈ players, x ≠ y →
      ((generateEnhancedFixtures players).flatten.countP
        fun f => decide (f.home = x ∧ f.away = y)) = 1 := by
  obtain ⟨p0, t, rfl⟩ : ∃ p0 t, players = p0 :: t := by
    cases players with
    | nil => simp at h2
    | cons p0 t => exact ⟨p0, t, rfl⟩
  have hodd : t.length % 2 = 1 := by
    simp only [List.length_cons] at heven
    omega
  have hcond : ¬((t.length + 1) % 2 = 1) := by omega
  have hpad : generateEnhancedFixtures (p0 :: t) =
      circleRounds 0 t.length (p0 :: t) ++
      (circleRounds 0 t.length (p0 :: t)).enum.map (fun p =>
        p.2.map fun f =>
          ({ home := f.away, away := f.home,
             round := p.1 + t.length + 1 } : Fixture)) := by
    simp [generateEnhancedFixtures, hcond]
  have hflen : (circleRounds 0 t.length (p0 :: t)).flatten.length =
      t.length * ((t.length + 1) / 2) := by
    rw [circleRounds_eq_map, List.length_flatten, List.map_map]
    have hmapc : ∀ r ∈ List.range t.length, (List.length ∘
        fun i => circleRound (0 + i) (jsRotate^[i] (p0 :: t))) r =
        (t.length + 1) / 2 := by
      intro r _
      simp only [Function.comp_apply]
      rw [roundFix_eq p0 t r hbye, List.length_map, List.length_range]
    rw [List.map_congr_left hmapc]
    simp [List.map_const', List.sum_replicate, smul_eq_mul]
  constructor
  · rw [hpad, List.flatten_append, List.length_append]
    have hlen2 : ((circleRounds 0 t.length (p0 :: t)).enum.map (fun p =>
        p.2.map fun f =>
          ({ home := f.away, away := f.home,
             round := p.1 + t.length + 1 } : Fixture))).flatten.length =
        (circleRounds 0 t.length (p0 :: t)).flatten.length :=
      returnLeg_length (fun u => u + t.length + 1) _ 0
    rw [hlen2, hflen]
    simp only [List.length_cons]
    obtain ⟨q, hq⟩ : ∃ q, t.length = 2 * q + 1 := ⟨t.length / 2, by omega⟩
    rw [show (t.length + 1) / 2 = q + 1 from by omega, hq,
      show 2 * q + 1 + 1 - 1 = 2 * q + 1 from by omega]
    ring
  · intro x hx y hy hxy
    rw [hpad, List.flatten_append, List.countP_append]
    have hsecond : (((circleRounds 0 t.length (p0 :: t)).enum.map
        (fun p => p.2.map fun f =>
          ({ home := f.away, away := f.home,
             round := p.1 + t.length + 1 } : Fixture))).flatten.countP
        fun f => decide (f.home = x ∧ f.away = y)) =
        ((circleRounds 0 t.length (p0 :: t)).flatten.countP
        fun f => decide (f.home = y ∧ f.away = x)) :=
      returnLeg_countP x y (fun u => u + t.length + 1) _ 0
    rw [hsecond]
    have hdisj : ∀ f ∈ (circleRounds 0 t.length (p0 :: t)).flatten,
        ¬((f.home = x ∧ f.away = y) ∧ (f.home = y ∧ f.away = x)) := by
      rintro f _ ⟨⟨h1, _⟩, ⟨h2, _⟩⟩
      exact hxy (h1 ▸ h2 ▸ rfl)
    rw [← countP_or_split _ _ _ hdisj]
    exact firstLeg_pair_count p0 t hnd hodd hbye x y hx hy hxy

/-- C5 counterexample: a player registered under the literal name BYE
(accepted by the join validation) makes the generator emit no fixture at
all for an even 2-player roster, instead of N x (N-1) = 2. -/
theorem c5_counterexample :
    (["BYE", "Ann"] : List String).Nodup ∧
    (["BYE", "Ann"] : List String).length % 2 = 0 ∧
    (generateEnhancedFixtures ["BYE", "Ann"]).flatten.length = 0 ∧
    (["BYE", "Ann"] : List String).length *
      ((["BYE", "Ann"] : List String).length - 1) ≠ 0 := by
  refine ⟨by decide, by decide, by decide, by decide⟩

/-- Witness for c5_double_round_robin on a concrete 4-player roster. -/
theorem c5_witness :
    (generateEnhancedFixtures ["Al", "Bo", "Cy", "Di"]).flatten.length =
      (["Al", "Bo", "Cy", "Di"] : List String).length *
        ((["Al", "Bo", "Cy", "Di"] : List String).length - 1) ∧
    ∀ x ∈ (["Al", "Bo", "Cy", "Di"] : List String),
      ∀ y ∈ (["Al", "Bo", "Cy", "Di"] : List String), x ≠ y →
      ((generateEnhancedFixtures
          ["Al", "Bo", "Cy", "Di"]).flatten.countP
        fun f => decide (f.home = x ∧ f.away = y)) = 1 :=
  c5_double_round_robin ["Al", "Bo", "Cy", "Di"] (by decide) (by decide)
    (by decide) (by decide)

end PongArena
